import Mathlib

/-!
# rl78flash: the frame codec, the command layer and the flash orchestrator of `src/rl78.c`

A shallow embedding of `rl78.c`.  Conventions of the embedding:

* A byte is a natural number below 256; a buffer is a list of bytes; a pointer into a
  buffer is the list of the bytes from the pointer onwards.
* `unsigned int` is a natural number reduced modulo `2 ^ 32`; `int` results are integers.
* The serial port and the static variable `communication_mode` form the `World` that every
  function threads through.  The port's input is a stream: `serial_read` is the blocking
  exact read of the port adapter and always delivers the bytes it is asked for.
* A function returns `none` when the C code would access an object outside its bounds
  (undefined behaviour), or when a loop exhausts the iteration budget given to it.
* `printf`, `fprintf`, `fflush` and `usleep` have no effect on the port and are left out.
* Local arrays that C leaves uninitialised start out as zeros; the code reads them only
  after `rl78_recv` has filled them.  The local `len` of the command functions is only ever
  written, so `rl78_recv` is handed 0 for it.
* The constants of `rl78.h` are not part of the translated sources; they are the fields of
  `Header`, and every definition takes the header as a parameter.
-/

namespace RL78

/-! ## Constants of `rl78.h` -/

/-- The constants that `rl78.c` takes from `rl78.h`. -/
structure Header where
  SOH : Nat
  STX : Nat
  ETB : Nat
  ETX : Nat
  STATUS_ACK : Nat
  STATUS_IVERIFY_BLANK_ERROR : Nat
  CMD_RESET : Nat
  CMD_VERIFY : Nat
  CMD_BLOCK_ERASE : Nat
  CMD_BLOCK_BLANK_CHECK : Nat
  CMD_PROGRAMMING : Nat
  CMD_BAUD_RATE_SET : Nat
  CMD_CHECKSUM : Nat
  CMD_SILICON_SIGNATURE : Nat
  RL78_BAUD_115200 : Nat
  RL78_BAUD_250000 : Nat
  RL78_BAUD_500000 : Nat
  RL78_BAUD_1000000 : Nat
  RESPONSE_OK : Int
  RESPONSE_CHECKSUM_ERROR : Int
  RESPONSE_FORMAT_ERROR : Int
  RESPONSE_EXPECTED_LENGTH_ERROR : Int
  FLASH_BLOCK_SIZE : Nat
  MAX_RESPONSE_LENGTH : Nat

/-- The framing constants fit in one byte (they are stored in and compared with
`unsigned char` cells). -/
def Header.framing (H : Header) : Prop :=
  H.SOH < 256 ∧ H.STX < 256 ∧ H.ETB < 256 ∧ H.ETX < 256

instance (H : Header) : Decidable H.framing := by
  unfold Header.framing; infer_instance

/-- Modelled from the spec: the values of the constants of `rl78.h`, which is not among the
translated sources.  The spec gives `ACK = 0x06`, `BLANK_ERROR = 0x1B` and three negative
codec error codes; the framing bytes are the ASCII control codes of their names, the command
and baud codes those of the RL78 serial programming protocol, the block size 1 KiB and the
response buffer 32 bytes as in the upstream header. -/
def rl78_h : Header where
  SOH := 0x01
  STX := 0x02
  ETB := 0x17
  ETX := 0x03
  STATUS_ACK := 0x06
  STATUS_IVERIFY_BLANK_ERROR := 0x1B
  CMD_RESET := 0x00
  CMD_VERIFY := 0x13
  CMD_BLOCK_ERASE := 0x22
  CMD_BLOCK_BLANK_CHECK := 0x32
  CMD_PROGRAMMING := 0x40
  CMD_BAUD_RATE_SET := 0x9A
  CMD_CHECKSUM := 0xB0
  CMD_SILICON_SIGNATURE := 0xC0
  RL78_BAUD_115200 := 0
  RL78_BAUD_250000 := 1
  RL78_BAUD_500000 := 2
  RL78_BAUD_1000000 := 3
  RESPONSE_OK := 0
  RESPONSE_CHECKSUM_ERROR := -2
  RESPONSE_FORMAT_ERROR := -1
  RESPONSE_EXPECTED_LENGTH_ERROR := -3
  FLASH_BLOCK_SIZE := 1024
  MAX_RESPONSE_LENGTH := 32

/-! ## The serial port -/

/-- The state the driver acts on: the static `communication_mode` of `rl78.c` and the
serial port behind the handle `fd`. -/
structure World where
  /-- The static variable `communication_mode` (1: single-wire, 2: two-wire). -/
  communication_mode : Nat
  /-- The bytes the port delivers, in order: `rx 0` is the next byte read. -/
  rx : Nat → Nat
  /-- The buffers handed to `serial_write`, oldest first. -/
  tx : List (List Nat)
  /-- The rates passed to `serial_set_baud`, oldest first. -/
  baud : List Nat
  /-- The result the port adapter reports for writing a buffer. -/
  write_result : List Nat → Int
  /-- The result the port adapter reports for setting a rate. -/
  set_baud_result : Nat → Int

/-- The world after `buf` has been handed to the port. -/
def World.put (w : World) (buf : List Nat) : World :=
  { w with tx := w.tx ++ [buf] }

/-- The world after `n` bytes have been taken from the port's input. -/
def World.skip (w : World) (n : Nat) : World :=
  { w with rx := fun i => w.rx (n + i) }

/-- Modelled from the spec: `serial_write` of `serial.h` (`write(bytes) → io_result`).  The
buffer is handed to the port and the adapter's result is returned. -/
def serial_write (w : World) (buf : List Nat) : Int × World :=
  (w.write_result buf, w.put buf)

/-- Modelled from the spec: `serial_read` of `serial.h` (`read_exact(buf) → io_result`).
Exactly `n` bytes are taken from the port's input and returned. -/
def serial_read (w : World) (n : Nat) : List Nat × World :=
  ((List.range n).map (fun i => w.rx i % 256), w.skip n)

/-- The input stream that delivers the bytes of `l` and then continues as `s`. -/
def feed (l : List Nat) (s : Nat → Nat) : Nat → Nat :=
  fun i => if i < l.length then l.getD i 0 else s (i - l.length)

/-- The byte the port delivers at position `i` of its input. -/
def World.byte (w : World) (i : Nat) : Nat := w.rx i % 256

/-- The length that `rl78_recv` decodes from the second byte of the input (0 stands for
256). -/
def World.data_len (w : World) : Nat := if 0 = w.byte 1 then 256 else w.byte 1

/-- A port in communication mode `mode` to which nothing has been written yet, which
delivers the stream `rx` and whose adapter reports the number of bytes written. -/
def quiet (mode : Nat) (rx : Nat → Nat) : World :=
  { communication_mode := mode, rx := rx, tx := [], baud := [],
    write_result := fun buf => buf.length, set_baud_result := fun _ => 0 }

/-! ## Machine arithmetic and buffers -/

/-- The number of values of an `unsigned int`. -/
def U32 : Nat := 4294967296

/-- Subtraction of `unsigned int` values. -/
def sub32 (a b : Nat) : Nat := (a + U32 - b % U32) % U32

/-- Addition of `unsigned int` values. -/
def add32 (a b : Nat) : Nat := (a + b) % U32

/-- Writing `bytes` into `buf` at offset `off`; `none` when the cells are not all inside
the buffer. -/
def store (buf : List Nat) (off : Nat) (bytes : List Nat) : Option (List Nat) :=
  if off + bytes.length ≤ buf.length then
    some (buf.take off ++ bytes ++ buf.drop (off + bytes.length))
  else none

/-- `memcpy(dst, src, n)`: the first `n` cells of `dst` become the first `n` bytes of `src`;
`none` when either object has fewer than `n` bytes. -/
def memcpy (dst src : List Nat) (n : Nat) : Option (List Nat) :=
  if n ≤ src.length ∧ n ≤ dst.length then some (src.take n ++ dst.drop n) else none

/-- The two's-complement negation of `s` masked to 8 bits, `(-s) & 0xFF`. -/
def neg8 (s : Nat) : Nat := ((-(s : Int)) % 256).toNat

/-! ## Frame codec (`rl78.c`, lines 102-194) -/

/-- The loop of `checksum`: `for (; len; --len) sum -= *p++;`. -/
def checksum_loop : Nat → List Nat → Nat → Option Nat
  | sum, _, 0 => some sum
  | _, [], _ + 1 => none
  | sum, b :: p, len + 1 => checksum_loop (sub32 sum b) p len

/-- `checksum(data, len)`: `sum & 0x00FF` after the loop. -/
def checksum (data : List Nat) (len : Nat) : Option Nat :=
  (checksum_loop 0 data len).map (fun sum => sum % 256)

/-- `rl78_send_cmd(fd, cmd, data, len)`.  The result is the return value and the world
after the call. -/
def rl78_send_cmd (H : Header) (w : World) (cmd : Nat) (data : List Nat) (len : Nat) :
    Option (Int × World) :=
  if 255 < len then some (-1, w)
  else if data.length < len then none
  else
    -- buf[0], buf[1], buf[2] and the memcpy to &buf[3]
    let head := [H.SOH % 256, (len + 1) % 256, cmd % 256] ++ data.take len
    match checksum (head.drop 1) (len + 2) with
    | none => none
    | some chk =>
      let buf := head ++ [chk % 256, H.ETX % 256]
      let r := serial_write w buf
      -- Read back echo
      if r.2.communication_mode = 1 then some (r.1, (serial_read r.2 buf.length).2)
      else some r

/-- `rl78_send_data(fd, data, len, last)`. -/
def rl78_send_data (H : Header) (w : World) (data : List Nat) (len : Nat) (last : Int) :
    Option (Int × World) :=
  if 256 < len then some (-1, w)
  else if data.length < len then none
  else
    let head := [H.STX % 256, len % 256] ++ data.take len
    match checksum (head.drop 1) (len + 1) with
    | none => none
    | some chk =>
      let buf := head ++ [chk % 256, (if last ≠ 0 then H.ETX else H.ETB) % 256]
      let r := serial_write w buf
      -- Read back echo
      if r.2.communication_mode = 1 then some (r.1, (serial_read r.2 buf.length).2)
      else some r

/-- What `rl78_recv` leaves behind: its return value, the caller's `data` buffer, the
caller's `*len`, and the world. -/
structure Recv where
  rc : Int
  data : List Nat
  len : Int
  world : World

/-- `rl78_recv(fd, data, len, explen)`; `data` and `len` are the contents of the caller's
buffer and of `*len` before the call.  The local array `in` has `MAX_RESPONSE_LENGTH` cells;
its initial contents are never read before they are written. -/
def rl78_recv (H : Header) (w : World) (data : List Nat) (len : Int) (explen : Int) :
    Option Recv :=
  let in0 := List.replicate H.MAX_RESPONSE_LENGTH 0
  -- receive header
  let r1 := serial_read w 2
  match store in0 0 r1.1 with
  | none => none
  | some in1 =>
    match in1[1]?, in1[0]? with
    | some b1, some b0 =>
      let data_len : Nat := if 0 = b1 then 256 else b1
      if (H.MAX_RESPONSE_LENGTH : Int) - 4 < (data_len : Int) ∨ H.STX ≠ b0 then
        some ⟨H.RESPONSE_FORMAT_ERROR, data, len, r1.2⟩
      else if explen ≠ (data_len : Int) then
        some ⟨H.RESPONSE_EXPECTED_LENGTH_ERROR, data, len, r1.2⟩
      else
        -- receive data field, checksum and footer byte
        let r2 := serial_read r1.2 (data_len + 2)
        match store in1 2 r2.1 with
        | none => none
        | some in2 =>
          match in2[data_len + 3]? with
          | none => none
          | some trailer =>
            if trailer ≠ H.ETB ∧ trailer ≠ H.ETX then
              some ⟨H.RESPONSE_FORMAT_ERROR, data, len, r2.2⟩
            else
              match checksum (in2.drop 1) (data_len + 1), in2[data_len + 2]? with
              | some chk, some c =>
                if chk ≠ c then
                  some ⟨H.RESPONSE_CHECKSUM_ERROR, data, len, r2.2⟩
                else
                  match memcpy data (in2.drop 2) data_len with
                  | none => none
                  | some data1 => some ⟨H.RESPONSE_OK, data1, data_len, r2.2⟩
              | _, _ => none
    | _, _ => none

/-- The command record for command code `cmd` and payload `p`. -/
def cmd_frame (H : Header) (cmd : Nat) (p : List Nat) : List Nat :=
  [H.SOH % 256, (p.length + 1) % 256, cmd % 256] ++ p ++
    [neg8 (p.length + 1 + cmd + p.sum), H.ETX % 256]

/-- The data record for payload `p`; `last` selects the trailer. -/
def data_frame (H : Header) (p : List Nat) (last : Int) : List Nat :=
  [H.STX % 256, p.length % 256] ++ p ++
    [neg8 (p.length + p.sum), (if last ≠ 0 then H.ETX else H.ETB) % 256]

/-- The world after the frame `buf` has been written and, in single-wire mode, its echo has
been read back. -/
def sent (w : World) (buf : List Nat) : World :=
  if w.communication_mode = 1 then (w.put buf).skip buf.length else w.put buf

/-! ## Command layer (`rl78.c`, lines 348-422 and 456-627) -/

/-- The four bytes of an `unsigned int` in memory (little-endian host), the object that
`memcpy(buf, &address, 3)` and `rl78_send_cmd(fd, cmd, &address, 3)` read from. -/
def le32 (a : Nat) : List Nat :=
  [a % 256, a / 256 % 256, a / 65536 % 256, a / 16777216 % 256]

/-- `rl78_cmd_block_erase(fd, address)`.  The local `data[1]` starts out indeterminate; it
is read only after `rl78_recv` has filled it. -/
def rl78_cmd_block_erase (H : Header) (w : World) (address : Nat) : Option (Int × World) :=
  match rl78_send_cmd H w H.CMD_BLOCK_ERASE (le32 address) 3 with
  | none => none
  | some s =>
    match rl78_recv H s.2 [0] 0 1 with
    | none => none
    | some r =>
      if H.RESPONSE_OK ≠ r.rc then some (r.rc, r.world)
      else
        match r.data[0]? with
        | none => none
        | some d0 =>
          if H.STATUS_ACK ≠ d0 then some ((d0 : Int), r.world)
          else some (0, r.world)

/-- `rl78_cmd_block_blank_check(fd, address_start, address_end)`. -/
def rl78_cmd_block_blank_check (H : Header) (w : World) (address_start address_end : Nat) :
    Option (Int × World) :=
  -- memcpy(buf + 0, &address_start, 3); memcpy(buf + 3, &address_end, 3); buf[6] = 0;
  let buf := (le32 address_start).take 3 ++ (le32 address_end).take 3 ++ [0]
  match rl78_send_cmd H w H.CMD_BLOCK_BLANK_CHECK buf 7 with
  | none => none
  | some s =>
    match rl78_recv H s.2 [0] 0 1 with
    | none => none
    | some r =>
      if H.RESPONSE_OK ≠ r.rc then some (r.rc, r.world)
      else
        match r.data[0]? with
        | none => none
        | some d0 =>
          if H.STATUS_ACK ≠ d0 ∧ H.STATUS_IVERIFY_BLANK_ERROR ≠ d0 then
            some ((d0 : Int), r.world)
          else if H.STATUS_ACK = d0 then some (0, r.world)
          else some (1, r.world)

/-- The `while (rom_length)` loop of `rl78_cmd_programming`.  The result is `(true, v)`
when the loop body returned `v` from the function and `(false, rc)` when the loop ran to
its end with `rc` the result of the last `rl78_recv`; `data` is the local `data[2]`.  The
first argument bounds the number of iterations. -/
def rl78_cmd_programming_loop (H : Header) :
    Nat → World → Int → List Nat → Nat → List Nat → Option (Bool × Int × List Nat × World)
  | fuel, w, rc, data, rom_length, rom_p =>
    if rom_length = 0 then some (false, rc, data, w)
    else
      match fuel with
      | 0 => none
      | fuel + 1 =>
        match (if 256 < rom_length then rl78_send_data H w rom_p 256 0
               else rl78_send_data H w rom_p rom_length 1) with
        | none => none
        | some s =>
          let rom_p1 := if 256 < rom_length then rom_p.drop 256 else rom_p.drop rom_length
          let rom_length1 :=
            if 256 < rom_length then sub32 rom_length 256 else sub32 rom_length rom_length
          match rl78_recv H s.2 data 0 2 with
          | none => none
          | some r =>
            if H.RESPONSE_OK ≠ r.rc then some (true, r.rc, r.data, r.world)
            else
              match r.data[0]?, r.data[1]? with
              | some d0, some d1 =>
                if H.STATUS_ACK ≠ d0 then some (true, (d0 : Int), r.data, r.world)
                else if H.STATUS_ACK ≠ d1 then some (true, (d1 : Int), r.data, r.world)
                else rl78_cmd_programming_loop H fuel r.world r.rc r.data rom_length1 rom_p1
              | _, _ => none

/-- `rl78_cmd_programming(fd, address_start, address_end, rom)`. -/
def rl78_cmd_programming (H : Header) (w : World) (address_start address_end : Nat)
    (rom : List Nat) : Option (Int × World) :=
  let buf := (le32 address_start).take 3 ++ (le32 address_end).take 3
  match rl78_send_cmd H w H.CMD_PROGRAMMING buf 6 with
  | none => none
  | some s =>
    match rl78_recv H s.2 [0, 0] 0 1 with
    | none => none
    | some r =>
      if H.RESPONSE_OK ≠ r.rc then some (r.rc, r.world)
      else
        match r.data[0]? with
        | none => none
        | some d0 =>
          if H.STATUS_ACK ≠ d0 then some ((d0 : Int), r.world)
          else
            let rom_length := add32 (sub32 address_end address_start) 1
            -- Send data
            match rl78_cmd_programming_loop H rom_length r.world r.rc r.data rom_length rom with
            | none => none
            | some (true, v, _, w1) => some (v, w1)
            | some (false, _, data1, w1) =>
              -- Receive status of completion
              match rl78_recv H w1 data1 0 1 with
              | none => none
              | some r2 =>
                if H.RESPONSE_OK ≠ r2.rc then some (r2.rc, r2.world)
                else
                  match r2.data[0]? with
                  | none => none
                  | some e0 =>
                    if H.STATUS_ACK ≠ e0 then some ((e0 : Int), r2.world)
                    else some (r2.rc, r2.world)

/-- The `while (rom_length)` loop of `rl78_cmd_verify`; the result is read as for
`rl78_cmd_programming_loop`. -/
def rl78_cmd_verify_loop (H : Header) :
    Nat → World → Int → List Nat → Nat → List Nat → Option (Bool × Int × List Nat × World)
  | fuel, w, rc, data, rom_length, rom_p =>
    if rom_length = 0 then some (false, rc, data, w)
    else
      match fuel with
      | 0 => none
      | fuel + 1 =>
        match (if 256 < rom_length then rl78_send_data H w rom_p 256 0
               else rl78_send_data H w rom_p rom_length 1) with
        | none => none
        | some s =>
          let rom_p1 := if 256 < rom_length then rom_p.drop 256 else rom_p.drop rom_length
          let rom_length1 :=
            if 256 < rom_length then sub32 rom_length 256 else sub32 rom_length rom_length
          match rl78_recv H s.2 data 0 2 with
          | none => none
          | some r =>
            if H.RESPONSE_OK ≠ r.rc then some (true, r.rc, r.data, r.world)
            else
              match r.data[0]?, r.data[1]? with
              | some d0, some d1 =>
                if H.STATUS_ACK ≠ d0 then some (true, (d0 : Int), r.data, r.world)
                else if H.STATUS_ACK ≠ d1 then some (true, (d1 : Int), r.data, r.world)
                else rl78_cmd_verify_loop H fuel r.world r.rc r.data rom_length1 rom_p1
              | _, _ => none

/-- `rl78_cmd_verify(fd, address_start, address_end, rom)`. -/
def rl78_cmd_verify (H : Header) (w : World) (address_start address_end : Nat)
    (rom : List Nat) : Option (Int × World) :=
  let buf := (le32 address_start).take 3 ++ (le32 address_end).take 3
  match rl78_send_cmd H w H.CMD_VERIFY buf 6 with
  | none => none
  | some s =>
    match rl78_recv H s.2 [0, 0] 0 1 with
    | none => none
    | some r =>
      if H.RESPONSE_OK ≠ r.rc then some (r.rc, r.world)
      else
        match r.data[0]? with
        | none => none
        | some d0 =>
          if H.STATUS_ACK ≠ d0 then some ((d0 : Int), r.world)
          else
            let rom_length := add32 (sub32 address_end address_start) 1
            -- Send data
            match rl78_cmd_verify_loop H rom_length r.world r.rc r.data rom_length rom with
            | none => none
            | some (_, v, _, w1) => some (v, w1)

/-! ## Flash orchestrator (`rl78.c`, lines 629-807) -/

/-- `allFFs(mem, size)`. -/
def allFFs : List Nat → Nat → Option Int
  | _, 0 => some 1
  | [], _ + 1 => none
  | b :: p, i + 1 => if 0xFF ≠ b then some 0 else allFFs p i

/-- Bitwise complement of an `unsigned int`. -/
def not32 (a : Nat) : Nat := U32 - 1 - a % U32

/-- `size & ~(FLASH_BLOCK_SIZE - 1)`, the initial value of the loop counter `i`. -/
def block_mask (H : Header) (size : Nat) : Nat :=
  size &&& not32 (sub32 H.FLASH_BLOCK_SIZE 1)

/-- The loop `for (; i; i -= FLASH_BLOCK_SIZE)` of `rl78_program`, entered with the current
values of `rc`, `i`, `address` and `mem`; the result is the `rc` the function returns and the
world it leaves.  The first argument bounds the number of iterations. -/
def rl78_program_loop (H : Header) :
    Nat → World → Int → Nat → Nat → List Nat → Option (Int × World)
  | fuel, w, rc, i, address, mem =>
    if i = 0 then some (rc, w)
    else
      match fuel with
      | 0 => none
      | fuel + 1 =>
        match allFFs mem H.FLASH_BLOCK_SIZE with
        | none => none
        | some ff =>
          if ff = 0 then
            -- Check if block is ready to program new content
            match rl78_cmd_block_blank_check H w address
                (sub32 (add32 address H.FLASH_BLOCK_SIZE) 1) with
            | none => none
            | some (rc1, w1) =>
              if 0 > rc1 then some (rc1, w1)
              else
                -- If block is not empty - erase it
                match (if 0 < rc1 then rl78_cmd_block_erase H w1 address
                       else some (rc1, w1)) with
                | none => none
                | some (rc2, w2) =>
                  if 0 < rc1 ∧ 0 > rc2 then some (rc2, w2)
                  else
                    -- Write new content
                    match rl78_cmd_programming H w2 address
                        (sub32 (add32 address H.FLASH_BLOCK_SIZE) 1) mem with
                    | none => none
                    | some (rc3, w3) =>
                      if 0 > rc3 then some (rc3, w3)
                      else
                        rl78_program_loop H fuel w3 rc3 (sub32 i H.FLASH_BLOCK_SIZE)
                          (add32 address H.FLASH_BLOCK_SIZE) (mem.drop H.FLASH_BLOCK_SIZE)
          else
            rl78_program_loop H fuel w rc (sub32 i H.FLASH_BLOCK_SIZE)
              (add32 address H.FLASH_BLOCK_SIZE) (mem.drop H.FLASH_BLOCK_SIZE)

/-- `rl78_program(fd, address, data, size)`. -/
def rl78_program (H : Header) (w : World) (address : Nat) (data : List Nat) (size : Nat) :
    Option (Int × World) :=
  rl78_program_loop H (block_mask H size) w 0 (block_mask H size) address data

/-- The loop of `rl78_erase`. -/
def rl78_erase_loop (H : Header) : Nat → World → Int → Nat → Nat → Option (Int × World)
  | fuel, w, rc, i, address =>
    if i = 0 then some (rc, w)
    else
      match fuel with
      | 0 => none
      | fuel + 1 =>
        match rl78_cmd_block_blank_check H w address
            (sub32 (add32 address H.FLASH_BLOCK_SIZE) 1) with
        | none => none
        | some (rc1, w1) =>
          if 0 > rc1 then some (rc1, w1)
          else if 0 < rc1 then
            -- If block is not empty
            match rl78_cmd_block_erase H w1 address with
            | none => none
            | some (rc2, w2) =>
              if 0 > rc2 then some (rc2, w2)
              else
                rl78_erase_loop H fuel w2 rc2 (sub32 i H.FLASH_BLOCK_SIZE)
                  (add32 address H.FLASH_BLOCK_SIZE)
          else
            -- if block is already empty
            rl78_erase_loop H fuel w1 rc1 (sub32 i H.FLASH_BLOCK_SIZE)
              (add32 address H.FLASH_BLOCK_SIZE)

/-- `rl78_erase(fd, start_address, size)`. -/
def rl78_erase (H : Header) (w : World) (start_address size : Nat) : Option (Int × World) :=
  rl78_erase_loop H (block_mask H size) w 0 (block_mask H size) start_address

/-- The loop of `rl78_verify`. -/
def rl78_verify_loop (H : Header) :
    Nat → World → Int → Nat → Nat → List Nat → Option (Int × World)
  | fuel, w, rc, i, address, mem =>
    if i = 0 then some (rc, w)
    else
      match fuel with
      | 0 => none
      | fuel + 1 =>
        match allFFs mem H.FLASH_BLOCK_SIZE with
        | none => none
        | some ff =>
          if ff ≠ 0 then
            -- Check if block is blank
            match rl78_cmd_block_blank_check H w address
                (sub32 (add32 address H.FLASH_BLOCK_SIZE) 1) with
            | none => none
            | some (rc1, w1) =>
              if 0 > rc1 then some (rc1, w1)
              else if 0 < rc1 then some (rc1, w1)
              else
                rl78_verify_loop H fuel w1 rc1 (sub32 i H.FLASH_BLOCK_SIZE)
                  (add32 address H.FLASH_BLOCK_SIZE) (mem.drop H.FLASH_BLOCK_SIZE)
          else
            -- If block is not blank
            match rl78_cmd_verify H w address
                (sub32 (add32 address H.FLASH_BLOCK_SIZE) 1) mem with
            | none => none
            | some (rc1, w1) =>
              if 0 ≠ rc1 then some (rc1, w1)
              else
                rl78_verify_loop H fuel w1 rc1 (sub32 i H.FLASH_BLOCK_SIZE)
                  (add32 address H.FLASH_BLOCK_SIZE) (mem.drop H.FLASH_BLOCK_SIZE)

/-- `rl78_verify(fd, address, data, size)`. -/
def rl78_verify (H : Header) (w : World) (address : Nat) (data : List Nat) (size : Nat) :
    Option (Int × World) :=
  rl78_verify_loop H (block_mask H size) w 0 (block_mask H size) address data

/-! ## Records the target sends, and the specification of a block visit -/

/-- The response record that carries the single status byte `d`. -/
def status_frame (H : Header) (d : Nat) : List Nat :=
  [H.STX, 1, d, neg8 (1 + d), H.ETX]

/-- What `rl78_program` does for a visited block at address `a` whose bytes start at `mem`
and are not all 0xFF.  `run` is the outcome of the operation from this visit on and
`next rc w` its outcome once the block has been dealt with, `rc` and `w` being the result of
the programming command and the world it leaves.  The visit hands to the port, in this
order and with nothing else: the blank-check record for `[a, a + FLASH_BLOCK_SIZE - 1]`; the
block-erase record for `a` exactly when the blank-check returned a positive value; then the
programming record for `[a, a + FLASH_BLOCK_SIZE - 1]` followed by data records whose
payloads, in order, are the bytes of the block: all of them, unless the programming command
returns a codec error or a status byte other than `ACK`, and then a prefix of them.  A
negative result of the blank-check or of the erase ends the operation with that result
before the next step. -/
def program_visit (H : Header) (w : World) (a : Nat) (mem : List Nat)
    (run : Option (Int × World)) (next : Int → World → Option (Int × World)) : Prop :=
  let e := sub32 (add32 a H.FLASH_BLOCK_SIZE) 1
  let check := cmd_frame H H.CMD_BLOCK_BLANK_CHECK ((le32 a).take 3 ++ (le32 e).take 3 ++ [0])
  let erase := cmd_frame H H.CMD_BLOCK_ERASE ((le32 a).take 3)
  let prog := cmd_frame H H.CMD_PROGRAMMING ((le32 a).take 3 ++ (le32 e).take 3)
  let programmed (v : World) (before : List (List Nat)) : Prop :=
    ∃ rc3 w3 qs, rl78_cmd_programming H v a e mem = some (rc3, w3) ∧
      w3.tx = w.tx ++ before ++ prog :: List.map (fun q => data_frame H q.1 q.2) qs ∧
      (qs.map Prod.fst).flatten <+: mem.take H.FLASH_BLOCK_SIZE ∧
      ((qs.map Prod.fst).flatten = mem.take H.FLASH_BLOCK_SIZE ∨
        rc3 ≠ H.RESPONSE_OK ∨ ∃ d : Nat, rc3 = (d : Int) ∧ H.STATUS_ACK ≠ d) ∧
      run = if rc3 < 0 then some (rc3, w3) else next rc3 w3
  ∃ rc1 w1, rl78_cmd_block_blank_check H w a e = some (rc1, w1) ∧
    w1.tx = w.tx ++ [check] ∧
    (rc1 < 0 → run = some (rc1, w1)) ∧
    (rc1 = 0 → programmed w1 [check]) ∧
    (0 < rc1 → ∃ rc2 w2, rl78_cmd_block_erase H w1 a = some (rc2, w2) ∧
      w2.tx = w.tx ++ [check, erase] ∧
      (rc2 < 0 → run = some (rc2, w2)) ∧
      (0 ≤ rc2 → programmed w2 [check, erase]))

/-! ## Remaining commands (`rl78.c`, lines 196-224, 283-346 and 543-553) -/

/-- The return codes of `rl78_recv` have the signs the callers rely on: success is 0 and
the three codec errors are negative. -/
def Header.codes (H : Header) : Prop :=
  H.RESPONSE_OK = 0 ∧ H.RESPONSE_FORMAT_ERROR < 0 ∧ H.RESPONSE_CHECKSUM_ERROR < 0 ∧
    H.RESPONSE_EXPECTED_LENGTH_ERROR < 0

instance (H : Header) : Decidable H.codes := by
  unfold Header.codes; infer_instance

/-- `rl78_cmd_reset(fd)`; the command has no payload (`NULL`, length 0). -/
def rl78_cmd_reset (H : Header) (w : World) : Option (Int × World) :=
  match rl78_send_cmd H w H.CMD_RESET [] 0 with
  | none => none
  | some s =>
    match rl78_recv H s.2 [0, 0, 0] 0 1 with
    | none => none
    | some r =>
      if H.RESPONSE_OK ≠ r.rc then some (r.rc, r.world)
      else
        match r.data[0]? with
        | none => none
        | some d0 =>
          if H.STATUS_ACK ≠ d0 then some ((d0 : Int), r.world)
          else some (0, r.world)

/-- `memcpy(&x, p, 3)` into an `unsigned int x = 0` on a little-endian host. -/
def le24 : List Nat → Option Nat
  | b0 :: b1 :: b2 :: _ => some (b0 + 256 * b1 + 65536 * b2)
  | _ => none

/-- What `rl78_cmd_silicon_signature` leaves behind: its return value, the objects behind
the three output pointers (`none` for a `NULL` pointer), and the world. -/
structure Signature where
  rc : Int
  device_name : Option (List Nat)
  code_size : Option Nat
  data_size : Option Nat
  world : World

/-- `memcpy(device_name, data + 3, 10); device_name[10] = 0;` under `NULL != device_name`.
The outer `none` is an access outside the caller's array. -/
def store_name (device_name : Option (List Nat)) (data : List Nat) :
    Option (Option (List Nat)) :=
  match device_name with
  | none => some none
  | some dn =>
    match memcpy dn (data.drop 3) 10 with
    | none => none
    | some dn1 => if 10 < dn1.length then some (some (dn1.set 10 0)) else none

/-- `rl78_cmd_silicon_signature(fd, device_name, code_size, data_size)`; the three pointer
arguments are given by the objects they point to. -/
def rl78_cmd_silicon_signature (H : Header) (w : World) (device_name : Option (List Nat))
    (code_size data_size : Option Nat) : Option Signature :=
  match rl78_send_cmd H w H.CMD_SILICON_SIGNATURE [] 0 with
  | none => none
  | some s =>
    match rl78_recv H s.2 (List.replicate 22 0) 0 1 with
    | none => none
    | some r =>
      if H.RESPONSE_OK ≠ r.rc then some ⟨r.rc, device_name, code_size, data_size, r.world⟩
      else
        match r.data[0]? with
        | none => none
        | some d0 =>
          if H.STATUS_ACK ≠ d0 then
            some ⟨(d0 : Int), device_name, code_size, data_size, r.world⟩
          else
            match rl78_recv H r.world r.data r.len 22 with
            | none => none
            | some r2 =>
              if H.RESPONSE_OK ≠ r2.rc then
                some ⟨r2.rc, device_name, code_size, data_size, r2.world⟩
              else
                match store_name device_name r2.data,
                    le24 (r2.data.drop 13), le24 (r2.data.drop 16) with
                | some name1, some rom_code_address, some rom_data_address =>
                  let rom_code_size := add32 rom_code_address 1
                  let rom_data_size :=
                    if rom_data_address ≠ 0 then add32 (sub32 rom_data_address 0x000F1000) 1
                    else 0
                  some ⟨0, name1, code_size.map (fun _ => rom_code_size),
                    data_size.map (fun _ => rom_data_size), r2.world⟩
                | _, _, _ => none

/-- The loop of `rl78_checksum`: `for (; i; --i) sum -= *p++;`. -/
def rl78_checksum_loop : Nat → List Nat → Nat → Option Nat
  | sum, _, 0 => some sum
  | _, [], _ + 1 => none
  | sum, b :: p, i + 1 => rl78_checksum_loop (sub32 sum b) p i

/-- `rl78_checksum(rom, len)`: `sum & 0x0000FFFF` after the loop. -/
def rl78_checksum (rom : List Nat) (len : Nat) : Option Nat :=
  (rl78_checksum_loop 0 rom len).map (fun sum => sum % 65536)

/-- The two's-complement negation of `s` masked to 16 bits, `(-s) & 0xFFFF`. -/
def neg16 (s : Nat) : Nat := ((-(s : Int)) % 65536).toNat

/-! ## A target that acknowledges a bulk transfer -/

/-- The response record that carries the two status bytes `d0` and `d1`. -/
def status2_frame (H : Header) (d0 d1 : Nat) : List Nat :=
  [H.STX, 2, d0, d1, neg8 (2 + d0 + d1), H.ETX]

/-- The bytes a single-wire port delivers back for the frame `f` written to it (its echo);
a two-wire port delivers nothing. -/
def echo (mode : Nat) (f : List Nat) : List Nat := if mode = 1 then f else []

/-- The payload `p` cut into `ceil(|p| / 256)` pieces of at most 256 bytes, each with the
`last` flag of its data record: 0 for every piece but the last one. -/
def chunks (p : List Nat) : List (List Nat × Int) :=
  (List.range ((p.length + 255) / 256)).map
    (fun k => ((p.drop (256 * k)).take 256, if k + 1 < (p.length + 255) / 256 then 0 else 1))

/-- What the port delivers during the transfer of the data records `qs` when the target
answers every record with the two status bytes `ACK`, `ACK`. -/
def transfer_script (H : Header) (mode : Nat) (qs : List (List Nat × Int)) : List Nat :=
  (qs.map (fun q =>
    echo mode (data_frame H q.1 q.2) ++ status2_frame H H.STATUS_ACK H.STATUS_ACK)).flatten

/-! ## Block visits of the orchestrator loops -/

/-- The body of the loop of `rl78_program` for the block at `address` whose bytes start at
`mem`, entered with the result `rc` so far: the new result, the world, and whether the loop
is left (`break`). -/
def program_block (H : Header) (w : World) (rc : Int) (address : Nat) (mem : List Nat) :
    Option (Int × World × Bool) :=
  match allFFs mem H.FLASH_BLOCK_SIZE with
  | none => none
  | some ff =>
    if ff = 0 then
      match rl78_cmd_block_blank_check H w address
          (sub32 (add32 address H.FLASH_BLOCK_SIZE) 1) with
      | none => none
      | some (rc1, w1) =>
        if 0 > rc1 then some (rc1, w1, true)
        else
          match (if 0 < rc1 then rl78_cmd_block_erase H w1 address
                 else some (rc1, w1)) with
          | none => none
          | some (rc2, w2) =>
            if 0 < rc1 ∧ 0 > rc2 then some (rc2, w2, true)
            else
              match rl78_cmd_programming H w2 address
                  (sub32 (add32 address H.FLASH_BLOCK_SIZE) 1) mem with
              | none => none
              | some (rc3, w3) =>
                if 0 > rc3 then some (rc3, w3, true) else some (rc3, w3, false)
    else some (rc, w, false)

/-- The body of the loop of `rl78_erase` for the block at `address`. -/
def erase_block (H : Header) (w : World) (address : Nat) : Option (Int × World × Bool) :=
  match rl78_cmd_block_blank_check H w address
      (sub32 (add32 address H.FLASH_BLOCK_SIZE) 1) with
  | none => none
  | some (rc1, w1) =>
    if 0 > rc1 then some (rc1, w1, true)
    else if 0 < rc1 then
      match rl78_cmd_block_erase H w1 address with
      | none => none
      | some (rc2, w2) => if 0 > rc2 then some (rc2, w2, true) else some (rc2, w2, false)
    else some (rc1, w1, false)

/-- The body of the loop of `rl78_verify` for the block at `address` whose bytes start at
`mem`. -/
def verify_block (H : Header) (w : World) (address : Nat) (mem : List Nat) :
    Option (Int × World × Bool) :=
  match allFFs mem H.FLASH_BLOCK_SIZE with
  | none => none
  | some ff =>
    if ff ≠ 0 then
      match rl78_cmd_block_blank_check H w address
          (sub32 (add32 address H.FLASH_BLOCK_SIZE) 1) with
      | none => none
      | some (rc1, w1) =>
        if 0 > rc1 then some (rc1, w1, true)
        else if 0 < rc1 then some (rc1, w1, true)
        else some (rc1, w1, false)
    else
      match rl78_cmd_verify H w address
          (sub32 (add32 address H.FLASH_BLOCK_SIZE) 1) mem with
      | none => none
      | some (rc1, w1) => if 0 ≠ rc1 then some (rc1, w1, true) else some (rc1, w1, false)

/-- The visits of `n` blocks of `F` bytes in order, from block `k` of the region that
starts at address `start` on: block `j` is visited at address `start + j * F` with its own
`F` bytes of `data` and nothing else, and a visit that leaves the loop ends the operation
with its result. -/
def for_blocks (visit : World → Int → Nat → List Nat → Option (Int × World × Bool))
    (F start : Nat) (data : List Nat) : Nat → Nat → World → Int → Option (Int × World)
  | 0, _, w, rc => some (rc, w)
  | n + 1, k, w, rc =>
    match visit w rc ((start + k * F) % U32) ((data.drop (k * F)).take F) with
    | none => none
    | some (rc1, w1, true) => some (rc1, w1)
    | some (rc1, w1, false) => for_blocks visit F start data n (k + 1) w1 rc1

/-! ## Baud rate negotiation (`rl78.c`, lines 226-281) -/

/-- Modelled from the spec: `serial_set_baud` of `serial.h` (`set_baud(rate)`).  The rate is
handed to the port and the adapter's result is returned. -/
def serial_set_baud (w : World) (rate : Nat) : Int × World :=
  (w.set_baud_result rate, { w with baud := w.baud ++ [rate] })

/-- The `switch (baud)` of `rl78_cmd_baud_rate_set`: the value of `baud` after the switch
and the `baud_code` it selects.  The `default` label replaces the rate by 115200 and falls
through to `case 115200`. -/
def baud_switch (H : Header) (baud : Int) : Int × Nat :=
  if baud = 115200 then (115200, H.RL78_BAUD_115200)
  else if baud = 250000 then (250000, H.RL78_BAUD_250000)
  else if baud = 500000 then (500000, H.RL78_BAUD_500000)
  else if baud = 1000000 then (1000000, H.RL78_BAUD_1000000)
  else (115200, H.RL78_BAUD_115200)

/-- `rl78_cmd_baud_rate_set(fd, baud, voltage)`.  The floating-point product is outside the
embedding: `tenths` is the value of `(int)(voltage * 10)`, which is stored into the
`unsigned char` cell `buf[1]`. -/
def rl78_cmd_baud_rate_set (H : Header) (w : World) (baud tenths : Int) :
    Option (Int × World) :=
  let sw := baud_switch H baud
  let buf := [sw.2 % 256, (tenths % 256).toNat]
  match rl78_send_cmd H w H.CMD_BAUD_RATE_SET buf 2 with
  | none => none
  | some s =>
    match rl78_recv H s.2 [0, 0, 0] 0 3 with
    | none => none
    | some r =>
      if H.RESPONSE_OK ≠ r.rc then some (r.rc, r.world)
      else
        match r.data[0]? with
        | none => none
        | some d0 =>
          if H.STATUS_ACK ≠ d0 then some ((d0 : Int), r.world)
          -- If no need to change baudrate, just exit
          else if 115200 = sw.1 then some (0, r.world)
          else some (serial_set_baud r.world sw.1.toNat)

/-- The response record that carries the three bytes `d0`, `d1` and `d2`. -/
def status3_frame (H : Header) (d0 d1 d2 : Nat) : List Nat :=
  [H.STX, 3, d0, d1, d2, neg8 (3 + d0 + d1 + d2), H.ETX]
/-! ## The frame codec: auxiliary results -/


theorem checksum_loop_spec (len : Nat) : ∀ (data : List Nat) (s : Nat), len ≤ data.length →
    ∃ r, checksum_loop s data len = some r ∧ (r + (data.take len).sum) % U32 = s % U32 := by
  induction len with
  | zero => intro data s _; exact ⟨s, by simp [checksum_loop], by simp⟩
  | succ n ih =>
    intro data s h
    cases data with
    | nil => simp at h
    | cons b p =>
      obtain ⟨r, hr, hs⟩ := ih p (sub32 s b) (by simpa using h)
      refine ⟨r, by simpa [checksum_loop] using hr, ?_⟩
      simp only [List.take_succ_cons, List.sum_cons]
      unfold sub32 U32 at hs
      unfold U32
      omega

theorem neg8_congr (a b : Nat) (h : a % 256 = b % 256) : neg8 a = neg8 b := by
  unfold neg8; omega

theorem checksum_spec (data : List Nat) (len : Nat) (h : len ≤ data.length) :
    checksum data len = some (neg8 (data.take len).sum) := by
  obtain ⟨r, hr, hs⟩ := checksum_loop_spec len data 0 h
  simp only [checksum, hr, Option.map_some']
  congr 1
  unfold U32 at hs
  unfold neg8
  omega

theorem neg8_lt (s : Nat) : neg8 s < 256 := by unfold neg8; omega

theorem rl78_send_cmd_eq (H : Header) (w : World) (cmd : Nat) (data : List Nat) (len : Nat)
    (h255 : len ≤ 255) (hlen : len ≤ data.length) :
    rl78_send_cmd H w cmd data len =
      some (w.write_result (cmd_frame H cmd (data.take len)),
        sent w (cmd_frame H cmd (data.take len))) := by
  have hl : (data.take len).length = len := by simp [hlen]
  have hck : checksum ([(len + 1) % 256, cmd % 256] ++ data.take len) (len + 2) =
      some (neg8 (len + 1 + cmd + (data.take len).sum)) := by
    rw [checksum_spec _ _ (by simp [hl])]
    congr 1
    apply neg8_congr
    rw [List.take_of_length_le (by simp [hl])]
    simp only [List.cons_append, List.nil_append, List.sum_cons]
    omega
  unfold rl78_send_cmd
  rw [if_neg (by omega), if_neg (by omega)]
  simp only [List.cons_append, List.nil_append, List.drop_succ_cons, List.drop_zero] at hck ⊢
  rw [hck]
  simp only [cmd_frame, sent, serial_write, serial_read, hl, Nat.mod_eq_of_lt (neg8_lt _)]
  by_cases hm : w.communication_mode = 1 <;> simp [hm, World.put, hl]

theorem rl78_send_data_eq (H : Header) (w : World) (data : List Nat) (len : Nat) (last : Int)
    (h256 : len ≤ 256) (hlen : len ≤ data.length) :
    rl78_send_data H w data len last =
      some (w.write_result (data_frame H (data.take len) last),
        sent w (data_frame H (data.take len) last)) := by
  have hl : (data.take len).length = len := by simp [hlen]
  have hck : checksum ([len % 256] ++ data.take len) (len + 1) =
      some (neg8 (len + (data.take len).sum)) := by
    rw [checksum_spec _ _ (by simp [hl])]
    congr 1
    apply neg8_congr
    rw [List.take_of_length_le (by simp [hl])]
    simp only [List.cons_append, List.nil_append, List.sum_cons]
    omega
  unfold rl78_send_data
  rw [if_neg (by omega), if_neg (by omega)]
  simp only [List.cons_append, List.nil_append, List.drop_succ_cons, List.drop_zero] at hck ⊢
  rw [hck]
  simp only [data_frame, sent, serial_write, serial_read, hl, Nat.mod_eq_of_lt (neg8_lt _)]
  by_cases hm : w.communication_mode = 1 <;> simp [hm, World.put, hl]


theorem store_replicate (M : Nat) (a b : Nat) (hM : 2 ≤ M) :
    store (List.replicate M 0) 0 [a, b] = some ([a, b] ++ List.replicate (M - 2) 0) := by
  simp [store, hM]

theorem store_body (M n : Nat) (a b : Nat) (body : List Nat) (hb : body.length = n + 2)
    (hM : n + 4 ≤ M) :
    store ([a, b] ++ List.replicate (M - 2) 0) 2 body =
      some ([a, b] ++ body ++ List.replicate (M - (n + 4)) 0) := by
  have : 2 + (n + 2) ≤ M - 2 + 2 := by omega
  simp only [store, hb, List.length_append, List.length_cons, List.length_nil,
    List.length_replicate, this, if_true, Option.some.injEq]
  have e : 2 + (n + 2) = (n + 2) + 1 + 1 := by omega
  have e2 : M - 2 - (n + 2) = M - (n + 4) := by omega
  have e3 : n + 2 + 1 + 1 ≤ 0 + 1 + 1 + (M - 2) := by omega
  rw [e, if_pos e3]
  simp [e2]

theorem recv_buffer (n a b : Nat) (body rest : List Nat) (hb : body.length = n + 2) :
    ([a, b] ++ body ++ rest)[n + 3]? = body[n + 1]? ∧
    ([a, b] ++ body ++ rest)[n + 2]? = body[n]? ∧
    checksum (([a, b] ++ body ++ rest).drop 1) (n + 1) = some (neg8 (b + (body.take n).sum)) ∧
    ∀ data, memcpy data (([a, b] ++ body ++ rest).drop 2) n =
      if n ≤ data.length then some (body.take n ++ data.drop n) else none := by
  refine ⟨?_, ?_, ?_, ?_⟩
  · simp only [List.cons_append, List.nil_append, List.getElem?_cons_succ]
    rw [List.getElem?_append_left (by omega)]
  · simp only [List.cons_append, List.nil_append, List.getElem?_cons_succ]
    rw [List.getElem?_append_left (by omega)]
  · simp only [List.cons_append, List.nil_append, List.drop_succ_cons, List.drop_zero]
    rw [checksum_spec _ _ (by simp; omega)]
    simp only [List.take_succ_cons, List.sum_cons]
    rw [List.take_append_of_le_length (by omega)]
  · intro data
    simp only [List.cons_append, List.nil_append, List.drop_succ_cons, List.drop_zero, memcpy]
    rw [List.take_append_of_le_length (by omega)]
    have : n ≤ body.length + rest.length := by omega
    simp [this]

theorem body_getElem (w : World) (n k : Nat) (hk : k < n) :
    ((List.range n).map (fun i => w.byte i))[k]? = some (w.byte k) := by
  simp [hk]

theorem rl78_recv_eq (H : Header) (w : World) (data : List Nat) (len explen : Int)
    (hM : 2 ≤ H.MAX_RESPONSE_LENGTH) :
    rl78_recv H w data len explen =
      (let n := w.data_len
       let body := (List.range (n + 2)).map (fun i => (w.skip 2).byte i)
       if H.MAX_RESPONSE_LENGTH < n + 4 ∨ H.STX ≠ w.byte 0 then
         some ⟨H.RESPONSE_FORMAT_ERROR, data, len, w.skip 2⟩
       else if explen ≠ (n : Int) then
         some ⟨H.RESPONSE_EXPECTED_LENGTH_ERROR, data, len, w.skip 2⟩
       else if (w.skip 2).byte (n + 1) ≠ H.ETB ∧ (w.skip 2).byte (n + 1) ≠ H.ETX then
         some ⟨H.RESPONSE_FORMAT_ERROR, data, len, (w.skip 2).skip (n + 2)⟩
       else if neg8 (w.byte 1 + (body.take n).sum) ≠ (w.skip 2).byte n then
         some ⟨H.RESPONSE_CHECKSUM_ERROR, data, len, (w.skip 2).skip (n + 2)⟩
       else if n ≤ data.length then
         some ⟨H.RESPONSE_OK, body.take n ++ data.drop n, n, (w.skip 2).skip (n + 2)⟩
       else none) := by
  have h2 : (serial_read w 2).1 = [w.byte 0, w.byte 1] := by
    simp [serial_read, World.byte, List.range_succ]
  have hn : (if 0 = w.byte 1 then 256 else w.byte 1) = w.data_len := rfl
  have hbody : ∀ n, (serial_read (w.skip 2) n).1 =
      (List.range n).map (fun i => (w.skip 2).byte i) := fun n => rfl
  have hw : ∀ n, (serial_read (w.skip 2) n).2 = (w.skip 2).skip n := fun n => rfl
  have hw2 : (serial_read w 2).2 = w.skip 2 := rfl
  unfold rl78_recv
  simp only [h2, store_replicate _ _ _ hM, List.cons_append, List.nil_append,
    List.getElem?_cons_succ, List.getElem?_cons_zero, hn, hw2, hbody, hw]
  generalize w.data_len = n
  by_cases hg : H.MAX_RESPONSE_LENGTH < n + 4 ∨ H.STX ≠ w.byte 0
  · have hg2 : (H.MAX_RESPONSE_LENGTH : Int) - 4 < (n : Int) ∨ H.STX ≠ w.byte 0 := by
      rcases hg with h | h
      · left; omega
      · right; exact h
    rw [if_pos hg, if_pos hg2]
  · have hg2 : ¬ ((H.MAX_RESPONSE_LENGTH : Int) - 4 < (n : Int) ∨ H.STX ≠ w.byte 0) := by
      intro h; apply hg
      rcases h with h | h
      · left; omega
      · right; exact h
    rw [if_neg hg, if_neg hg2]
    by_cases he : explen ≠ (n : Int)
    · rw [if_pos he, if_pos he]
    · rw [if_neg he, if_neg he]
      have hM4 : n + 4 ≤ H.MAX_RESPONSE_LENGTH := by
        by_contra h; exact hg (Or.inl (by omega))
      have hlen : ((List.range (n + 2)).map (fun i => (w.skip 2).byte i)).length = n + 2 := by
        simp
      have hst := store_body H.MAX_RESPONSE_LENGTH n (w.byte 0) (w.byte 1) _ hlen hM4
      simp only [List.cons_append, List.nil_append] at hst
      rw [hst]
      obtain ⟨q1, q2, q3, q4⟩ := recv_buffer n (w.byte 0) (w.byte 1) _
        (List.replicate (H.MAX_RESPONSE_LENGTH - (n + 4)) 0) hlen
      simp only [List.cons_append, List.nil_append] at q1 q2 q3 q4
      simp only [q1, q2, q3, q4, body_getElem (w.skip 2) (n + 2) (n + 1) (by omega),
        body_getElem (w.skip 2) (n + 2) n (by omega)]
      by_cases ht : (w.skip 2).byte (n + 1) ≠ H.ETB ∧ (w.skip 2).byte (n + 1) ≠ H.ETX
      · rw [if_pos ht, if_pos ht]
      · rw [if_neg ht, if_neg ht]
        split_ifs <;> rfl

theorem sent_tx (w : World) (buf : List Nat) : (sent w buf).tx = w.tx ++ [buf] := by
  unfold sent; split <;> rfl

theorem skip_byte (w : World) (k i : Nat) : (w.skip k).byte i = w.byte (k + i) := rfl

theorem skip_skip (w : World) (k n : Nat) : (w.skip k).skip n = w.skip (k + n) := by
  simp [World.skip, Nat.add_assoc]

theorem feed_byte (v : World) (f : List Nat) (s : Nat → Nat) (hrx : v.rx = feed f s)
    (hb : ∀ b ∈ f, b < 256) (i : Nat) (hi : i < f.length) : v.byte i = f.getD i 0 := by
  have hm : f.getD i 0 ∈ f := by
    rw [List.getD_eq_getElem _ _ hi]; exact List.getElem_mem hi
  simp only [World.byte, hrx, feed, hi, if_true]
  exact Nat.mod_eq_of_lt (hb _ hm)

theorem feed_skip (v : World) (f : List Nat) (s : Nat → Nat) (hrx : v.rx = feed f s) :
    v.skip f.length = { v with rx := s } := by
  have : (fun i => v.rx (f.length + i)) = s := by
    funext i; simp [hrx, feed]
  simp [World.skip, this]

/-- What `rl78_recv` does with a stream that starts with a record
`b0, b1, payload, c, t` whose length byte `b1` decodes to the length of the payload. -/
theorem rl78_recv_record (H : Header) (v : World) (s : Nat → Nat) (b0 b1 c t : Nat)
    (p data : List Nat) (len explen : Int)
    (hrx : v.rx = feed ([b0, b1] ++ p ++ [c, t]) s)
    (hb0 : b0 < 256) (hb1 : b1 < 256) (hc : c < 256) (ht : t < 256)
    (hp : ∀ b ∈ p, b < 256) (hn : (if 0 = b1 then 256 else b1) = p.length)
    (hM : 2 ≤ H.MAX_RESPONSE_LENGTH) :
    rl78_recv H v data len explen =
      if H.MAX_RESPONSE_LENGTH < p.length + 4 ∨ H.STX ≠ b0 then
        some ⟨H.RESPONSE_FORMAT_ERROR, data, len, v.skip 2⟩
      else if explen ≠ (p.length : Int) then
        some ⟨H.RESPONSE_EXPECTED_LENGTH_ERROR, data, len, v.skip 2⟩
      else if t ≠ H.ETB ∧ t ≠ H.ETX then
        some ⟨H.RESPONSE_FORMAT_ERROR, data, len, { v with rx := s }⟩
      else if neg8 (b1 + p.sum) ≠ c then
        some ⟨H.RESPONSE_CHECKSUM_ERROR, data, len, { v with rx := s }⟩
      else if p.length ≤ data.length then
        some ⟨H.RESPONSE_OK, p ++ data.drop p.length, p.length, { v with rx := s }⟩
      else none := by
  have hall : ∀ b ∈ [b0, b1] ++ p ++ [c, t], b < 256 := by
    intro b hb
    simp only [List.mem_append, List.mem_cons, List.mem_singleton, List.not_mem_nil,
      or_false] at hb
    rcases hb with (((h | h) | h) | (h | h))
    · omega
    · omega
    · exact hp b h
    · omega
    · omega
  have hlen : ([b0, b1] ++ p ++ [c, t]).length = p.length + 4 := by simp
  have hbyte : ∀ i, i < p.length + 4 → v.byte i = ([b0, b1] ++ p ++ [c, t]).getD i 0 :=
    fun i hi => feed_byte v _ s hrx hall i (by omega)
  have h0 : v.byte 0 = b0 := by rw [hbyte 0 (by omega)]; rfl
  have h1 : v.byte 1 = b1 := by rw [hbyte 1 (by omega)]; rfl
  have hdl : v.data_len = p.length := by simp only [World.data_len, h1]; exact hn
  have hpay : ∀ i, i < p.length → v.byte (2 + i) = p.getD i 0 := by
    intro i hi
    rw [hbyte (2 + i) (by omega)]
    have e : 2 + i = i + 1 + 1 := by omega
    simp only [List.cons_append, List.nil_append, e, List.getD_cons_succ]
    rw [List.getD_append _ _ _ _ hi]
  have hcc : v.byte (2 + p.length) = c := by
    rw [hbyte (2 + p.length) (by omega)]
    have e : 2 + p.length = p.length + 1 + 1 := by omega
    simp only [List.cons_append, List.nil_append, e, List.getD_cons_succ]
    rw [List.getD_append_right _ _ _ _ (le_refl _)]
    simp
  have htt : v.byte (2 + (p.length + 1)) = t := by
    rw [hbyte (2 + (p.length + 1)) (by omega)]
    have e : 2 + (p.length + 1) = p.length + 1 + 1 + 1 := by omega
    simp only [List.cons_append, List.nil_append, e, List.getD_cons_succ]
    rw [List.getD_append_right _ _ _ _ (by omega)]
    simp
  have htake : List.take p.length ((List.range (p.length + 2)).map
      (fun i => v.byte (2 + i))) = p := by
    apply List.ext_getElem
    · simp
    · intro i h1 h2
      simp only [List.getElem_take, List.getElem_map, List.getElem_range]
      rw [hpay i h2, List.getD_eq_getElem _ _ h2]
  have hsk : (v.skip 2).skip (p.length + 2) = { v with rx := s } := by
    rw [skip_skip, ← feed_skip v _ s hrx, hlen]
    congr 1; omega
  rw [rl78_recv_eq H v data len explen hM]
  simp only [hdl, h0, h1, skip_byte, hcc, htt, htake, hsk]

/-! ## The frame codec: the claims -/

/-- C1 (amended): for every command byte `c` in 0..255 and every payload `p` of at most 255
bytes, `rl78_send_cmd` hands to the port exactly one buffer, the `|p| + 5` bytes
`SOH, (|p| + 1) & 0xFF, c, p..., chk, ETX` with `chk = (-((|p| + 1) + c + sum p)) & 0xFF`.
The length field is `|p| + 1` for `|p| ≤ 254` and 0 for `|p| = 255`. -/
theorem rl78_send_cmd_frame (H : Header) (hH : H.framing) (w : World) (c : Nat)
    (p : List Nat) (hc : c ≤ 255) (hp : p.length ≤ 255) :
    ∃ ret w1, rl78_send_cmd H w c p p.length = some (ret, w1) ∧
      w1.tx = w.tx ++ [[H.SOH, (p.length + 1) % 256, c] ++ p ++
        [neg8 (p.length + 1 + c + p.sum), H.ETX]] ∧
      ([H.SOH, (p.length + 1) % 256, c] ++ p ++
        [neg8 (p.length + 1 + c + p.sum), H.ETX]).length = p.length + 5 ∧
      (p.length ≤ 254 → (p.length + 1) % 256 = p.length + 1) ∧
      (p.length = 255 → (p.length + 1) % 256 = 0) := by
  obtain ⟨h1, -, -, h4⟩ := hH
  refine ⟨_, _, rl78_send_cmd_eq H w c p p.length hp (le_refl _), ?_, ?_, ?_, ?_⟩
  · rw [sent_tx, List.take_length, cmd_frame, Nat.mod_eq_of_lt h1, Nat.mod_eq_of_lt h4,
      Nat.mod_eq_of_lt (show c < 256 by omega)]
  · simp
  · intro h; omega
  · intro h; omega

/-- C1, witness: the block-erase command for address 0x000400. -/
theorem rl78_send_cmd_frame_witness :
    ∃ ret w1, rl78_send_cmd rl78_h (quiet 2 (fun _ => 0)) 0x22 [0x00, 0x04, 0x00] 3
        = some (ret, w1) ∧
      w1.tx = [[0x01, 0x04, 0x22, 0x00, 0x04, 0x00, 0xD6, 0x03]] := by
  obtain ⟨ret, w1, h, htx, -⟩ := rl78_send_cmd_frame rl78_h (by decide)
    (quiet 2 (fun _ => 0)) 0x22 [0x00, 0x04, 0x00] (by decide) (by decide)
  exact ⟨ret, w1, h, by rw [htx]; decide⟩

/-- C1, counterexample: for a payload of 255 bytes the length field written is 0, not
`|p| + 1 = 256`, so the frame is not `SOH, |p| + 1, c, p..., chk, ETX`. -/
theorem rl78_send_cmd_len255_counterexample :
    ∃ ret w1 f, rl78_send_cmd rl78_h (quiet 2 (fun _ => 0)) 0 (List.replicate 255 0) 255
        = some (ret, w1) ∧ w1.tx = [f] ∧ f[1]? = some 0 ∧
      f ≠ [rl78_h.SOH, 255 + 1, 0] ++ List.replicate 255 0 ++
        [neg8 (255 + 1 + 0 + (List.replicate 255 0).sum), rl78_h.ETX] := by
  have hl : (List.replicate 255 0).length = 255 := List.length_replicate 255 0
  generalize List.replicate 255 0 = p at hl
  have ht : p.take 255 = p := List.take_of_length_le (by omega)
  have h1 : (cmd_frame rl78_h 0 p)[1]? = some 0 := by
    simp only [cmd_frame, hl]; rfl
  have hs := rl78_send_cmd_eq rl78_h (quiet 2 (fun _ => 0)) 0 p 255 (le_refl _) (by omega)
  rw [ht] at hs
  refine ⟨_, _, cmd_frame rl78_h 0 p, hs, ?_, h1, ?_⟩
  · rw [sent_tx]; rfl
  · intro h
    rw [h] at h1
    simp only [List.cons_append, List.getElem?_cons_succ, List.getElem?_cons_zero] at h1
    exact absurd h1 (by decide)

/-- C2: for every payload `p` of at most 256 bytes (so of 1 to 256 bytes) and every flag
`last`, `rl78_send_data`
hands to the port exactly one buffer, the `|p| + 4` bytes `STX, |p| & 0xFF, p..., chk, trailer`
with `chk = (-((|p| & 0xFF) + sum p)) & 0xFF` and trailer `ETX` if `last` is set, else `ETB`;
a payload of 256 bytes has the length byte 0. -/
theorem rl78_send_data_frame (H : Header) (hH : H.framing) (w : World) (p : List Nat)
    (last : Int) (h256 : p.length ≤ 256) :
    ∃ ret w1, rl78_send_data H w p p.length last = some (ret, w1) ∧
      w1.tx = w.tx ++ [[H.STX, p.length % 256] ++ p ++
        [neg8 (p.length % 256 + p.sum), if last ≠ 0 then H.ETX else H.ETB]] ∧
      ([H.STX, p.length % 256] ++ p ++
        [neg8 (p.length % 256 + p.sum), if last ≠ 0 then H.ETX else H.ETB]).length
          = p.length + 4 ∧
      (p.length = 256 → p.length % 256 = 0) := by
  obtain ⟨-, h2, h3, h4⟩ := hH
  refine ⟨_, _, rl78_send_data_eq H w p p.length last h256 (le_refl _), ?_, ?_, ?_⟩
  · have ht : (if last ≠ 0 then H.ETX else H.ETB) < 256 := by split <;> assumption
    rw [sent_tx, List.take_length, data_frame, Nat.mod_eq_of_lt h2, Nat.mod_eq_of_lt ht,
      neg8_congr (p.length % 256 + p.sum) (p.length + p.sum) (by omega)]
  · simp
  · intro h; omega

/-- C2, witness: a three-byte payload sent as the last frame. -/
theorem rl78_send_data_frame_witness :
    ∃ ret w1, rl78_send_data rl78_h (quiet 2 (fun _ => 0)) [1, 2, 3] 3 1 = some (ret, w1) ∧
      w1.tx = [[0x02, 0x03, 1, 2, 3, 0xF7, 0x03]] := by
  obtain ⟨ret, w1, h, htx, -⟩ := rl78_send_data_frame rl78_h (by decide)
    (quiet 2 (fun _ => 0)) [1, 2, 3] 1 (by decide)
  exact ⟨ret, w1, h, by rw [htx]; decide⟩

theorem decode_len (n : Nat) (h1 : 1 ≤ n) (h256 : n ≤ 256) :
    (if 0 = n % 256 then 256 else n % 256) = n := by
  split <;> omega

/-- C3 (amended): for every payload `p` of 1 to 256 bytes with
`|p| + 4 ≤ MAX_RESPONSE_LENGTH` and either value of `last`, when the frame written by
`rl78_send_data` is the head of the port's input, `rl78_recv` with expected length `|p|`
returns `RESPONSE_OK`, puts `p` at the start of the caller's buffer and reports the length
`|p|`, having consumed exactly the frame. -/
theorem rl78_send_data_recv_roundtrip (H : Header) (hH : H.framing) (w : World)
    (p : List Nat) (last : Int) (h1 : 1 ≤ p.length) (h256 : p.length ≤ 256)
    (hM : p.length + 4 ≤ H.MAX_RESPONSE_LENGTH) (hp : ∀ b ∈ p, b < 256) :
    ∃ ret w1 f, rl78_send_data H w p p.length last = some (ret, w1) ∧
      w1.tx = w.tx ++ [f] ∧
      ∀ (v : World) (s : Nat → Nat) (data : List Nat) (len : Int),
        v.rx = feed f s → p.length ≤ data.length →
        rl78_recv H v data len p.length =
          some ⟨H.RESPONSE_OK, p ++ data.drop p.length, p.length, { v with rx := s }⟩ := by
  obtain ⟨-, h2, h3, h4⟩ := hH
  have ht : (if last ≠ 0 then H.ETX else H.ETB) < 256 := by split <;> assumption
  have hs := rl78_send_data_eq H w p p.length last h256 (le_refl _)
  rw [List.take_length] at hs
  refine ⟨_, _, _, hs, sent_tx _ _, ?_⟩
  intro v s data len hrx hd
  rw [rl78_recv_record H v s _ _ _ _ p data len p.length hrx (Nat.mod_lt _ (by omega))
    (Nat.mod_lt _ (by omega)) (neg8_lt _) (Nat.mod_lt _ (by omega)) hp
    (decode_len _ h1 h256) (by omega)]
  rw [if_neg (by rw [Nat.mod_eq_of_lt h2]; omega), if_neg (by simp)]
  rw [if_neg (by rw [Nat.mod_eq_of_lt ht]; split <;> simp),
    if_neg (by
      rw [neg8_congr (p.length % 256 + p.sum) (p.length + p.sum) (by omega)]
      simp),
    if_pos hd]

/-- C3, witness: a three-byte payload sent as the last frame and received back. -/
theorem rl78_send_data_recv_roundtrip_witness :
    ∃ ret w1 f, rl78_send_data rl78_h (quiet 2 (fun _ => 0)) [1, 2, 3] 3 1
        = some (ret, w1) ∧
      w1.tx = [f] ∧
      rl78_recv rl78_h (quiet 2 (feed f (fun _ => 0))) [0, 0, 0, 0] 0 3 =
        some ⟨0, [1, 2, 3, 0], 3, quiet 2 (fun _ => 0)⟩ := by
  obtain ⟨ret, w1, f, h, htx, hr⟩ := rl78_send_data_recv_roundtrip rl78_h (by decide)
    (quiet 2 (fun _ => 0)) [1, 2, 3] 1 (by decide) (by decide) (by decide) (by decide)
  exact ⟨ret, w1, f, h, htx, hr (quiet 2 (feed f (fun _ => 0))) (fun _ => 0) [0, 0, 0, 0] 0
    rfl (by decide)⟩

/-- A record whose payload does not fit the receive buffer is a format error. -/
theorem rl78_recv_record_too_long (H : Header) (v : World) (s : Nat → Nat)
    (b0 b1 c t : Nat) (p data : List Nat) (len explen : Int)
    (hrx : v.rx = feed ([b0, b1] ++ p ++ [c, t]) s)
    (hb0 : b0 < 256) (hb1 : b1 < 256) (hc : c < 256) (ht : t < 256)
    (hp : ∀ b ∈ p, b < 256) (hn : (if 0 = b1 then 256 else b1) = p.length)
    (hM : 2 ≤ H.MAX_RESPONSE_LENGTH) (hlong : H.MAX_RESPONSE_LENGTH < p.length + 4) :
    rl78_recv H v data len explen = some ⟨H.RESPONSE_FORMAT_ERROR, data, len, v.skip 2⟩ := by
  rw [rl78_recv_record H v s b0 b1 c t p data len explen hrx hb0 hb1 hc ht hp hn hM,
    if_pos (Or.inl hlong)]

theorem replicate_bytes (n b : Nat) (hb : b < 256) : ∀ x ∈ List.replicate n b, x < 256 := by
  intro x hx
  rw [List.eq_of_mem_replicate hx]; exact hb

/-- C3, counterexample: with the 32-byte receive buffer, the frame written by
`rl78_send_data` for a payload of 29 bytes is refused by `rl78_recv` with the format error
code; `RESPONSE_OK` is not returned and no payload is delivered. -/
theorem rl78_send_data_recv_roundtrip_counterexample :
    ∃ ret w1 f, rl78_send_data rl78_h (quiet 2 (fun _ => 0)) (List.replicate 29 0) 29 1
        = some (ret, w1) ∧
      w1.tx = [f] ∧
      rl78_recv rl78_h (quiet 2 (feed f (fun _ => 0))) (List.replicate 29 9) 5 29 =
        some ⟨rl78_h.RESPONSE_FORMAT_ERROR, List.replicate 29 9, 5,
          (quiet 2 (feed f (fun _ => 0))).skip 2⟩ ∧
      rl78_h.RESPONSE_FORMAT_ERROR ≠ rl78_h.RESPONSE_OK := by
  have hl : (List.replicate 29 0).length = 29 := List.length_replicate 29 0
  have hb := replicate_bytes 29 0 (by decide)
  generalize List.replicate 29 0 = p at hl hb
  have hs := rl78_send_data_eq rl78_h (quiet 2 (fun _ => 0)) p 29 1 (by decide) (by omega)
  rw [List.take_of_length_le (by omega)] at hs
  refine ⟨_, _, _, hs, by rw [sent_tx]; rfl, ?_, by decide⟩
  exact rl78_recv_record_too_long rl78_h _ (fun _ => 0) _ _ _ _ p _ _ _ rfl
    (Nat.mod_lt _ (by decide)) (Nat.mod_lt _ (by decide)) (neg8_lt _)
    (Nat.mod_lt _ (by decide)) hb (by rw [hl]; rfl) (by decide)
    (by rw [hl]; decide)

theorem flip_bit_ne (x k : Nat) : x ^^^ 2 ^ k ≠ x := by
  intro h
  have h0 : x ^^^ 2 ^ k = x ^^^ 0 := by rw [h, Nat.xor_zero]
  have := Nat.xor_right_injective h0
  exact absurd this (by positivity)

theorem flip_bit_lt (x k : Nat) (hx : x < 256) (hk : k < 8) : x ^^^ 2 ^ k < 256 := by
  have h8 : (256 : Nat) = 2 ^ 8 := by norm_num
  rw [h8] at hx ⊢
  exact Nat.xor_lt_two_pow hx (Nat.pow_lt_pow_right (by norm_num) hk)

/-- C4 (amended): for every response record that is otherwise well formed (`STX` start,
`LEN` equal to the expected length, `ETX` or `ETB` trailer), whose length fits the receive
buffer (`LEN + 4 ≤ MAX_RESPONSE_LENGTH`) and whose checksum byte differs from the correct
checksum in one bit `k`, `rl78_recv` returns the checksum error code and leaves the
caller's buffer and length output unchanged. -/
theorem rl78_recv_checksum_error (H : Header) (hH : H.framing) (v : World) (s : Nat → Nat)
    (p data : List Nat) (len : Int) (t k : Nat)
    (h1 : 1 ≤ p.length) (h256 : p.length ≤ 256)
    (hM : p.length + 4 ≤ H.MAX_RESPONSE_LENGTH) (hp : ∀ b ∈ p, b < 256)
    (ht : t = H.ETX ∨ t = H.ETB) (hk : k < 8)
    (hrx : v.rx = feed ([H.STX, p.length % 256] ++ p ++
      [neg8 (p.length % 256 + p.sum) ^^^ 2 ^ k, t]) s) :
    rl78_recv H v data len p.length =
      some ⟨H.RESPONSE_CHECKSUM_ERROR, data, len, { v with rx := s }⟩ := by
  obtain ⟨-, h2, h3, h4⟩ := hH
  have ht2 : t < 256 := by rcases ht with h | h <;> omega
  rw [rl78_recv_record H v s _ _ _ _ p data len p.length hrx h2
    (Nat.mod_lt _ (by omega)) (flip_bit_lt _ _ (neg8_lt _) hk) ht2 hp
    (decode_len _ h1 h256) (by omega)]
  rw [if_neg (by omega), if_neg (by simp),
    if_neg (by rcases ht with h | h <;> simp [h]),
    if_pos (fun h => flip_bit_ne _ _ h.symm)]

/-- C4, witness: a one-byte response whose checksum byte has bit 0 flipped. -/
theorem rl78_recv_checksum_error_witness :
    rl78_recv rl78_h (quiet 2 (feed [0x02, 0x01, 0x06, 0xF8, 0x03] (fun _ => 0))) [0] 7 1 =
      some ⟨-2, [0], 7, quiet 2 (fun _ => 0)⟩ :=
  rl78_recv_checksum_error rl78_h (by decide)
    (quiet 2 (feed [0x02, 0x01, 0x06, 0xF8, 0x03] (fun _ => 0))) (fun _ => 0) [0x06] [0] 7
    0x03 0 (by decide) (by decide) (by decide) (by decide) (by decide) (by decide) rfl

/-- C4, counterexample: with the 32-byte receive buffer, a well-formed 29-byte response
(`STX`, `LEN = 29` equal to the expected length, `ETX` trailer) whose checksum byte has
bit 0 flipped is answered with the format error code, not the checksum error code. -/
theorem rl78_recv_checksum_error_counterexample :
    rl78_recv rl78_h
        (quiet 2 (feed ([rl78_h.STX, 29] ++ List.replicate 29 0 ++
          [neg8 (29 + (List.replicate 29 0).sum) ^^^ 2 ^ 0, rl78_h.ETX]) (fun _ => 0)))
        (List.replicate 29 9) 5 29 =
      some ⟨rl78_h.RESPONSE_FORMAT_ERROR, List.replicate 29 9, 5,
        (quiet 2 (feed ([rl78_h.STX, 29] ++ List.replicate 29 0 ++
          [neg8 (29 + (List.replicate 29 0).sum) ^^^ 2 ^ 0, rl78_h.ETX]) (fun _ => 0))).skip 2⟩ ∧
      rl78_h.RESPONSE_FORMAT_ERROR ≠ rl78_h.RESPONSE_CHECKSUM_ERROR := by
  have hl : (List.replicate 29 0).length = 29 := List.length_replicate 29 0
  have hb := replicate_bytes 29 0 (by decide)
  generalize List.replicate 29 0 = p at hl hb
  refine ⟨?_, by decide⟩
  exact rl78_recv_record_too_long rl78_h _ (fun _ => 0) _ _ _ _ p _ _ _ rfl
    (by decide) (by decide) (flip_bit_lt _ _ (neg8_lt _) (by decide)) (by decide) hb
    (by rw [hl]; rfl) (by decide) (by rw [hl]; decide)

/-- C5 (amended): for every response that starts with `STX` and whose decoded `LEN` (length
byte, 0 decoded as 256) is at most `MAX_RESPONSE_LENGTH - 4` and differs from the expected
length, `rl78_recv` returns the expected-length error code after reading the two header
bytes only, whatever the checksum and the remaining bytes are; nothing is delivered. -/
theorem rl78_recv_expected_length_error (H : Header) (w : World) (data : List Nat)
    (len explen : Int) (hstx : w.byte 0 = H.STX)
    (hM : w.data_len + 4 ≤ H.MAX_RESPONSE_LENGTH) (hne : explen ≠ (w.data_len : Int)) :
    rl78_recv H w data len explen =
      some ⟨H.RESPONSE_EXPECTED_LENGTH_ERROR, data, len, w.skip 2⟩ := by
  rw [rl78_recv_eq H w data len explen (by omega)]
  simp only []
  rw [if_neg (by rw [hstx]; simp; omega), if_pos hne]

/-- C5, witness: a two-byte status arrives where one byte is expected. -/
theorem rl78_recv_expected_length_error_witness :
    rl78_recv rl78_h (quiet 2 (feed [0x02, 0x02, 0x06, 0x06, 0xF2, 0x03] (fun _ => 0)))
        [0] 7 1 =
      some ⟨-3, [0], 7,
        (quiet 2 (feed [0x02, 0x02, 0x06, 0x06, 0xF2, 0x03] (fun _ => 0))).skip 2⟩ :=
  rl78_recv_expected_length_error rl78_h
    (quiet 2 (feed [0x02, 0x02, 0x06, 0x06, 0xF2, 0x03] (fun _ => 0))) [0] 7 1
    (by decide) (by decide) (by decide)

/-- C5, counterexample: with the 32-byte receive buffer, a response that starts with `STX`
and has `LEN = 29` while one byte is expected is answered with the format error code, not
the expected-length error code. -/
theorem rl78_recv_expected_length_error_counterexample :
    rl78_recv rl78_h (quiet 2 (feed [0x02, 29] (fun _ => 0))) [0] 7 1 =
      some ⟨rl78_h.RESPONSE_FORMAT_ERROR, [0], 7,
        (quiet 2 (feed [0x02, 29] (fun _ => 0))).skip 2⟩ ∧
      (quiet 2 (feed [0x02, 29] (fun _ => 0))).data_len = 29 ∧
      rl78_h.RESPONSE_FORMAT_ERROR ≠ rl78_h.RESPONSE_EXPECTED_LENGTH_ERROR := by
  refine ⟨?_, by decide, by decide⟩
  rw [rl78_recv_eq rl78_h _ _ _ _ (by decide)]
  simp only []
  rw [if_pos (Or.inl (by decide))]

/-- C6: `rl78_recv` returns the format error code whenever the first byte read is not `STX`,
and whenever (the first byte being `STX`, the decoded length fitting the receive buffer and
matching the expected length) the trailer byte is neither `ETX` nor `ETB`; in both cases the
caller's buffer and length output are left unchanged. -/
theorem rl78_recv_format_error (H : Header) (w : World) (data : List Nat)
    (len explen : Int) (hM : 2 ≤ H.MAX_RESPONSE_LENGTH) :
    (w.byte 0 ≠ H.STX →
      rl78_recv H w data len explen =
        some ⟨H.RESPONSE_FORMAT_ERROR, data, len, w.skip 2⟩) ∧
    (w.byte 0 = H.STX → w.data_len + 4 ≤ H.MAX_RESPONSE_LENGTH →
      explen = (w.data_len : Int) →
      w.byte (w.data_len + 3) ≠ H.ETX → w.byte (w.data_len + 3) ≠ H.ETB →
      rl78_recv H w data len explen =
        some ⟨H.RESPONSE_FORMAT_ERROR, data, len, w.skip (w.data_len + 4)⟩) := by
  constructor
  · intro h
    rw [rl78_recv_eq H w data len explen hM]
    simp only []
    rw [if_pos (Or.inr (fun e => h e.symm))]
  · intro hstx hfit hexp hx hb
    have e3 : 2 + (w.data_len + 1) = w.data_len + 3 := by omega
    have e4 : 2 + (w.data_len + 2) = w.data_len + 4 := by omega
    rw [rl78_recv_eq H w data len explen hM]
    simp only [skip_byte, skip_skip, e3, e4]
    rw [if_neg (by rw [hstx]; simp; omega), if_neg (by simp [hexp]), if_pos ⟨hb, hx⟩]

/-- C6, witness: a stream that starts with NACK instead of `STX`, and a one-byte response
whose trailer is `SOH`. -/
theorem rl78_recv_format_error_witness :
    rl78_recv rl78_h (quiet 2 (feed [0x15, 0x01] (fun _ => 0))) [0] 7 1 =
      some ⟨-1, [0], 7, (quiet 2 (feed [0x15, 0x01] (fun _ => 0))).skip 2⟩ ∧
    rl78_recv rl78_h (quiet 2 (feed [0x02, 0x01, 0x06, 0xF9, 0x01] (fun _ => 0))) [0] 7 1 =
      some ⟨-1, [0], 7,
        (quiet 2 (feed [0x02, 0x01, 0x06, 0xF9, 0x01] (fun _ => 0))).skip 5⟩ :=
  ⟨(rl78_recv_format_error rl78_h (quiet 2 (feed [0x15, 0x01] (fun _ => 0))) [0] 7 1
      (by decide)).1 (by decide),
   (rl78_recv_format_error rl78_h
      (quiet 2 (feed [0x02, 0x01, 0x06, 0xF9, 0x01] (fun _ => 0))) [0] 7 1
      (by decide)).2 (by decide) (by decide) (by decide) (by decide) (by decide)⟩

/-! ## The command layer: auxiliary results -/

theorem rl78_recv_shape (H : Header) (w : World) (data : List Nat) (len : Int) (k : Nat)
    (hM : 2 ≤ H.MAX_RESPONSE_LENGTH) (hk : k ≤ data.length) :
    ∃ r, rl78_recv H w data len (k : Int) = some r ∧ r.world.tx = w.tx ∧
      r.data.length = data.length := by
  rw [rl78_recv_eq H w data len k hM]
  simp only []
  split_ifs with h1 h2 h3 h4 h5
  · exact ⟨_, rfl, rfl, rfl⟩
  · exact ⟨_, rfl, rfl, rfl⟩
  · exact ⟨_, rfl, rfl, rfl⟩
  · exact ⟨_, rfl, rfl, rfl⟩
  · refine ⟨_, rfl, rfl, ?_⟩
    simp only [List.length_append, List.length_take, List.length_map, List.length_range,
      List.length_drop]
    omega
  · exfalso
    have : (k : Int) = (w.data_len : Int) := by
      by_contra hne; exact h2 hne
    omega

theorem list_two (l : List Nat) (h : l.length = 2) : ∃ d0 d1, l = [d0, d1] := by
  match l, h with
  | [d0, d1], _ => exact ⟨d0, d1, rfl⟩

theorem list_cons (l : List Nat) (h : 1 ≤ l.length) : ∃ d0 t, l = d0 :: t := by
  match l, h with
  | d0 :: t, _ => exact ⟨d0, t, rfl⟩

theorem sub32_of_le (a b : Nat) (hb : b ≤ a) (ha : a < U32) : sub32 a b = a - b := by
  unfold sub32 U32 at *
  have : b % 4294967296 = b := Nat.mod_eq_of_lt (by omega)
  rw [this]
  omega

/-- The two bulk-transfer loops are the same function. -/
theorem rl78_cmd_verify_loop_eq (H : Header) (fuel : Nat) : ∀ w rc data n rom,
    rl78_cmd_verify_loop H fuel w rc data n rom =
      rl78_cmd_programming_loop H fuel w rc data n rom := by
  induction fuel with
  | zero => intro w rc data n rom; unfold rl78_cmd_verify_loop rl78_cmd_programming_loop; rfl
  | succ f ih =>
    intro w rc data n rom
    unfold rl78_cmd_verify_loop rl78_cmd_programming_loop
    simp only [ih]

/-- The bulk-transfer loop writes data records only; their payloads, in order, are a prefix
of the `rom_length` bytes at `rom`, and all of them when the loop runs to its end.  When the
loop body returns, the value is a codec error or a status byte other than `ACK`. -/
theorem rl78_cmd_programming_loop_spec (H : Header) (hM : 2 ≤ H.MAX_RESPONSE_LENGTH)
    (fuel : Nat) : ∀ (w : World) (rc : Int) (data : List Nat) (n : Nat) (rom : List Nat),
    n ≤ fuel → n ≤ rom.length → n < U32 → data.length = 2 →
    ∃ brk v data1 w1, rl78_cmd_programming_loop H fuel w rc data n rom
        = some (brk, v, data1, w1) ∧ data1.length = 2 ∧
      ∃ qs : List (List Nat × Int),
        w1.tx = w.tx ++ qs.map (fun q => data_frame H q.1 q.2) ∧
        (qs.map Prod.fst).flatten <+: rom.take n ∧
        (brk = false → (qs.map Prod.fst).flatten = rom.take n) ∧
        (brk = true → v ≠ H.RESPONSE_OK ∨ ∃ d : Nat, v = (d : Int) ∧ H.STATUS_ACK ≠ d) := by
  induction fuel with
  | zero =>
    intro w rc data n rom hf _ _ hd
    have hn : n = 0 := by omega
    subst hn
    exact ⟨false, rc, data, w, by unfold rl78_cmd_programming_loop; simp, hd, [],
      by simp, by simp, by simp, by simp⟩
  | succ f ih =>
    intro w rc data n rom hf hr hU hd
    by_cases hn : n = 0
    · subst hn
      exact ⟨false, rc, data, w, by unfold rl78_cmd_programming_loop; simp, hd, [],
        by simp, by simp, by simp, by simp⟩
    · -- the chunk sent in this iteration
      obtain ⟨c, l, n1, hc, hc256, hc1, hsend, hn1, hrest⟩ :
          ∃ (c : Nat) (l : Int) (n1 : Nat), c ≤ n ∧ c ≤ 256 ∧ 1 ≤ c ∧
            (if 256 < n then rl78_send_data H w rom 256 0
              else rl78_send_data H w rom n 1) = rl78_send_data H w rom c l ∧
            (if 256 < n then sub32 n 256 else sub32 n n) = n1 ∧
            (n1 = n - c ∧ (if 256 < n then rom.drop 256 else rom.drop n) = rom.drop c) := by
        by_cases h : 256 < n
        · exact ⟨256, 0, n - 256, by omega, by omega, by omega, by simp [h],
            by simp [h, sub32_of_le n 256 (by omega) hU], rfl, by simp [h]⟩
        · exact ⟨n, 1, 0, by omega, by omega, by omega, by simp [h],
            by simp [h, sub32_of_le n n (le_refl _) hU], by omega, by simp [h]⟩
      have hs := rl78_send_data_eq H w rom c l hc256 (by omega)
      obtain ⟨r, hr1, hr2, hr3⟩ := rl78_recv_shape H
        (sent w (data_frame H (rom.take c) l)) data 0 2 hM (by omega)
      obtain ⟨d0, d1, hdd⟩ := list_two r.data (by omega)
      have htx : r.world.tx = w.tx ++ [data_frame H (rom.take c) l] := by
        rw [hr2, sent_tx]
      have hpre : rom.take c <+: rom.take n := List.take_prefix_take_left rom hc
      have hone : ∃ qs : List (List Nat × Int),
          r.world.tx = w.tx ++ qs.map (fun q => data_frame H q.1 q.2) ∧
          (qs.map Prod.fst).flatten <+: rom.take n ∧
          (true = false → (qs.map Prod.fst).flatten = rom.take n) :=
        ⟨[(rom.take c, l)], by simpa using htx, by simpa using hpre, by simp⟩
      unfold rl78_cmd_programming_loop
      rw [if_neg hn]
      simp only [hsend, hs, hn1, hrest.2]
      have hr1b : rl78_recv H (sent w (data_frame H (List.take c rom) l)) data 0 2
          = some r := hr1
      simp only [hr1b, hdd, List.getElem?_cons_zero, List.getElem?_cons_succ]
      obtain ⟨qs1, hone1, hone2, hone3⟩ := hone
      by_cases hok : H.RESPONSE_OK ≠ r.rc
      · rw [if_pos hok]
        exact ⟨true, _, _, _, rfl, by rw [← hdd]; omega, qs1, hone1, hone2, hone3,
          fun _ => Or.inl (fun h => hok h.symm)⟩
      · rw [if_neg hok]
        by_cases h0 : H.STATUS_ACK ≠ d0
        · rw [if_pos h0]
          exact ⟨true, _, _, _, rfl, by rw [← hdd]; omega, qs1, hone1, hone2, hone3,
            fun _ => Or.inr ⟨d0, rfl, h0⟩⟩
        · rw [if_neg h0]
          by_cases h1 : H.STATUS_ACK ≠ d1
          · rw [if_pos h1]
            exact ⟨true, _, _, _, rfl, by rw [← hdd]; omega, qs1, hone1, hone2, hone3,
              fun _ => Or.inr ⟨d1, rfl, h1⟩⟩
          · rw [if_neg h1]
            obtain ⟨brk, v, data1, w1, hloop, hd1, qs, hq1, hq2, hq3, hq4⟩ :=
              ih r.world r.rc [d0, d1] n1 (rom.drop c) (by omega)
                (by rw [List.length_drop]; omega) (by omega) rfl
            have hsplit : rom.take n = rom.take c ++ (rom.drop c).take n1 := by
              have : n = c + n1 := by omega
              rw [this, List.take_add]
            refine ⟨brk, v, data1, w1, hloop, hd1, (rom.take c, l) :: qs, ?_, ?_, ?_, hq4⟩
            · rw [hq1, htx]; simp
            · rw [hsplit]
              simpa using hq2
            · intro hb
              rw [hsplit]
              simpa using hq3 hb

theorem block_range (a F : Nat) (hF : F < U32) :
    add32 (sub32 (sub32 (add32 a F) 1) a) 1 = F := by
  unfold add32 sub32 U32 at *
  omega

/-- `rl78_recv` on a one-byte status record. -/
theorem rl78_recv_status (H : Header) (hH : H.framing) (hM : 5 ≤ H.MAX_RESPONSE_LENGTH)
    (v : World) (s : Nat → Nat) (d : Nat) (hd : d < 256) (data : List Nat) (len : Int)
    (h1 : 1 ≤ data.length) (hrx : v.rx = feed (status_frame H d) s) :
    rl78_recv H v data len 1 =
      some ⟨H.RESPONSE_OK, d :: data.drop 1, 1, { v with rx := s }⟩ := by
  obtain ⟨-, h2, h3, h4⟩ := hH
  have := rl78_recv_record H v s H.STX 1 (neg8 (1 + d)) H.ETX [d] data len 1 hrx h2
    (by decide) (neg8_lt _) h4 (by simpa using hd) rfl (by omega)
  rw [this]
  rw [if_neg (by simp; omega), if_neg (by simp), if_neg (by simp), if_neg (by simp),
    if_pos (by simpa using h1)]
  rfl

theorem rl78_cmd_block_blank_check_spec (H : Header) (hM : 2 ≤ H.MAX_RESPONSE_LENGTH)
    (w : World) (a e : Nat) :
    ∃ rc w1, rl78_cmd_block_blank_check H w a e = some (rc, w1) ∧
      w1.tx = w.tx ++ [cmd_frame H H.CMD_BLOCK_BLANK_CHECK
        ((le32 a).take 3 ++ (le32 e).take 3 ++ [0])] := by
  have hs := rl78_send_cmd_eq H w H.CMD_BLOCK_BLANK_CHECK
    ((le32 a).take 3 ++ (le32 e).take 3 ++ [0]) 7 (by decide) (by simp [le32])
  have hl7 : ((le32 a).take 3 ++ (le32 e).take 3 ++ [0]).length = 7 := rfl
  rw [List.take_of_length_le (le_of_eq hl7)] at hs
  obtain ⟨r, hr1, hr2, hr3⟩ := rl78_recv_shape H
    (sent w (cmd_frame H H.CMD_BLOCK_BLANK_CHECK ((le32 a).take 3 ++ (le32 e).take 3 ++ [0])))
    [0] 0 1 hM (by decide)
  obtain ⟨d0, t, hdd⟩ := list_cons r.data (by rw [hr3]; decide)
  have htx := hr2.trans (sent_tx _ _)
  unfold rl78_cmd_block_blank_check
  simp only [hs]
  have hr1b : rl78_recv H (sent w (cmd_frame H H.CMD_BLOCK_BLANK_CHECK
      ((le32 a).take 3 ++ (le32 e).take 3 ++ [0]))) [0] 0 1 = some r := hr1
  simp only [hr1b, hdd, List.getElem?_cons_zero]
  split_ifs <;> exact ⟨_, _, rfl, htx⟩

theorem rl78_cmd_block_blank_check_status (H : Header) (hH : H.framing)
    (hM : 5 ≤ H.MAX_RESPONSE_LENGTH) (w : World) (a e : Nat) (s : Nat → Nat) (d : Nat)
    (hd : d < 256)
    (hrx : (sent w (cmd_frame H H.CMD_BLOCK_BLANK_CHECK
      ((le32 a).take 3 ++ (le32 e).take 3 ++ [0]))).rx = feed (status_frame H d) s) :
    rl78_cmd_block_blank_check H w a e =
      some (if H.STATUS_ACK ≠ d ∧ H.STATUS_IVERIFY_BLANK_ERROR ≠ d then (d : Int)
            else if H.STATUS_ACK = d then 0 else 1,
        { sent w (cmd_frame H H.CMD_BLOCK_BLANK_CHECK
            ((le32 a).take 3 ++ (le32 e).take 3 ++ [0])) with rx := s }) := by
  have hs := rl78_send_cmd_eq H w H.CMD_BLOCK_BLANK_CHECK
    ((le32 a).take 3 ++ (le32 e).take 3 ++ [0]) 7 (by decide) (by simp [le32])
  have hl7 : ((le32 a).take 3 ++ (le32 e).take 3 ++ [0]).length = 7 := rfl
  rw [List.take_of_length_le (le_of_eq hl7)] at hs
  have hr := rl78_recv_status H hH hM _ s d hd [0] 0 (by decide) hrx
  unfold rl78_cmd_block_blank_check
  simp only [hs]
  have hrb : rl78_recv H (sent w (cmd_frame H H.CMD_BLOCK_BLANK_CHECK
      ((le32 a).take 3 ++ (le32 e).take 3 ++ [0]))) [0] 0 1 = _ := hr
  simp only [hrb, List.getElem?_cons_zero, ne_eq, not_true_eq_false, if_false]
  split_ifs <;> rfl

theorem rl78_cmd_block_erase_spec (H : Header) (hM : 2 ≤ H.MAX_RESPONSE_LENGTH)
    (w : World) (a : Nat) :
    ∃ rc w1, rl78_cmd_block_erase H w a = some (rc, w1) ∧
      w1.tx = w.tx ++ [cmd_frame H H.CMD_BLOCK_ERASE ((le32 a).take 3)] := by
  have hs := rl78_send_cmd_eq H w H.CMD_BLOCK_ERASE (le32 a) 3 (by decide) (by simp [le32])
  obtain ⟨r, hr1, hr2, hr3⟩ := rl78_recv_shape H
    (sent w (cmd_frame H H.CMD_BLOCK_ERASE ((le32 a).take 3))) [0] 0 1 hM (by decide)
  obtain ⟨d0, t, hdd⟩ := list_cons r.data (by rw [hr3]; decide)
  have htx := hr2.trans (sent_tx _ _)
  unfold rl78_cmd_block_erase
  simp only [hs]
  have hr1b : rl78_recv H (sent w (cmd_frame H H.CMD_BLOCK_ERASE ((le32 a).take 3)))
      [0] 0 1 = some r := hr1
  simp only [hr1b, hdd, List.getElem?_cons_zero]
  split_ifs <;> exact ⟨_, _, rfl, htx⟩

theorem rl78_cmd_programming_spec (H : Header) (hM : 2 ≤ H.MAX_RESPONSE_LENGTH)
    (w : World) (a e : Nat) (rom : List Nat)
    (hrom : add32 (sub32 e a) 1 ≤ rom.length) :
    ∃ rc w1, rl78_cmd_programming H w a e rom = some (rc, w1) ∧
      ∃ qs : List (List Nat × Int),
        w1.tx = w.tx ++ cmd_frame H H.CMD_PROGRAMMING ((le32 a).take 3 ++ (le32 e).take 3)
          :: qs.map (fun q => data_frame H q.1 q.2) ∧
        (qs.map Prod.fst).flatten <+: rom.take (add32 (sub32 e a) 1) ∧
        ((qs.map Prod.fst).flatten = rom.take (add32 (sub32 e a) 1) ∨
          rc ≠ H.RESPONSE_OK ∨ ∃ d : Nat, rc = (d : Int) ∧ H.STATUS_ACK ≠ d) := by
  have hs := rl78_send_cmd_eq H w H.CMD_PROGRAMMING
    ((le32 a).take 3 ++ (le32 e).take 3) 6 (by decide) (by simp [le32])
  have hl6 : ((le32 a).take 3 ++ (le32 e).take 3).length = 6 := rfl
  rw [List.take_of_length_le (le_of_eq hl6)] at hs
  obtain ⟨r, hr1, hr2, hr3⟩ := rl78_recv_shape H
    (sent w (cmd_frame H H.CMD_PROGRAMMING ((le32 a).take 3 ++ (le32 e).take 3)))
    [0, 0] 0 1 hM (by decide)
  obtain ⟨d0, d1, hdd⟩ := list_two r.data (by rw [hr3]; rfl)
  have htx := hr2.trans (sent_tx _ _)
  have hnil : ∀ rc : Int, (rc ≠ H.RESPONSE_OK ∨ ∃ d : Nat, rc = (d : Int) ∧ H.STATUS_ACK ≠ d) →
      ∃ qs : List (List Nat × Int),
      r.world.tx = w.tx ++ cmd_frame H H.CMD_PROGRAMMING ((le32 a).take 3 ++ (le32 e).take 3)
        :: qs.map (fun q => data_frame H q.1 q.2) ∧
      (qs.map Prod.fst).flatten <+: rom.take (add32 (sub32 e a) 1) ∧
      ((qs.map Prod.fst).flatten = rom.take (add32 (sub32 e a) 1) ∨
        rc ≠ H.RESPONSE_OK ∨ ∃ d : Nat, rc = (d : Int) ∧ H.STATUS_ACK ≠ d) :=
    fun rc hrc => ⟨[], by simpa using htx, by simp, Or.inr hrc⟩
  unfold rl78_cmd_programming
  simp only [hs]
  have hr1b : rl78_recv H (sent w (cmd_frame H H.CMD_PROGRAMMING
      ((le32 a).take 3 ++ (le32 e).take 3))) [0, 0] 0 1 = some r := hr1
  simp only [hr1b, hdd, List.getElem?_cons_zero]
  by_cases hok : H.RESPONSE_OK ≠ r.rc
  · rw [if_pos hok]; exact ⟨_, _, rfl, hnil _ (Or.inl (fun h => hok h.symm))⟩
  · rw [if_neg hok]
    by_cases h0 : H.STATUS_ACK ≠ d0
    · rw [if_pos h0]; exact ⟨_, _, rfl, hnil _ (Or.inr ⟨d0, rfl, h0⟩)⟩
    · rw [if_neg h0]
      obtain ⟨brk, v, data1, w1, hloop, hd1, qs, hq1, hq2, hq3, hq4⟩ :=
        rl78_cmd_programming_loop_spec H hM (add32 (sub32 e a) 1) r.world r.rc [d0, d1]
          (add32 (sub32 e a) 1) rom (le_refl _) hrom
          (by unfold add32; exact Nat.mod_lt _ (by decide)) rfl
      have htx1 : w1.tx = w.tx ++ cmd_frame H H.CMD_PROGRAMMING
          ((le32 a).take 3 ++ (le32 e).take 3) :: qs.map (fun q => data_frame H q.1 q.2) := by
        rw [hq1, htx]; simp
      rw [hloop]
      cases brk with
      | true => exact ⟨_, _, rfl, qs, htx1, hq2, Or.inr (hq4 rfl)⟩
      | false =>
        obtain ⟨r2, hr21, hr22, hr23⟩ := rl78_recv_shape H w1 data1 0 1 hM (by omega)
        obtain ⟨e0, t, hee⟩ := list_cons r2.data (by omega)
        have hr21b : rl78_recv H w1 data1 0 1 = some r2 := hr21
        simp only [hr21b, hee, List.getElem?_cons_zero]
        rw [← hr22] at htx1
        split_ifs <;> exact ⟨_, _, rfl, qs, htx1, hq2, Or.inl (hq3 rfl)⟩

theorem rl78_cmd_verify_spec (H : Header) (hM : 2 ≤ H.MAX_RESPONSE_LENGTH)
    (w : World) (a e : Nat) (rom : List Nat)
    (hrom : add32 (sub32 e a) 1 ≤ rom.length) :
    ∃ rc w1, rl78_cmd_verify H w a e rom = some (rc, w1) ∧
      ∃ qs : List (List Nat × Int),
        w1.tx = w.tx ++ cmd_frame H H.CMD_VERIFY ((le32 a).take 3 ++ (le32 e).take 3)
          :: qs.map (fun q => data_frame H q.1 q.2) ∧
        (qs.map Prod.fst).flatten <+: rom.take (add32 (sub32 e a) 1) ∧
        ((qs.map Prod.fst).flatten = rom.take (add32 (sub32 e a) 1) ∨
          rc ≠ H.RESPONSE_OK ∨ ∃ d : Nat, rc = (d : Int) ∧ H.STATUS_ACK ≠ d) := by
  have hs := rl78_send_cmd_eq H w H.CMD_VERIFY
    ((le32 a).take 3 ++ (le32 e).take 3) 6 (by decide) (by simp [le32])
  have hl6 : ((le32 a).take 3 ++ (le32 e).take 3).length = 6 := rfl
  rw [List.take_of_length_le (le_of_eq hl6)] at hs
  obtain ⟨r, hr1, hr2, hr3⟩ := rl78_recv_shape H
    (sent w (cmd_frame H H.CMD_VERIFY ((le32 a).take 3 ++ (le32 e).take 3)))
    [0, 0] 0 1 hM (by decide)
  obtain ⟨d0, d1, hdd⟩ := list_two r.data (by rw [hr3]; rfl)
  have htx := hr2.trans (sent_tx _ _)
  have hnil : ∀ rc : Int, (rc ≠ H.RESPONSE_OK ∨ ∃ d : Nat, rc = (d : Int) ∧ H.STATUS_ACK ≠ d) →
      ∃ qs : List (List Nat × Int),
      r.world.tx = w.tx ++ cmd_frame H H.CMD_VERIFY ((le32 a).take 3 ++ (le32 e).take 3)
        :: qs.map (fun q => data_frame H q.1 q.2) ∧
      (qs.map Prod.fst).flatten <+: rom.take (add32 (sub32 e a) 1) ∧
      ((qs.map Prod.fst).flatten = rom.take (add32 (sub32 e a) 1) ∨
        rc ≠ H.RESPONSE_OK ∨ ∃ d : Nat, rc = (d : Int) ∧ H.STATUS_ACK ≠ d) :=
    fun rc hrc => ⟨[], by simpa using htx, by simp, Or.inr hrc⟩
  unfold rl78_cmd_verify
  simp only [hs]
  have hr1b : rl78_recv H (sent w (cmd_frame H H.CMD_VERIFY
      ((le32 a).take 3 ++ (le32 e).take 3))) [0, 0] 0 1 = some r := hr1
  simp only [hr1b, hdd, List.getElem?_cons_zero]
  by_cases hok : H.RESPONSE_OK ≠ r.rc
  · rw [if_pos hok]; exact ⟨_, _, rfl, hnil _ (Or.inl (fun h => hok h.symm))⟩
  · rw [if_neg hok]
    by_cases h0 : H.STATUS_ACK ≠ d0
    · rw [if_pos h0]; exact ⟨_, _, rfl, hnil _ (Or.inr ⟨d0, rfl, h0⟩)⟩
    · rw [if_neg h0]
      obtain ⟨brk, v, data1, w1, hloop, hd1, qs, hq1, hq2, hq3, hq4⟩ :=
        rl78_cmd_programming_loop_spec H hM (add32 (sub32 e a) 1) r.world r.rc [d0, d1]
          (add32 (sub32 e a) 1) rom (le_refl _) hrom
          (by unfold add32; exact Nat.mod_lt _ (by decide)) rfl
      rw [rl78_cmd_verify_loop_eq, hloop]
      refine ⟨_, _, rfl, qs, by rw [hq1, htx]; simp, hq2, ?_⟩
      cases brk with
      | true => exact Or.inr (hq4 rfl)
      | false => exact Or.inl (hq3 rfl)

/-! ## The flash orchestrator: auxiliary results -/

theorem allFFs_eq_one (n : Nat) : ∀ (mem : List Nat), n ≤ mem.length →
    (∀ b ∈ mem.take n, b = 0xFF) → allFFs mem n = some 1 := by
  induction n with
  | zero => intro mem _ _; cases mem <;> rfl
  | succ n ih =>
    intro mem hl hff
    cases mem with
    | nil => simp at hl
    | cons b p =>
      have hb : b = 0xFF := hff b (by simp)
      have hp : ∀ x ∈ p.take n, x = 0xFF := fun x hx => hff x (by simp [hx])
      simp only [allFFs, hb, ne_eq, not_true_eq_false, if_false]
      exact ih p (by simpa using hl) hp

theorem allFFs_eq_zero (n : Nat) : ∀ (mem : List Nat), n ≤ mem.length →
    (∃ b ∈ mem.take n, b ≠ 0xFF) → allFFs mem n = some 0 := by
  induction n with
  | zero => intro mem _ h; simp at h
  | succ n ih =>
    intro mem hl hne
    cases mem with
    | nil => simp at hl
    | cons b p =>
      by_cases hb : b = 0xFF
      · obtain ⟨x, hx, hxne⟩ := hne
        simp only [List.take_succ_cons, List.mem_cons] at hx
        have hxp : x ∈ p.take n := by
          rcases hx with h | h
          · exact absurd (h.trans hb) hxne
          · exact h
        simp only [allFFs, hb, ne_eq, not_true_eq_false, if_false]
        exact ih p (by simpa using hl) ⟨x, hxp, hxne⟩
      · simp only [allFFs]
        rw [if_pos (fun h => hb h.symm)]

theorem land_mask (x k : Nat) (hk : k ≤ 32) (hx : x < 2 ^ 32) :
    x &&& (2 ^ 32 - 2 ^ k) = x / 2 ^ k * 2 ^ k := by
  have e1 : 2 ^ 32 - 2 ^ k = 2 ^ k * (2 ^ (32 - k) - 1) := by
    rw [Nat.mul_sub, ← pow_add, Nat.add_sub_cancel' hk, Nat.mul_one]
  apply Nat.eq_of_testBit_eq
  intro j
  rw [Nat.testBit_and, e1, Nat.testBit_mul_pow_two, Nat.testBit_two_pow_sub_one,
    Nat.mul_comm (x / 2 ^ k), Nat.testBit_mul_pow_two, ← Nat.shiftRight_eq_div_pow,
    Nat.testBit_shiftRight]
  by_cases hj : k ≤ j
  · have e2 : k + (j - k) = j := by omega
    simp only [ge_iff_le, hj, decide_True, Bool.true_and, e2]
    by_cases h32 : j < 32
    · have : j - k < 32 - k := by omega
      simp [this]
    · have hlt : x < 2 ^ j :=
        lt_of_lt_of_le hx (Nat.pow_le_pow_right (by norm_num) (by omega))
      simp [Nat.testBit_lt_two_pow hlt]
  · simp [hj]

/-- For a block size `2 ^ k` the loop counter starts at the size rounded down to a multiple
of the block size. -/
theorem block_mask_eq (H : Header) (k : Nat) (hk : k ≤ 31) (hF : H.FLASH_BLOCK_SIZE = 2 ^ k)
    (size : Nat) (hs : size < U32) :
    block_mask H size = size / H.FLASH_BLOCK_SIZE * H.FLASH_BLOCK_SIZE := by
  have hU : U32 = 2 ^ 32 := by norm_num [U32]
  have hlt : 2 ^ k < U32 := by
    rw [hU]; exact Nat.pow_lt_pow_right (by norm_num) (by omega)
  have hpos : 0 < 2 ^ k := Nat.two_pow_pos k
  have hm : not32 (sub32 (2 ^ k) 1) = 2 ^ 32 - 2 ^ k := by
    rw [sub32_of_le _ _ hpos hlt]
    unfold not32
    rw [Nat.mod_eq_of_lt (by omega), hU]
    omega
  unfold block_mask
  rw [hF, hm]
  exact land_mask size k (by omega) (by rw [← hU]; exact hs)

theorem rl78_program_loop_visit (H : Header) (hM : 2 ≤ H.MAX_RESPONSE_LENGTH)
    (fuel : Nat) (w : World) (rc : Int) (i a : Nat) (mem : List Nat) (hi : i ≠ 0)
    (hlen : H.FLASH_BLOCK_SIZE ≤ mem.length) (hFU : H.FLASH_BLOCK_SIZE < U32)
    (hne : ∃ b ∈ mem.take H.FLASH_BLOCK_SIZE, b ≠ 0xFF) :
    program_visit H w a mem (rl78_program_loop H (fuel + 1) w rc i a mem)
      (fun rc3 w3 => rl78_program_loop H fuel w3 rc3 (sub32 i H.FLASH_BLOCK_SIZE)
        (add32 a H.FLASH_BLOCK_SIZE) (mem.drop H.FLASH_BLOCK_SIZE)) := by
  have hall := allFFs_eq_zero _ mem hlen hne
  have hrange := block_range a H.FLASH_BLOCK_SIZE hFU
  obtain ⟨rc1, w1, hb1, hb2⟩ := rl78_cmd_block_blank_check_spec H hM w a
    (sub32 (add32 a H.FLASH_BLOCK_SIZE) 1)
  have hprog : ∀ (v : World) (before : List (List Nat)), v.tx = w.tx ++ before →
      ∃ rc3 w3 qs, rl78_cmd_programming H v a (sub32 (add32 a H.FLASH_BLOCK_SIZE) 1) mem
          = some (rc3, w3) ∧
        w3.tx = w.tx ++ before ++
          cmd_frame H H.CMD_PROGRAMMING ((le32 a).take 3 ++
            (le32 (sub32 (add32 a H.FLASH_BLOCK_SIZE) 1)).take 3)
            :: List.map (fun q => data_frame H q.1 q.2) qs ∧
        (qs.map Prod.fst).flatten <+: mem.take H.FLASH_BLOCK_SIZE ∧
        ((qs.map Prod.fst).flatten = mem.take H.FLASH_BLOCK_SIZE ∨
          rc3 ≠ H.RESPONSE_OK ∨ ∃ d : Nat, rc3 = (d : Int) ∧ H.STATUS_ACK ≠ d) := by
    intro v before hv
    obtain ⟨rc3, w3, h1, qs, h2, h3, h4⟩ := rl78_cmd_programming_spec H hM v a
      (sub32 (add32 a H.FLASH_BLOCK_SIZE) 1) mem (by rw [hrange]; exact hlen)
    rw [hrange] at h3 h4
    exact ⟨rc3, w3, qs, h1, by rw [h2, hv], h3, h4⟩
  unfold program_visit
  simp only []
  refine ⟨rc1, w1, hb1, hb2, ?_, ?_, ?_⟩
  · intro hneg
    conv_lhs => unfold rl78_program_loop
    rw [if_neg hi]
    simp only [hall, if_true, hb1]
    rw [if_pos (by omega)]
  · intro hz
    obtain ⟨rc3, w3, qs, h1, h2, h3, h4⟩ := hprog w1 _ hb2
    refine ⟨rc3, w3, qs, h1, h2, h3, h4, ?_⟩
    conv_lhs => unfold rl78_program_loop
    rw [if_neg hi]
    simp only [hall, if_true, hb1]
    rw [if_neg (by omega), if_neg (by omega)]
    simp only []
    rw [if_neg (by omega)]
    simp only [h1, gt_iff_lt]
  · intro hp
    obtain ⟨rc2, w2, he1, he2⟩ := rl78_cmd_block_erase_spec H hM w1 a
    have he3 : w2.tx = w.tx ++ [cmd_frame H H.CMD_BLOCK_BLANK_CHECK
        ((le32 a).take 3 ++ (le32 (sub32 (add32 a H.FLASH_BLOCK_SIZE) 1)).take 3 ++ [0]),
        cmd_frame H H.CMD_BLOCK_ERASE ((le32 a).take 3)] := by
      rw [he2, hb2]; simp
    refine ⟨rc2, w2, he1, he3, ?_, ?_⟩
    · intro hneg
      conv_lhs => unfold rl78_program_loop
      rw [if_neg hi]
      simp only [hall, if_true, hb1]
      rw [if_neg (by omega), if_pos hp]
      simp only [he1]
      rw [if_pos ⟨hp, by omega⟩]
    · intro hnn
      obtain ⟨rc3, w3, qs, h1, h2, h3, h4⟩ := hprog w2 _ he3
      refine ⟨rc3, w3, qs, h1, h2, h3, h4, ?_⟩
      conv_lhs => unfold rl78_program_loop
      rw [if_neg hi]
      simp only [hall, if_true, hb1]
      rw [if_neg (by omega), if_pos hp]
      simp only [he1]
      rw [if_neg (by omega)]
      simp only [h1, gt_iff_lt]

theorem sub32_self (a : Nat) (ha : a < U32) : sub32 a a = 0 := by
  rw [sub32_of_le a a (le_refl _) ha]; omega

theorem rl78_program_loop_zero (H : Header) (fuel : Nat) (w : World) (rc : Int) (a : Nat)
    (mem : List Nat) : rl78_program_loop H fuel w rc 0 a mem = some (rc, w) := by
  unfold rl78_program_loop; simp

/-- The run on an image whose first block is blank and whose size is two blocks is the run
of the loop entered at the second block with the port untouched. -/
theorem rl78_program_two_blocks (H : Header) (k : Nat) (hk : k ≤ 30)
    (hF : H.FLASH_BLOCK_SIZE = 2 ^ k) (w : World) (a : Nat) (blk0 blk1 : List Nat)
    (h0 : blk0.length = H.FLASH_BLOCK_SIZE) (hff : ∀ b ∈ blk0, b = 0xFF) :
    rl78_program H w a (blk0 ++ blk1) (2 * H.FLASH_BLOCK_SIZE) =
      rl78_program_loop H (2 * H.FLASH_BLOCK_SIZE - 2 + 1) w 0 H.FLASH_BLOCK_SIZE
        (add32 a H.FLASH_BLOCK_SIZE) blk1 := by
  have hU : U32 = 2 ^ 32 := by norm_num [U32]
  have hpos : 0 < H.FLASH_BLOCK_SIZE := by rw [hF]; exact Nat.two_pow_pos k
  have hlt : 2 * H.FLASH_BLOCK_SIZE < U32 := by
    have : 2 ^ (k + 1) < 2 ^ 32 := Nat.pow_lt_pow_right (by norm_num) (by omega)
    rw [hF, hU]; rw [pow_succ] at this; omega
  have hmask : block_mask H (2 * H.FLASH_BLOCK_SIZE) = 2 * H.FLASH_BLOCK_SIZE := by
    rw [block_mask_eq H k (by omega) hF _ hlt, Nat.mul_div_cancel _ hpos]
  have hfuel : 2 * H.FLASH_BLOCK_SIZE = (2 * H.FLASH_BLOCK_SIZE - 2 + 1) + 1 := by omega
  have hall : allFFs (blk0 ++ blk1) H.FLASH_BLOCK_SIZE = some 1 :=
    allFFs_eq_one _ _ (by simp [h0]) (by
      intro b hb
      rw [List.take_append_of_le_length (by omega), List.take_of_length_le (by omega)] at hb
      exact hff b hb)
  have hsub : sub32 (2 * H.FLASH_BLOCK_SIZE) H.FLASH_BLOCK_SIZE = H.FLASH_BLOCK_SIZE := by
    rw [sub32_of_le _ _ (by omega) hlt]; omega
  have hdrop : (blk0 ++ blk1).drop H.FLASH_BLOCK_SIZE = blk1 := by
    rw [← h0]; exact List.drop_left _ _
  have hstep : ∀ f, rl78_program_loop H (f + 1) w 0 (2 * H.FLASH_BLOCK_SIZE) a (blk0 ++ blk1)
      = rl78_program_loop H f w 0 H.FLASH_BLOCK_SIZE (add32 a H.FLASH_BLOCK_SIZE) blk1 := by
    intro f
    conv_lhs => unfold rl78_program_loop
    rw [if_neg (by omega)]
    simp only [hall, hsub, hdrop, one_ne_zero, if_false]
  unfold rl78_program
  rw [hmask, ← hstep (2 * H.FLASH_BLOCK_SIZE - 2 + 1), ← hfuel]

theorem rl78_cmd_block_blank_check_no_stx (H : Header) (hM : 2 ≤ H.MAX_RESPONSE_LENGTH)
    (hcode : H.RESPONSE_OK ≠ H.RESPONSE_FORMAT_ERROR) (w : World) (a e : Nat)
    (hrx : (sent w (cmd_frame H H.CMD_BLOCK_BLANK_CHECK
      ((le32 a).take 3 ++ (le32 e).take 3 ++ [0]))).byte 0 ≠ H.STX) :
    rl78_cmd_block_blank_check H w a e =
      some (H.RESPONSE_FORMAT_ERROR, (sent w (cmd_frame H H.CMD_BLOCK_BLANK_CHECK
        ((le32 a).take 3 ++ (le32 e).take 3 ++ [0]))).skip 2) := by
  have hs := rl78_send_cmd_eq H w H.CMD_BLOCK_BLANK_CHECK
    ((le32 a).take 3 ++ (le32 e).take 3 ++ [0]) 7 (by decide) (by simp [le32])
  have hl7 : ((le32 a).take 3 ++ (le32 e).take 3 ++ [0]).length = 7 := rfl
  rw [List.take_of_length_le (le_of_eq hl7)] at hs
  have hr := rl78_recv_eq H (sent w (cmd_frame H H.CMD_BLOCK_BLANK_CHECK
    ((le32 a).take 3 ++ (le32 e).take 3 ++ [0]))) [0] 0 1 hM
  simp only [] at hr
  rw [if_pos (Or.inr (fun h => hrx h.symm))] at hr
  unfold rl78_cmd_block_blank_check
  simp only [hs]
  have hrb : rl78_recv H (sent w (cmd_frame H H.CMD_BLOCK_BLANK_CHECK
      ((le32 a).take 3 ++ (le32 e).take 3 ++ [0]))) [0] 0 1 = _ := hr
  simp only [hrb]
  rw [if_pos hcode]

/-! ## The flash orchestrator: the claims -/

/-- C7 (amended): for every block that `rl78_program` visits and that is not all 0xFF, at
block address `a`, the bytes handed to the port for that block are, in this order and with
nothing else: the blank-check record for `[a, a + FLASH_BLOCK_SIZE - 1]`; the block-erase
record for `a` if and only if the blank-check returned a positive value; then the
programming record for `[a, a + FLASH_BLOCK_SIZE - 1]` with data records that carry the
bytes of that block, in order (all of them unless the programming command returns a codec
error or a status byte other than `ACK`); a negative result of the blank-check or of the
erase ends the operation with that result before anything more is issued
(`program_visit`).  For the two-block image whose block 0 is all 0xFF and whose block 1 is
not, the whole run is that visit of block 1, started from the untouched port and followed
by the return of the result of the programming command. -/
theorem rl78_program_block_trace (H : Header) (hM : 2 ≤ H.MAX_RESPONSE_LENGTH) :
    (∀ (fuel : Nat) (w : World) (rc : Int) (i a : Nat) (mem : List Nat),
      i ≠ 0 → H.FLASH_BLOCK_SIZE ≤ mem.length → H.FLASH_BLOCK_SIZE < U32 →
      (∃ b ∈ mem.take H.FLASH_BLOCK_SIZE, b ≠ 0xFF) →
      program_visit H w a mem (rl78_program_loop H (fuel + 1) w rc i a mem)
        (fun rc3 w3 => rl78_program_loop H fuel w3 rc3 (sub32 i H.FLASH_BLOCK_SIZE)
          (add32 a H.FLASH_BLOCK_SIZE) (mem.drop H.FLASH_BLOCK_SIZE))) ∧
    (∀ (k : Nat) (w : World) (a : Nat) (blk0 blk1 : List Nat),
      k ≤ 30 → H.FLASH_BLOCK_SIZE = 2 ^ k →
      blk0.length = H.FLASH_BLOCK_SIZE → (∀ b ∈ blk0, b = 0xFF) →
      blk1.length = H.FLASH_BLOCK_SIZE → (∃ b ∈ blk1, b ≠ 0xFF) →
      program_visit H w (add32 a H.FLASH_BLOCK_SIZE) blk1
        (rl78_program H w a (blk0 ++ blk1) (2 * H.FLASH_BLOCK_SIZE))
        (fun rc3 w3 => some (rc3, w3))) := by
  constructor
  · intro fuel w rc i a mem hi hlen hFU hne
    exact rl78_program_loop_visit H hM fuel w rc i a mem hi hlen hFU hne
  · intro k w a blk0 blk1 hk hF h0 hff h1 hne
    have hU : U32 = 2 ^ 32 := by norm_num [U32]
    have hFU : H.FLASH_BLOCK_SIZE < U32 := by
      rw [hF, hU]; exact Nat.pow_lt_pow_right (by norm_num) (by omega)
    have hpos : H.FLASH_BLOCK_SIZE ≠ 0 := by
      rw [hF]; exact (Nat.two_pow_pos k).ne'
    have hne1 : ∃ b ∈ blk1.take H.FLASH_BLOCK_SIZE, b ≠ 0xFF := by
      rw [List.take_of_length_le (le_of_eq h1)]; exact hne
    have hv := rl78_program_loop_visit H hM (2 * H.FLASH_BLOCK_SIZE - 2) w 0
      H.FLASH_BLOCK_SIZE (add32 a H.FLASH_BLOCK_SIZE) blk1 hpos (le_of_eq h1.symm) hFU hne1
    rw [rl78_program_two_blocks H k hk hF w a blk0 blk1 h0 hff]
    have hnext : (fun (rc3 : Int) (w3 : World) =>
        rl78_program_loop H (2 * H.FLASH_BLOCK_SIZE - 2) w3 rc3
          (sub32 H.FLASH_BLOCK_SIZE H.FLASH_BLOCK_SIZE)
          (add32 (add32 a H.FLASH_BLOCK_SIZE) H.FLASH_BLOCK_SIZE)
          (blk1.drop H.FLASH_BLOCK_SIZE)) = (fun rc3 w3 => some (rc3, w3)) := by
      funext rc3 w3
      rw [sub32_self _ hFU, rl78_program_loop_zero]
    rw [hnext] at hv
    exact hv

/-- C7, witness: the two-block image at 0x2000 whose first block is blank and whose second
block is all zero. -/
theorem rl78_program_block_trace_witness :
    program_visit rl78_h (quiet 2 (fun _ => 0)) (add32 0x2000 rl78_h.FLASH_BLOCK_SIZE)
      (List.replicate 1024 0)
      (rl78_program rl78_h (quiet 2 (fun _ => 0)) 0x2000
        (List.replicate 1024 0xFF ++ List.replicate 1024 0) (2 * rl78_h.FLASH_BLOCK_SIZE))
      (fun rc3 w3 => some (rc3, w3)) :=
  (rl78_program_block_trace rl78_h (by decide)).2 10 (quiet 2 (fun _ => 0)) 0x2000
    (List.replicate 1024 0xFF) (List.replicate 1024 0) (by decide) (by decide)
    (List.length_replicate _ _) (fun _ hb => List.eq_of_mem_replicate hb)
    (List.length_replicate _ _) ⟨0, by rw [List.mem_replicate]; decide, by decide⟩

/-- C7, counterexample: on the two-block image whose block 0 is all 0xFF and whose block 1
is all zero, when the port delivers zero bytes (no `STX`) the blank-check of block 1 fails
with the format error code and `rl78_program` returns it; the only buffer handed to the
port is the blank-check record of block 1, so no programming command is issued for the
block although it is not all 0xFF. -/
theorem rl78_program_block_trace_counterexample :
    ∃ w1, rl78_program rl78_h (quiet 2 (fun _ => 0)) 0
        (List.replicate 1024 0xFF ++ List.replicate 1024 0) 2048
        = some (rl78_h.RESPONSE_FORMAT_ERROR, w1) ∧
      w1.tx = [[0x01, 0x08, 0x32, 0x00, 0x04, 0x00, 0xFF, 0x07, 0x00, 0x00, 0xBC, 0x03]] ∧
      rl78_h.RESPONSE_FORMAT_ERROR < 0 := by
  have h2 := rl78_program_two_blocks rl78_h 10 (by decide) (by decide)
    (quiet 2 (fun _ => 0)) 0 (List.replicate 1024 0xFF) (List.replicate 1024 0)
    (List.length_replicate _ _) (fun _ hb => List.eq_of_mem_replicate hb)
  have hv := rl78_program_loop_visit rl78_h (by decide) (2 * rl78_h.FLASH_BLOCK_SIZE - 2)
    (quiet 2 (fun _ => 0)) 0 rl78_h.FLASH_BLOCK_SIZE (add32 0 rl78_h.FLASH_BLOCK_SIZE)
    (List.replicate 1024 0) (by decide) (by rw [List.length_replicate]; decide) (by decide)
    ⟨0, by
      rw [List.take_of_length_le (by rw [List.length_replicate]; decide),
        List.mem_replicate]
      decide, by decide⟩
  have hb := rl78_cmd_block_blank_check_no_stx rl78_h (by decide) (by decide)
    (quiet 2 (fun _ => 0)) (add32 0 rl78_h.FLASH_BLOCK_SIZE)
    (sub32 (add32 (add32 0 rl78_h.FLASH_BLOCK_SIZE) rl78_h.FLASH_BLOCK_SIZE) 1) (by decide)
  obtain ⟨rc1, w1, hb1, hb2, hneg, -, -⟩ := hv
  rw [hb] at hb1
  obtain ⟨hrc, hw⟩ := Prod.mk.inj (Option.some.inj hb1)
  refine ⟨w1, ?_, ?_, by decide⟩
  · have h2b : rl78_program rl78_h (quiet 2 (fun _ => 0)) 0
        (List.replicate 1024 0xFF ++ List.replicate 1024 0) 2048 = _ := h2
    rw [h2b, hneg (by rw [← hrc]; decide), ← hrc]
  · rw [hb2]; decide

theorem rl78_program_loop_allFF (H : Header) (hpos : 0 < H.FLASH_BLOCK_SIZE) (m : Nat) :
    ∀ (fuel : Nat) (w : World) (rc : Int) (address : Nat) (mem : List Nat),
    m ≤ fuel → m * H.FLASH_BLOCK_SIZE < U32 → m * H.FLASH_BLOCK_SIZE ≤ mem.length →
    (∀ b ∈ mem, b = 0xFF) →
    rl78_program_loop H fuel w rc (m * H.FLASH_BLOCK_SIZE) address mem = some (rc, w) := by
  induction m with
  | zero =>
    intro fuel w rc address mem _ _ _ _
    unfold rl78_program_loop
    simp
  | succ m ih =>
    intro fuel w rc address mem hf hU hl hff
    obtain ⟨f, rfl⟩ : ∃ f, fuel = f + 1 := ⟨fuel - 1, by omega⟩
    have hi : (m + 1) * H.FLASH_BLOCK_SIZE ≠ 0 := by
      rw [Nat.add_mul]; omega
    have hm : (m + 1) * H.FLASH_BLOCK_SIZE = m * H.FLASH_BLOCK_SIZE + H.FLASH_BLOCK_SIZE := by
      rw [Nat.add_mul, Nat.one_mul]
    have hall : allFFs mem H.FLASH_BLOCK_SIZE = some 1 :=
      allFFs_eq_one _ mem (by omega) (fun b hb => hff b (List.mem_of_mem_take hb))
    have hsub : sub32 ((m + 1) * H.FLASH_BLOCK_SIZE) H.FLASH_BLOCK_SIZE
        = m * H.FLASH_BLOCK_SIZE := by
      rw [sub32_of_le _ _ (by omega) hU]; omega
    unfold rl78_program_loop
    rw [if_neg hi]
    simp only [hall, hsub, one_ne_zero, if_false]
    exact ih f w rc _ _ (by omega) (by omega) (by rw [List.length_drop]; omega)
      (fun b hb => hff b (List.mem_of_mem_drop hb))

/-- C8: for every start address and every size, `rl78_program` on an image whose bytes are all
0xFF (the image holding at least `size` bytes, the block size being a power of two) returns
0 and leaves the port as it found it: nothing is written and nothing is read, so no
blank-check, erase or programming command is issued. -/
theorem rl78_program_all_FF (H : Header) (k : Nat) (hk : k ≤ 31)
    (hF : H.FLASH_BLOCK_SIZE = 2 ^ k) (w : World) (address : Nat) (data : List Nat)
    (size : Nat) (hs : size < U32) (hlen : size ≤ data.length)
    (hff : ∀ b ∈ data, b = 0xFF) :
    rl78_program H w address data size = some (0, w) := by
  have hpos : 0 < H.FLASH_BLOCK_SIZE := by rw [hF]; exact Nat.two_pow_pos k
  have hle : size / H.FLASH_BLOCK_SIZE * H.FLASH_BLOCK_SIZE ≤ size :=
    Nat.div_mul_le_self size _
  unfold rl78_program
  rw [block_mask_eq H k hk hF size hs]
  exact rl78_program_loop_allFF H hpos _ _ w 0 address data
    (Nat.le_mul_of_pos_right _ hpos) (by omega) (by omega) hff

/-- C8, witness: an image of two blank blocks and a partial third, in single-wire mode. -/
theorem rl78_program_all_FF_witness :
    rl78_program rl78_h (quiet 1 (fun _ => 0)) 0x2000 (List.replicate 2500 0xFF) 2500 =
      some (0, quiet 1 (fun _ => 0)) :=
  rl78_program_all_FF rl78_h 10 (by decide) (by decide) (quiet 1 (fun _ => 0)) 0x2000
    (List.replicate 2500 0xFF) 2500 (by decide)
    (by rw [List.length_replicate])
    (fun _ hb => List.eq_of_mem_replicate hb)

/-- C9: for every block visited by `rl78_erase`, at block address `a`, exactly one
blank-check record over `[a, a + FLASH_BLOCK_SIZE - 1]` is handed to the port; the
block-erase record for `a` follows if and only if that blank-check returned a positive
value (non-blank), after which the loop ends on a negative erase result and otherwise moves
to the next block; when the blank-check did not return a positive value nothing more is
written for the block.  An `ACK` answer to the blank-check gives the result 0, so such a
block gets no erase command; a `BLANK_ERROR` answer gives the result 1. -/
theorem rl78_erase_block_trace (H : Header) (hM : 2 ≤ H.MAX_RESPONSE_LENGTH) (fuel : Nat)
    (w : World) (rc : Int) (i a : Nat) (hi : i ≠ 0) :
    ∃ rc1 w1,
      rl78_cmd_block_blank_check H w a (sub32 (add32 a H.FLASH_BLOCK_SIZE) 1)
        = some (rc1, w1) ∧
      w1.tx = w.tx ++ [cmd_frame H H.CMD_BLOCK_BLANK_CHECK ((le32 a).take 3 ++
        (le32 (sub32 (add32 a H.FLASH_BLOCK_SIZE) 1)).take 3 ++ [0])] ∧
      (0 < rc1 → ∃ rc2 w2, rl78_cmd_block_erase H w1 a = some (rc2, w2) ∧
        w2.tx = w.tx ++ [cmd_frame H H.CMD_BLOCK_BLANK_CHECK ((le32 a).take 3 ++
            (le32 (sub32 (add32 a H.FLASH_BLOCK_SIZE) 1)).take 3 ++ [0]),
          cmd_frame H H.CMD_BLOCK_ERASE ((le32 a).take 3)] ∧
        rl78_erase_loop H (fuel + 1) w rc i a =
          if rc2 < 0 then some (rc2, w2)
          else rl78_erase_loop H fuel w2 rc2 (sub32 i H.FLASH_BLOCK_SIZE)
            (add32 a H.FLASH_BLOCK_SIZE)) ∧
      (¬ 0 < rc1 →
        rl78_erase_loop H (fuel + 1) w rc i a =
          if rc1 < 0 then some (rc1, w1)
          else rl78_erase_loop H fuel w1 rc1 (sub32 i H.FLASH_BLOCK_SIZE)
            (add32 a H.FLASH_BLOCK_SIZE)) ∧
      (∀ s : Nat → Nat, H.framing → 5 ≤ H.MAX_RESPONSE_LENGTH → H.STATUS_ACK < 256 →
        (sent w (cmd_frame H H.CMD_BLOCK_BLANK_CHECK ((le32 a).take 3 ++
          (le32 (sub32 (add32 a H.FLASH_BLOCK_SIZE) 1)).take 3 ++ [0]))).rx
            = feed (status_frame H H.STATUS_ACK) s →
        rc1 = 0) ∧
      (∀ s : Nat → Nat, H.framing → 5 ≤ H.MAX_RESPONSE_LENGTH →
        H.STATUS_IVERIFY_BLANK_ERROR < 256 → H.STATUS_ACK ≠ H.STATUS_IVERIFY_BLANK_ERROR →
        (sent w (cmd_frame H H.CMD_BLOCK_BLANK_CHECK ((le32 a).take 3 ++
          (le32 (sub32 (add32 a H.FLASH_BLOCK_SIZE) 1)).take 3 ++ [0]))).rx
            = feed (status_frame H H.STATUS_IVERIFY_BLANK_ERROR) s →
        rc1 = 1) := by
  obtain ⟨rc1, w1, hb1, hb2⟩ := rl78_cmd_block_blank_check_spec H hM w a
    (sub32 (add32 a H.FLASH_BLOCK_SIZE) 1)
  refine ⟨rc1, w1, hb1, hb2, ?_, ?_, ?_, ?_⟩
  · intro hp
    obtain ⟨rc2, w2, he1, he2⟩ := rl78_cmd_block_erase_spec H hM w1 a
    refine ⟨rc2, w2, he1, by rw [he2, hb2]; simp, ?_⟩
    conv_lhs => unfold rl78_erase_loop
    rw [if_neg hi]
    simp only [hb1]
    rw [if_neg (by omega), if_pos hp]
    simp only [he1, gt_iff_lt]
  · intro hnp
    conv_lhs => unfold rl78_erase_loop
    rw [if_neg hi]
    simp only [hb1, gt_iff_lt]
    by_cases hneg : rc1 < 0
    · rw [if_pos hneg, if_pos hneg]
    · rw [if_neg hneg, if_neg hnp, if_neg hneg]
  · intro s hH hM5 hack hrx
    have hst := rl78_cmd_block_blank_check_status H hH hM5 w a
      (sub32 (add32 a H.FLASH_BLOCK_SIZE) 1) s H.STATUS_ACK hack hrx
    rw [hst] at hb1
    have := (Prod.mk.inj (Option.some.inj hb1)).1
    simpa using this.symm
  · intro s hH hM5 hbl hab hrx
    have hst := rl78_cmd_block_blank_check_status H hH hM5 w a
      (sub32 (add32 a H.FLASH_BLOCK_SIZE) 1) s H.STATUS_IVERIFY_BLANK_ERROR hbl hrx
    rw [hst] at hb1
    have := (Prod.mk.inj (Option.some.inj hb1)).1
    simpa [hab] using this.symm

/-- C9, witness: the block at address 0 with a target that answers `ACK` to the
blank-check; the only buffer written is the blank-check record and its result is 0. -/
theorem rl78_erase_block_trace_witness :
    ∃ rc1 w1, rl78_cmd_block_blank_check rl78_h
        (quiet 2 (feed [0x02, 0x01, 0x06, 0xF9, 0x03] (fun _ => 0))) 0 1023
        = some (rc1, w1) ∧
      w1.tx = [[0x01, 0x08, 0x32, 0x00, 0x00, 0x00, 0xFF, 0x03, 0x00, 0x00, 0xC4, 0x03]] ∧
      rc1 = 0 ∧
      rl78_erase_loop rl78_h 1 (quiet 2 (feed [0x02, 0x01, 0x06, 0xF9, 0x03] (fun _ => 0)))
        0 1024 0 = some (0, w1) := by
  obtain ⟨rc1, w1, h1, h2, -, h4, h5, -⟩ := rl78_erase_block_trace rl78_h (by decide) 0
    (quiet 2 (feed [0x02, 0x01, 0x06, 0xF9, 0x03] (fun _ => 0))) 0 1024 0 (by decide)
  have h0 : rc1 = 0 := h5 (fun _ => 0) (by decide) (by decide) (by decide) rfl
  refine ⟨rc1, w1, h1, by rw [h2]; decide, h0, ?_⟩
  rw [h4 (by omega), if_neg (by omega), h0]
  rfl

/-- C10: for every block visited by `rl78_verify`, at block address `a`.  If the host image
block is all 0xFF, exactly one blank-check record over `[a, a + FLASH_BLOCK_SIZE - 1]` and
nothing else is handed to the port, and a non-zero result of the blank-check (in particular
the result 1 of a `BLANK_ERROR` answer) ends the verification with that result.  Otherwise
exactly one verify record over `[a, a + FLASH_BLOCK_SIZE - 1]`, followed only by data
records, is handed to the port; the data records carry, in order, the bytes of that block
(all of them, unless the command returns a codec error or a status byte other than `ACK`,
and then a prefix of them), and a non-zero result of `rl78_cmd_verify` ends the
verification with that result.  In both cases a zero result moves the loop to the next
block. -/
theorem rl78_verify_block_trace (H : Header) (hM : 2 ≤ H.MAX_RESPONSE_LENGTH) (fuel : Nat)
    (w : World) (rc : Int) (i a : Nat) (mem : List Nat) (hi : i ≠ 0)
    (hlen : H.FLASH_BLOCK_SIZE ≤ mem.length) (hFU : H.FLASH_BLOCK_SIZE < U32) :
    ((∀ b ∈ mem.take H.FLASH_BLOCK_SIZE, b = 0xFF) →
      ∃ rc1 w1,
        rl78_cmd_block_blank_check H w a (sub32 (add32 a H.FLASH_BLOCK_SIZE) 1)
          = some (rc1, w1) ∧
        w1.tx = w.tx ++ [cmd_frame H H.CMD_BLOCK_BLANK_CHECK ((le32 a).take 3 ++
          (le32 (sub32 (add32 a H.FLASH_BLOCK_SIZE) 1)).take 3 ++ [0])] ∧
        rl78_verify_loop H (fuel + 1) w rc i a mem =
          (if rc1 ≠ 0 then some (rc1, w1)
           else rl78_verify_loop H fuel w1 rc1 (sub32 i H.FLASH_BLOCK_SIZE)
             (add32 a H.FLASH_BLOCK_SIZE) (mem.drop H.FLASH_BLOCK_SIZE)) ∧
        (∀ s : Nat → Nat, H.framing → 5 ≤ H.MAX_RESPONSE_LENGTH →
          H.STATUS_IVERIFY_BLANK_ERROR < 256 → H.STATUS_ACK ≠ H.STATUS_IVERIFY_BLANK_ERROR →
          (sent w (cmd_frame H H.CMD_BLOCK_BLANK_CHECK ((le32 a).take 3 ++
            (le32 (sub32 (add32 a H.FLASH_BLOCK_SIZE) 1)).take 3 ++ [0]))).rx
              = feed (status_frame H H.STATUS_IVERIFY_BLANK_ERROR) s →
          rc1 = 1 ∧ rl78_verify_loop H (fuel + 1) w rc i a mem = some (1, w1))) ∧
    ((∃ b ∈ mem.take H.FLASH_BLOCK_SIZE, b ≠ 0xFF) →
      ∃ rc1 w1 qs,
        rl78_cmd_verify H w a (sub32 (add32 a H.FLASH_BLOCK_SIZE) 1) mem = some (rc1, w1) ∧
        w1.tx = w.tx ++ cmd_frame H H.CMD_VERIFY ((le32 a).take 3 ++
          (le32 (sub32 (add32 a H.FLASH_BLOCK_SIZE) 1)).take 3)
            :: List.map (fun q => data_frame H q.1 q.2) qs ∧
        (qs.map Prod.fst).flatten <+: mem.take H.FLASH_BLOCK_SIZE ∧
        ((qs.map Prod.fst).flatten = mem.take H.FLASH_BLOCK_SIZE ∨
          rc1 ≠ H.RESPONSE_OK ∨ ∃ d : Nat, rc1 = (d : Int) ∧ H.STATUS_ACK ≠ d) ∧
        rl78_verify_loop H (fuel + 1) w rc i a mem =
          (if rc1 ≠ 0 then some (rc1, w1)
           else rl78_verify_loop H fuel w1 rc1 (sub32 i H.FLASH_BLOCK_SIZE)
             (add32 a H.FLASH_BLOCK_SIZE) (mem.drop H.FLASH_BLOCK_SIZE))) := by
  constructor
  · intro hff
    have hall := allFFs_eq_one _ mem hlen hff
    obtain ⟨rc1, w1, hb1, hb2⟩ := rl78_cmd_block_blank_check_spec H hM w a
      (sub32 (add32 a H.FLASH_BLOCK_SIZE) 1)
    have hloop : rl78_verify_loop H (fuel + 1) w rc i a mem =
        (if rc1 ≠ 0 then some (rc1, w1)
         else rl78_verify_loop H fuel w1 rc1 (sub32 i H.FLASH_BLOCK_SIZE)
           (add32 a H.FLASH_BLOCK_SIZE) (mem.drop H.FLASH_BLOCK_SIZE)) := by
      conv_lhs => unfold rl78_verify_loop
      rw [if_neg hi]
      simp only [hall, hb1, gt_iff_lt]
      rw [if_pos (by decide)]
      by_cases hneg : rc1 < 0
      · rw [if_pos hneg, if_pos (by omega)]
      · rw [if_neg hneg]
        by_cases hp : 0 < rc1
        · rw [if_pos hp, if_pos (by omega)]
        · rw [if_neg hp, if_neg (by omega)]
    refine ⟨rc1, w1, hb1, hb2, hloop, ?_⟩
    intro s hH hM5 hbl hab hrx
    have hst := rl78_cmd_block_blank_check_status H hH hM5 w a
      (sub32 (add32 a H.FLASH_BLOCK_SIZE) 1) s H.STATUS_IVERIFY_BLANK_ERROR hbl hrx
    rw [hst] at hb1
    have h1 : rc1 = 1 := by
      have := (Prod.mk.inj (Option.some.inj hb1)).1
      simpa [hab] using this.symm
    exact ⟨h1, by rw [hloop, if_pos (by omega), h1]⟩
  · intro hne
    have hall := allFFs_eq_zero _ mem hlen hne
    have hrange := block_range a H.FLASH_BLOCK_SIZE hFU
    obtain ⟨rc1, w1, h1, qs, h2, h3, h4⟩ := rl78_cmd_verify_spec H hM w a
      (sub32 (add32 a H.FLASH_BLOCK_SIZE) 1) mem (by rw [hrange]; exact hlen)
    rw [hrange] at h3 h4
    refine ⟨rc1, w1, qs, h1, h2, h3, h4, ?_⟩
    conv_lhs => unfold rl78_verify_loop
    rw [if_neg hi]
    simp only [hall, h1]
    rw [if_neg (by decide)]
    by_cases hz : rc1 = 0
    · rw [if_neg (by omega), if_neg (by omega)]
    · rw [if_pos (by omega), if_pos hz]

/-- C10, witness: a blank host block at address 0 for which the target answers
`BLANK_ERROR`: one blank-check record is written and the verification ends with 1. -/
theorem rl78_verify_block_trace_witness :
    ∃ w1, rl78_verify_loop rl78_h 1
        (quiet 2 (feed [0x02, 0x01, 0x1B, 0xE4, 0x03] (fun _ => 0))) 0 1024 0
        (List.replicate 1024 0xFF) = some (1, w1) ∧
      w1.tx = [[0x01, 0x08, 0x32, 0x00, 0x00, 0x00, 0xFF, 0x03, 0x00, 0x00, 0xC4, 0x03]] := by
  obtain ⟨rc1, w1, -, h2, -, h4⟩ := (rl78_verify_block_trace rl78_h (by decide) 0
    (quiet 2 (feed [0x02, 0x01, 0x1B, 0xE4, 0x03] (fun _ => 0))) 0 1024 0
    (List.replicate 1024 0xFF) (by decide) (by rw [List.length_replicate]; decide)
    (by decide)).1 (fun _ hb => List.eq_of_mem_replicate (List.mem_of_mem_take hb))
  exact ⟨w1, (h4 (fun _ => 0) (by decide) (by decide) (by decide) (by decide) rfl).2,
    by rw [h2]; decide⟩

/-! ## Status replies: auxiliary results -/

theorem feed_append (l1 l2 : List Nat) (s : Nat → Nat) :
    feed (l1 ++ l2) s = feed l1 (feed l2 s) := by
  funext i
  unfold feed
  by_cases h1 : i < l1.length
  · have h2 : i < (l1 ++ l2).length := by rw [List.length_append]; omega
    rw [if_pos h1, if_pos h2, List.getD_append _ _ _ _ h1]
  · rw [if_neg h1]
    by_cases h2 : i < (l1 ++ l2).length
    · have h3 : i - l1.length < l2.length := by
        rw [List.length_append] at h2; omega
      rw [if_pos h2, if_pos h3, List.getD_append_right _ _ _ _ (by omega)]
    · have h3 : ¬ i - l1.length < l2.length := by
        rw [List.length_append] at h2; omega
      rw [if_neg h2, if_neg h3, List.length_append]
      congr 1; omega

theorem rl78_recv_rc (H : Header) (hM : 2 ≤ H.MAX_RESPONSE_LENGTH) (w : World)
    (data : List Nat) (len explen : Int) (r : Recv)
    (h : rl78_recv H w data len explen = some r) :
    r.rc = H.RESPONSE_OK ∨ r.rc = H.RESPONSE_FORMAT_ERROR ∨
      r.rc = H.RESPONSE_CHECKSUM_ERROR ∨ r.rc = H.RESPONSE_EXPECTED_LENGTH_ERROR := by
  rw [rl78_recv_eq H w data len explen hM] at h
  simp only [] at h
  split_ifs at h <;> (cases h; simp)

theorem codes_negative (H : Header) (hC : H.codes) (hM : 2 ≤ H.MAX_RESPONSE_LENGTH)
    (w : World) (data : List Nat) (len explen : Int) (r : Recv)
    (h : rl78_recv H w data len explen = some r) (hne : r.rc ≠ H.RESPONSE_OK) : r.rc < 0 := by
  obtain ⟨-, h2, h3, h4⟩ := hC
  rcases rl78_recv_rc H hM w data len explen r h with h | h | h | h
  · exact absurd h hne
  · rw [h]; exact h2
  · rw [h]; exact h3
  · rw [h]; exact h4

/-- `rl78_cmd_block_blank_check` in terms of the reply that `rl78_recv` decodes. -/
theorem rl78_cmd_block_blank_check_eq (H : Header) (w : World) (a e : Nat) :
    rl78_cmd_block_blank_check H w a e =
      match rl78_recv H (sent w (cmd_frame H H.CMD_BLOCK_BLANK_CHECK
          ((le32 a).take 3 ++ (le32 e).take 3 ++ [0]))) [0] 0 1 with
      | none => none
      | some r =>
        if H.RESPONSE_OK ≠ r.rc then some (r.rc, r.world)
        else
          match r.data[0]? with
          | none => none
          | some d0 =>
            if H.STATUS_ACK ≠ d0 ∧ H.STATUS_IVERIFY_BLANK_ERROR ≠ d0 then
              some ((d0 : Int), r.world)
            else if H.STATUS_ACK = d0 then some (0, r.world)
            else some (1, r.world) := by
  have hs := rl78_send_cmd_eq H w H.CMD_BLOCK_BLANK_CHECK
    ((le32 a).take 3 ++ (le32 e).take 3 ++ [0]) 7 (by decide) (by simp [le32])
  have hl7 : ((le32 a).take 3 ++ (le32 e).take 3 ++ [0]).length = 7 := rfl
  rw [List.take_of_length_le (le_of_eq hl7)] at hs
  unfold rl78_cmd_block_blank_check
  simp only [hs]

/-- `rl78_cmd_block_erase` in terms of the reply that `rl78_recv` decodes. -/
theorem rl78_cmd_block_erase_eq (H : Header) (w : World) (a : Nat) :
    rl78_cmd_block_erase H w a =
      match rl78_recv H (sent w (cmd_frame H H.CMD_BLOCK_ERASE ((le32 a).take 3))) [0] 0 1 with
      | none => none
      | some r =>
        if H.RESPONSE_OK ≠ r.rc then some (r.rc, r.world)
        else
          match r.data[0]? with
          | none => none
          | some d0 =>
            if H.STATUS_ACK ≠ d0 then some ((d0 : Int), r.world)
            else some (0, r.world) := by
  have hs := rl78_send_cmd_eq H w H.CMD_BLOCK_ERASE (le32 a) 3 (by decide) (by simp [le32])
  unfold rl78_cmd_block_erase
  simp only [hs]

/-- `rl78_cmd_reset` in terms of the reply that `rl78_recv` decodes. -/
theorem rl78_cmd_reset_eq (H : Header) (w : World) :
    rl78_cmd_reset H w =
      match rl78_recv H (sent w (cmd_frame H H.CMD_RESET [])) [0, 0, 0] 0 1 with
      | none => none
      | some r =>
        if H.RESPONSE_OK ≠ r.rc then some (r.rc, r.world)
        else
          match r.data[0]? with
          | none => none
          | some d0 =>
            if H.STATUS_ACK ≠ d0 then some ((d0 : Int), r.world)
            else some (0, r.world) := by
  have hs := rl78_send_cmd_eq H w H.CMD_RESET [] 0 (by decide) (by simp)
  unfold rl78_cmd_reset
  simp only [hs, List.take_nil]

theorem rl78_cmd_block_erase_status (H : Header) (hH : H.framing)
    (hM : 5 ≤ H.MAX_RESPONSE_LENGTH) (w : World) (a : Nat) (s : Nat → Nat) (d : Nat)
    (hd : d < 256)
    (hrx : (sent w (cmd_frame H H.CMD_BLOCK_ERASE ((le32 a).take 3))).rx
      = feed (status_frame H d) s) :
    rl78_cmd_block_erase H w a =
      some (if H.STATUS_ACK ≠ d then (d : Int) else 0,
        { sent w (cmd_frame H H.CMD_BLOCK_ERASE ((le32 a).take 3)) with rx := s }) := by
  have hr := rl78_recv_status H hH hM _ s d hd [0] 0 (by decide) hrx
  rw [rl78_cmd_block_erase_eq]
  have hrb : rl78_recv H (sent w (cmd_frame H H.CMD_BLOCK_ERASE ((le32 a).take 3)))
      [0] 0 1 = _ := hr
  simp only [hrb, List.getElem?_cons_zero, ne_eq, not_true_eq_false, if_false]
  split_ifs <;> rfl

theorem rl78_cmd_reset_status (H : Header) (hH : H.framing)
    (hM : 5 ≤ H.MAX_RESPONSE_LENGTH) (w : World) (s : Nat → Nat) (d : Nat) (hd : d < 256)
    (hrx : (sent w (cmd_frame H H.CMD_RESET [])).rx = feed (status_frame H d) s) :
    rl78_cmd_reset H w =
      some (if H.STATUS_ACK ≠ d then (d : Int) else 0,
        { sent w (cmd_frame H H.CMD_RESET []) with rx := s }) := by
  have hr := rl78_recv_status H hH hM _ s d hd [0, 0, 0] 0 (by decide) hrx
  rw [rl78_cmd_reset_eq]
  have hrb : rl78_recv H (sent w (cmd_frame H H.CMD_RESET [])) [0, 0, 0] 0 1 = _ := hr
  simp only [hrb, List.getElem?_cons_zero, ne_eq, not_true_eq_false, if_false]
  split_ifs <;> rfl

theorem rl78_erase_loop_succ (H : Header) (fuel : Nat) (w : World) (rc : Int) (i a : Nat)
    (hi : i ≠ 0) :
    rl78_erase_loop H (fuel + 1) w rc i a =
      match rl78_cmd_block_blank_check H w a (sub32 (add32 a H.FLASH_BLOCK_SIZE) 1) with
      | none => none
      | some (rc1, w1) =>
        if 0 > rc1 then some (rc1, w1)
        else if 0 < rc1 then
          match rl78_cmd_block_erase H w1 a with
          | none => none
          | some (rc2, w2) =>
            if 0 > rc2 then some (rc2, w2)
            else
              rl78_erase_loop H fuel w2 rc2 (sub32 i H.FLASH_BLOCK_SIZE)
                (add32 a H.FLASH_BLOCK_SIZE)
        else
          rl78_erase_loop H fuel w1 rc1 (sub32 i H.FLASH_BLOCK_SIZE)
            (add32 a H.FLASH_BLOCK_SIZE) := by
  conv_lhs => unfold rl78_erase_loop
  rw [if_neg hi]

theorem rl78_erase_loop_zero (H : Header) (fuel : Nat) (w : World) (rc : Int) (a : Nat) :
    rl78_erase_loop H fuel w rc 0 a = some (rc, w) := by
  unfold rl78_erase_loop; simp

theorem sent_rx_of_ne (w : World) (f : List Nat) (h : w.communication_mode ≠ 1) :
    (sent w f).rx = w.rx := by
  simp [sent, h, World.put]

theorem sent_rx_of_eq (w : World) (f : List Nat) (h : w.communication_mode = 1) :
    (sent w f).rx = fun i => w.rx (f.length + i) := by
  simp [sent, h, World.put, World.skip]

/-- The tail shared by the single-status commands: what the result `(ret, w1)` says about
the reply `o` that `rl78_recv` decoded. -/
theorem single_status_result (H : Header) (hC : H.codes) (o : Option Recv) (ret : Int)
    (w1 : World)
    (h : (match o with
      | none => none
      | some r =>
        if H.RESPONSE_OK ≠ r.rc then some (r.rc, r.world)
        else
          match r.data[0]? with
          | none => none
          | some d0 =>
            if H.STATUS_ACK ≠ d0 then some ((d0 : Int), r.world)
            else some (0, r.world)) = some (ret, w1)) :
    ∃ r, o = some r ∧ w1 = r.world ∧
      (r.rc ≠ H.RESPONSE_OK → ret = r.rc) ∧
      (r.rc = H.RESPONSE_OK → ∃ d : Nat, r.data[0]? = some d ∧
        (d = H.STATUS_ACK → ret = 0) ∧ (d ≠ H.STATUS_ACK → ret = (d : Int)) ∧
        (ret = 0 ↔ d = H.STATUS_ACK ∨ d = 0)) := by
  have _hok := hC.1
  cases o with
  | none => simp at h
  | some r =>
    refine ⟨r, rfl, ?_⟩
    simp only [] at h
    by_cases hrc : H.RESPONSE_OK ≠ r.rc
    · rw [if_pos hrc] at h
      cases h
      exact ⟨rfl, fun _ => rfl, fun h2 => absurd h2.symm hrc⟩
    · rw [if_neg hrc] at h
      cases hd : r.data[0]? with
      | none => rw [hd] at h; simp at h
      | some d =>
        rw [hd] at h
        simp only [] at h
        by_cases hack : H.STATUS_ACK ≠ d
        · rw [if_pos hack] at h
          cases h
          refine ⟨rfl, fun h2 => absurd h2.symm hrc, fun _ => ⟨d, rfl, ?_, fun _ => rfl, ?_⟩⟩
          · intro h2; exact absurd h2.symm hack
          · constructor
            · intro h0; right; exact_mod_cast h0
            · rintro (h2 | h2)
              · exact absurd h2.symm hack
              · rw [h2]; rfl
        · rw [if_neg hack] at h
          cases h
          have hack2 : d = H.STATUS_ACK := (not_not.mp hack).symm
          refine ⟨rfl, fun h2 => absurd h2.symm hrc, fun _ => ⟨d, rfl, fun _ => rfl, ?_, ?_⟩⟩
          · intro h2; exact absurd hack2 h2
          · exact ⟨fun _ => Or.inl hack2, fun _ => rfl⟩

/-! ## The loop of `rl78_erase` against a target that answers with status records -/

theorem rl78_erase_loop_step (H : Header) (fuel : Nat) (w : World) (rc : Int) (i a : Nat)
    (hf : fuel ≠ 0) (hi : i ≠ 0) :
    rl78_erase_loop H fuel w rc i a =
      match rl78_cmd_block_blank_check H w a (sub32 (add32 a H.FLASH_BLOCK_SIZE) 1) with
      | none => none
      | some (rc1, w1) =>
        if 0 > rc1 then some (rc1, w1)
        else if 0 < rc1 then
          match rl78_cmd_block_erase H w1 a with
          | none => none
          | some (rc2, w2) =>
            if 0 > rc2 then some (rc2, w2)
            else
              rl78_erase_loop H (fuel - 1) w2 rc2 (sub32 i H.FLASH_BLOCK_SIZE)
                (add32 a H.FLASH_BLOCK_SIZE)
        else
          rl78_erase_loop H (fuel - 1) w1 rc1 (sub32 i H.FLASH_BLOCK_SIZE)
            (add32 a H.FLASH_BLOCK_SIZE) := by
  cases fuel with
  | zero => exact absurd rfl hf
  | succ n => exact rl78_erase_loop_succ H n w rc i a hi

theorem sent_mode (w : World) (f : List Nat) (s : Nat → Nat) :
    ({ sent w f with rx := s } : World).communication_mode = w.communication_mode := by
  unfold sent
  split_ifs <;> rfl

theorem sent_with_tx (w : World) (f : List Nat) (s : Nat → Nat) :
    ({ sent w f with rx := s } : World).tx = w.tx ++ [f] := sent_tx w f

/-- One visit of the loop of `rl78_erase` on a two-wire port when the target reports the
block blank: only the blank-check is issued and the loop goes on to the next block. -/
theorem rl78_erase_loop_blank (H : Header) (hH : H.framing) (hM : 5 ≤ H.MAX_RESPONSE_LENGTH)
    (hA : H.STATUS_ACK < 256) (fuel : Nat) (w : World) (rc : Int) (i a : Nat)
    (s : Nat → Nat) (hf : fuel ≠ 0) (hi : i ≠ 0) (hmode : w.communication_mode ≠ 1)
    (hrx : w.rx = feed (status_frame H H.STATUS_ACK) s) :
    rl78_erase_loop H fuel w rc i a =
      rl78_erase_loop H (fuel - 1)
        { sent w (cmd_frame H H.CMD_BLOCK_BLANK_CHECK ((le32 a).take 3 ++
            (le32 (sub32 (add32 a H.FLASH_BLOCK_SIZE) 1)).take 3 ++ [0])) with rx := s }
        0 (sub32 i H.FLASH_BLOCK_SIZE) (add32 a H.FLASH_BLOCK_SIZE) := by
  rw [rl78_erase_loop_step H fuel w rc i a hf hi,
    rl78_cmd_block_blank_check_status H hH hM w a _ s H.STATUS_ACK hA
      ((sent_rx_of_ne _ _ hmode).trans hrx)]
  simp

/-- One visit of the loop of `rl78_erase` on a two-wire port when the target reports the
block not blank and answers the block-erase with the status `d`: whatever `d` is, the loop
goes on to the next block, carrying `d` (0 for `ACK`) as the current result. -/
theorem rl78_erase_loop_nonblank (H : Header) (hH : H.framing)
    (hM : 5 ≤ H.MAX_RESPONSE_LENGTH) (hB : H.STATUS_IVERIFY_BLANK_ERROR < 256)
    (hAB : H.STATUS_ACK ≠ H.STATUS_IVERIFY_BLANK_ERROR) (fuel : Nat) (w : World) (rc : Int)
    (i a : Nat) (s : Nat → Nat) (d : Nat) (hd : d < 256) (hf : fuel ≠ 0) (hi : i ≠ 0)
    (hmode : w.communication_mode ≠ 1)
    (hrx : w.rx = feed (status_frame H H.STATUS_IVERIFY_BLANK_ERROR)
      (feed (status_frame H d) s)) :
    rl78_erase_loop H fuel w rc i a =
      rl78_erase_loop H (fuel - 1)
        { sent { sent w (cmd_frame H H.CMD_BLOCK_BLANK_CHECK ((le32 a).take 3 ++
              (le32 (sub32 (add32 a H.FLASH_BLOCK_SIZE) 1)).take 3 ++ [0])) with
            rx := feed (status_frame H d) s }
          (cmd_frame H H.CMD_BLOCK_ERASE ((le32 a).take 3)) with rx := s }
        (if H.STATUS_ACK ≠ d then (d : Int) else 0)
        (sub32 i H.FLASH_BLOCK_SIZE) (add32 a H.FLASH_BLOCK_SIZE) := by
  rw [rl78_erase_loop_step H fuel w rc i a hf hi,
    rl78_cmd_block_blank_check_status H hH hM w a _ _ H.STATUS_IVERIFY_BLANK_ERROR hB
      ((sent_rx_of_ne _ _ hmode).trans hrx)]
  have hm1 : ({ sent w (cmd_frame H H.CMD_BLOCK_BLANK_CHECK ((le32 a).take 3 ++
      (le32 (sub32 (add32 a H.FLASH_BLOCK_SIZE) 1)).take 3 ++ [0])) with
      rx := feed (status_frame H d) s } : World).communication_mode ≠ 1 := by
    rw [sent_mode]; exact hmode
  have he := rl78_cmd_block_erase_status H hH hM
    { sent w (cmd_frame H H.CMD_BLOCK_BLANK_CHECK ((le32 a).take 3 ++
      (le32 (sub32 (add32 a H.FLASH_BLOCK_SIZE) 1)).take 3 ++ [0])) with
      rx := feed (status_frame H d) s } a s d hd ((sent_rx_of_ne _ _ hm1).trans rfl)
  have hrc1 : (if H.STATUS_ACK ≠ H.STATUS_IVERIFY_BLANK_ERROR ∧
      H.STATUS_IVERIFY_BLANK_ERROR ≠ H.STATUS_IVERIFY_BLANK_ERROR
      then (H.STATUS_IVERIFY_BLANK_ERROR : Int)
      else if H.STATUS_ACK = H.STATUS_IVERIFY_BLANK_ERROR then 0 else 1) = 1 := by
    rw [if_neg (fun h => h.2 rfl), if_neg hAB]
  have h0 : ¬ (0 : Int) > (if H.STATUS_ACK ≠ d then (d : Int) else 0) := by
    split_ifs <;> omega
  rw [hrc1]
  simp only []
  rw [if_neg (by decide), if_pos (by decide)]
  simp only [he]
  rw [if_neg h0]

/-! ## The silicon signature: auxiliary results -/

theorem le24_drop (d : List Nat) (k : Nat) (h : k + 3 ≤ d.length) :
    le24 (d.drop k) =
      some (d.getD k 0 + 256 * d.getD (k + 1) 0 + 65536 * d.getD (k + 2) 0) := by
  rw [List.drop_eq_getElem_cons (by omega), List.drop_eq_getElem_cons (by omega),
    List.drop_eq_getElem_cons (by omega), List.getD_eq_getElem _ _ (by omega),
    List.getD_eq_getElem _ _ (by omega), List.getD_eq_getElem _ _ (by omega)]
  rfl

theorem store_name_some (dn d : List Nat) (hd : 13 ≤ d.length) (hn : 11 ≤ dn.length) :
    store_name (some dn) d = some (some ((d.drop 3).take 10 ++ 0 :: dn.drop 11)) := by
  have h10 : ((d.drop 3).take 10).length = 10 := by
    rw [List.length_take, List.length_drop]; omega
  unfold store_name memcpy
  simp only []
  rw [if_pos ⟨by rw [List.length_drop]; omega, by omega⟩]
  simp only []
  rw [if_pos (by rw [List.length_append, h10, List.length_drop]; omega),
    List.set_append_right _ _ (by omega), h10,
    List.drop_eq_getElem_cons (show 10 < dn.length by omega)]
  rfl

/-- `rl78_cmd_silicon_signature` in terms of the replies that `rl78_recv` decodes. -/
theorem rl78_cmd_silicon_signature_eq (H : Header) (w : World) (device_name : Option (List Nat))
    (code_size data_size : Option Nat) :
    rl78_cmd_silicon_signature H w device_name code_size data_size =
      match rl78_recv H (sent w (cmd_frame H H.CMD_SILICON_SIGNATURE []))
          (List.replicate 22 0) 0 1 with
      | none => none
      | some r =>
        if H.RESPONSE_OK ≠ r.rc then some ⟨r.rc, device_name, code_size, data_size, r.world⟩
        else
          match r.data[0]? with
          | none => none
          | some d0 =>
            if H.STATUS_ACK ≠ d0 then
              some ⟨(d0 : Int), device_name, code_size, data_size, r.world⟩
            else
              match rl78_recv H r.world r.data r.len 22 with
              | none => none
              | some r2 =>
                if H.RESPONSE_OK ≠ r2.rc then
                  some ⟨r2.rc, device_name, code_size, data_size, r2.world⟩
                else
                  match store_name device_name r2.data,
                      le24 (r2.data.drop 13), le24 (r2.data.drop 16) with
                  | some name1, some rom_code_address, some rom_data_address =>
                    some ⟨0, name1, code_size.map (fun _ => add32 rom_code_address 1),
                      data_size.map (fun _ =>
                        if rom_data_address ≠ 0 then
                          add32 (sub32 rom_data_address 0x000F1000) 1
                        else 0), r2.world⟩
                  | _, _, _ => none := by
  have hs := rl78_send_cmd_eq H w H.CMD_SILICON_SIGNATURE [] 0 (by decide) (by simp)
  unfold rl78_cmd_silicon_signature
  simp only [hs, List.take_nil]

/-- The record that carries the 22-byte signature payload `d`. -/
theorem signature_recv (H : Header) (hH : H.framing) (hM : 26 ≤ H.MAX_RESPONSE_LENGTH)
    (v : World) (s : Nat → Nat) (d data : List Nat) (len : Int) (hd : d.length = 22)
    (hb : ∀ b ∈ d, b < 256) (hdata : data.length = 22)
    (hrx : v.rx = feed ([H.STX, 22] ++ d ++ [neg8 (22 + d.sum), H.ETX]) s) :
    rl78_recv H v data len 22 = some ⟨H.RESPONSE_OK, d, 22, { v with rx := s }⟩ := by
  obtain ⟨-, h2, -, h4⟩ := hH
  rw [rl78_recv_record H v s H.STX 22 (neg8 (22 + d.sum)) H.ETX d data len 22 hrx h2
    (by decide) (neg8_lt _) h4 hb (by rw [hd]; rfl) (by omega)]
  rw [if_neg (by rw [hd]; simp; omega), if_neg (by rw [hd]; simp), if_neg (by simp),
    if_neg (by simp), if_pos (by rw [hd, hdata])]
  rw [List.drop_of_length_le (by rw [hd, hdata]), List.append_nil, hd]
  rfl

/-- The outcome of `rl78_cmd_silicon_signature` when the target answers `ACK` and then sends
the 22-byte signature payload `d`. -/
theorem rl78_cmd_silicon_signature_reply (H : Header) (hH : H.framing)
    (hA : H.STATUS_ACK < 256) (hM : 26 ≤ H.MAX_RESPONSE_LENGTH) (w : World) (s : Nat → Nat)
    (d : List Nat) (hd : d.length = 22) (hb : ∀ b ∈ d, b < 256) (name : List Nat)
    (hn : 11 ≤ name.length) (code_size data_size : Option Nat)
    (hrx : (sent w (cmd_frame H H.CMD_SILICON_SIGNATURE [])).rx =
      feed (status_frame H H.STATUS_ACK)
        (feed ([H.STX, 22] ++ d ++ [neg8 (22 + d.sum), H.ETX]) s)) :
    rl78_cmd_silicon_signature H w (some name) code_size data_size =
      some ⟨0, some ((d.drop 3).take 10 ++ 0 :: name.drop 11),
        code_size.map (fun _ =>
          add32 (d.getD 13 0 + 256 * d.getD 14 0 + 65536 * d.getD 15 0) 1),
        data_size.map (fun _ =>
          if d.getD 16 0 + 256 * d.getD 17 0 + 65536 * d.getD 18 0 ≠ 0 then
            add32 (sub32 (d.getD 16 0 + 256 * d.getD 17 0 + 65536 * d.getD 18 0) 0x000F1000) 1
          else 0),
        { sent w (cmd_frame H H.CMD_SILICON_SIGNATURE []) with rx := s }⟩ := by
  have hr1 := rl78_recv_status H hH (by omega) _ _ H.STATUS_ACK hA (List.replicate 22 0) 0
    (by decide) hrx
  have hr2 := signature_recv H hH hM
    { sent w (cmd_frame H H.CMD_SILICON_SIGNATURE []) with
      rx := feed ([H.STX, 22] ++ d ++ [neg8 (22 + d.sum), H.ETX]) s } s d
    (H.STATUS_ACK :: (List.replicate 22 0).drop 1) 1 hd hb rfl rfl
  rw [rl78_cmd_silicon_signature_eq]
  have hr1b : rl78_recv H (sent w (cmd_frame H H.CMD_SILICON_SIGNATURE []))
      (List.replicate 22 0) 0 1 = _ := hr1
  simp only [hr1b, List.getElem?_cons_zero, ne_eq, not_true_eq_false, if_false, hr2,
    store_name_some name d (by omega) hn, le24_drop d 13 (by omega), le24_drop d 16 (by omega)]

theorem getD_lt (d : List Nat) (hb : ∀ b ∈ d, b < 256) (k : Nat) : d.getD k 0 < 256 := by
  by_cases h : k < d.length
  · rw [List.getD_eq_getElem _ _ h]
    exact hb _ (List.getElem_mem h)
  · rw [List.getD_eq_default _ _ (by omega)]
    decide

/-! ## Bulk transfer: auxiliary results -/

theorem chunks_nil : chunks [] = [] := rfl

theorem chunks_short (p : List Nat) (h0 : 0 < p.length) (h : p.length ≤ 256) :
    chunks p = [(p, 1)] := by
  have hc : (p.length + 255) / 256 = 1 := by omega
  unfold chunks
  rw [hc]
  simp [List.range_succ, List.take_of_length_le h]

theorem chunks_cons (p : List Nat) (h : 256 < p.length) :
    chunks p = (p.take 256, 0) :: chunks (p.drop 256) := by
  have hc : (p.length + 255) / 256 = ((p.drop 256).length + 255) / 256 + 1 := by
    rw [List.length_drop]; omega
  unfold chunks
  rw [hc, List.range_succ_eq_map, List.map_cons, List.map_map]
  have h1 : 0 + 1 < ((p.drop 256).length + 255) / 256 + 1 := by
    rw [List.length_drop]; omega
  simp only [Nat.mul_zero, List.drop_zero, if_pos h1]
  refine congrArg _ (List.map_congr_left ?_)
  intro k _
  simp only [Function.comp, List.drop_drop, Nat.succ_eq_add_one, Nat.add_lt_add_iff_right]
  rw [show 256 + 256 * k = 256 * (k + 1) by ring]

theorem chunks_flatten (n : Nat) : ∀ p : List Nat, p.length ≤ n →
    ((chunks p).map Prod.fst).flatten = p := by
  induction n using Nat.strong_induction_on with
  | _ n ih =>
    intro p hp
    by_cases h0 : p.length = 0
    · rw [List.length_eq_zero.mp h0]; rfl
    · by_cases h : p.length ≤ 256
      · rw [chunks_short p (by omega) h]; simp
      · rw [chunks_cons p (by omega), List.map_cons, List.flatten_cons,
          ih (n - 256) (by omega) (p.drop 256) (by rw [List.length_drop]; omega)]
        exact List.take_append_drop 256 p

/-- The first data record of the transfer of the `n` bytes at `rom`, and what is left. -/
theorem chunks_step (rom : List Nat) (n : Nat) (hn : n ≠ 0) (hlen : n ≤ rom.length) :
    chunks (rom.take n) = (rom.take (min n 256), if 256 < n then 0 else 1) ::
      chunks ((rom.drop (min n 256)).take (n - min n 256)) := by
  have hl : (rom.take n).length = n := by rw [List.length_take]; omega
  by_cases h : 256 < n
  · rw [chunks_cons _ (by omega), if_pos h, Nat.min_eq_right (by omega), List.take_take,
      Nat.min_eq_left (by omega), List.drop_take]
  · rw [chunks_short _ (by omega) (by omega), if_neg h, Nat.min_eq_left (by omega),
      Nat.sub_self, List.take_zero, chunks_nil]

theorem feed_nil (s : Nat → Nat) : feed [] s = s := by
  funext i
  simp [feed]

theorem sent_rx_echo (w : World) (f l : List Nat) (s : Nat → Nat)
    (h : w.rx = feed (echo w.communication_mode f ++ l) s) : (sent w f).rx = feed l s := by
  by_cases hm : w.communication_mode = 1
  · rw [sent_rx_of_eq w f hm, h, echo, if_pos hm, feed_append]
    funext i
    simp [feed]
  · rw [sent_rx_of_ne w f hm, h, echo, if_neg hm, List.nil_append]

/-- The record that carries two status bytes is decoded into the first two cells of the
caller's buffer. -/
theorem rl78_recv_status2 (H : Header) (hH : H.framing) (hM : 6 ≤ H.MAX_RESPONSE_LENGTH)
    (v : World) (s : Nat → Nat) (d0 d1 : Nat) (hd0 : d0 < 256) (hd1 : d1 < 256)
    (data : List Nat) (len : Int) (h2 : 2 ≤ data.length)
    (hrx : v.rx = feed (status2_frame H d0 d1) s) :
    rl78_recv H v data len 2 =
      some ⟨H.RESPONSE_OK, d0 :: d1 :: data.drop 2, 2, { v with rx := s }⟩ := by
  obtain ⟨-, h2x, h3, h4⟩ := hH
  have := rl78_recv_record H v s H.STX 2 (neg8 (2 + d0 + d1)) H.ETX [d0, d1] data len 2 hrx
    h2x (by decide) (neg8_lt _) h4 (by
      intro b hb
      simp only [List.mem_cons, List.mem_singleton, List.not_mem_nil, or_false] at hb
      rcases hb with h | h <;> omega) rfl (by omega)
  rw [this]
  rw [if_neg (by simp; omega), if_neg (by simp), if_neg (by simp),
    if_neg (by simp [Nat.add_assoc]), if_pos (by simpa using h2)]
  rfl

/-- One iteration of the bulk-transfer loop when the target answers the data record with
the two status bytes `d0` and `d1`: the transfer continues only when both are `ACK`. -/
theorem rl78_cmd_programming_loop_step (H : Header) (hH : H.framing)
    (hM : 6 ≤ H.MAX_RESPONSE_LENGTH) (fuel : Nat) (v : World) (rc : Int) (data : List Nat)
    (n : Nat) (rom : List Nat) (s : Nat → Nat) (d0 d1 : Nat) (hn : n ≠ 0)
    (hlen : n ≤ rom.length) (hU : n < U32) (h2 : 2 ≤ data.length) (hd0 : d0 < 256)
    (hd1 : d1 < 256)
    (hrx : v.rx = feed (echo v.communication_mode
      (data_frame H (rom.take (min n 256)) (if 256 < n then 0 else 1)) ++
        status2_frame H d0 d1) s) :
    rl78_cmd_programming_loop H (fuel + 1) v rc data n rom =
      if H.STATUS_ACK ≠ d0 then
        some (true, (d0 : Int), d0 :: d1 :: data.drop 2,
          { sent v (data_frame H (rom.take (min n 256)) (if 256 < n then 0 else 1)) with
            rx := s })
      else if H.STATUS_ACK ≠ d1 then
        some (true, (d1 : Int), d0 :: d1 :: data.drop 2,
          { sent v (data_frame H (rom.take (min n 256)) (if 256 < n then 0 else 1)) with
            rx := s })
      else
        rl78_cmd_programming_loop H fuel
          { sent v (data_frame H (rom.take (min n 256)) (if 256 < n then 0 else 1)) with
            rx := s }
          H.RESPONSE_OK (d0 :: d1 :: data.drop 2) (n - min n 256) (rom.drop (min n 256)) := by
  have hsend : (if 256 < n then rl78_send_data H v rom 256 0
      else rl78_send_data H v rom n 1) =
      some (v.write_result (data_frame H (rom.take (min n 256)) (if 256 < n then 0 else 1)),
        sent v (data_frame H (rom.take (min n 256)) (if 256 < n then 0 else 1))) := by
    by_cases h : 256 < n
    · rw [if_pos h, if_pos h, Nat.min_eq_right (by omega),
        rl78_send_data_eq H v rom 256 0 (by omega) (by omega)]
    · rw [if_neg h, if_neg h, Nat.min_eq_left (by omega),
        rl78_send_data_eq H v rom n 1 (by omega) hlen]
  have hp : (if 256 < n then rom.drop 256 else rom.drop n) = rom.drop (min n 256) := by
    by_cases h : 256 < n
    · rw [if_pos h, Nat.min_eq_right (by omega)]
    · rw [if_neg h, Nat.min_eq_left (by omega)]
  have hl : (if 256 < n then sub32 n 256 else sub32 n n) = n - min n 256 := by
    by_cases h : 256 < n
    · rw [if_pos h, Nat.min_eq_right (by omega), sub32_of_le n 256 (by omega) hU]
    · rw [if_neg h, Nat.min_eq_left (by omega), sub32_of_le n n (le_refl _) hU]
  have hr := rl78_recv_status2 H hH hM
    (sent v (data_frame H (rom.take (min n 256)) (if 256 < n then 0 else 1))) s d0 d1 hd0 hd1
    data 0 h2 (sent_rx_echo v _ _ s hrx)
  conv_lhs => unfold rl78_cmd_programming_loop
  rw [if_neg hn]
  simp only [hsend, hp, hl, hr, List.getElem?_cons_zero, List.getElem?_cons_succ, ne_eq,
    not_true_eq_false, if_false]

theorem transfer_script_cons (H : Header) (mode : Nat) (q : List Nat × Int)
    (qs : List (List Nat × Int)) :
    transfer_script H mode (q :: qs) =
      echo mode (data_frame H q.1 q.2) ++ status2_frame H H.STATUS_ACK H.STATUS_ACK ++
        transfer_script H mode qs := by
  simp [transfer_script]

/-- The bulk-transfer loop against a target that acknowledges every data record: the loop
runs to its end and writes exactly the data records of `chunks`. -/
theorem rl78_cmd_programming_loop_ack (H : Header) (hH : H.framing) (hA : H.STATUS_ACK < 256)
    (hM : 6 ≤ H.MAX_RESPONSE_LENGTH) (fuel : Nat) :
    ∀ (v : World) (rc : Int) (data : List Nat) (n : Nat) (rom : List Nat) (s : Nat → Nat),
    n ≤ rom.length → n < U32 → (n + 255) / 256 ≤ fuel → 2 ≤ data.length →
    v.rx = feed (transfer_script H v.communication_mode (chunks (rom.take n))) s →
    ∃ data1 v1, rl78_cmd_programming_loop H fuel v rc data n rom =
        some (false, if n = 0 then rc else H.RESPONSE_OK, data1, v1) ∧
      2 ≤ data1.length ∧
      v1.tx = v.tx ++ (chunks (rom.take n)).map (fun q => data_frame H q.1 q.2) ∧
      v1.rx = s ∧ v1.communication_mode = v.communication_mode := by
  induction fuel with
  | zero =>
    intro v rc data n rom s hlen hU hf h2 hrx
    have hn : n = 0 := by omega
    subst hn
    rw [List.take_zero, chunks_nil] at hrx ⊢
    refine ⟨data, v, ?_, h2, by simp, by rw [hrx]; exact feed_nil s, rfl⟩
    unfold rl78_cmd_programming_loop
    simp
  | succ f ih =>
    intro v rc data n rom s hlen hU hf h2 hrx
    by_cases hn : n = 0
    · subst hn
      rw [List.take_zero, chunks_nil] at hrx ⊢
      refine ⟨data, v, ?_, h2, by simp, by rw [hrx]; exact feed_nil s, rfl⟩
      unfold rl78_cmd_programming_loop
      simp
    · rw [chunks_step rom n hn hlen, transfer_script_cons, feed_append] at hrx
      have hstep := rl78_cmd_programming_loop_step H hH hM f v rc data n rom _ H.STATUS_ACK
        H.STATUS_ACK hn hlen hU h2 hA hA hrx
      rw [if_neg (by simp), if_neg (by simp)] at hstep
      have hmin : 0 < min n 256 := by
        rw [Nat.lt_min]; omega
      obtain ⟨data1, v1, h1, h3, h4, h5, h6⟩ := ih
        { sent v (data_frame H (rom.take (min n 256)) (if 256 < n then 0 else 1)) with
          rx := feed (transfer_script H v.communication_mode
            (chunks ((rom.drop (min n 256)).take (n - min n 256)))) s }
        H.RESPONSE_OK (H.STATUS_ACK :: H.STATUS_ACK :: data.drop 2) (n - min n 256)
        (rom.drop (min n 256)) s (by rw [List.length_drop]; omega) (by omega) (by omega)
        (by simp) (by rw [sent_mode])
      refine ⟨data1, v1, ?_, h3, ?_, h5, by rw [h6, sent_mode]⟩
      · rw [hstep, h1, if_neg hn]
        simp
      · rw [h4, sent_with_tx, chunks_step rom n hn hlen, List.map_cons]
        simp

theorem range_length (a e N : Nat) (hae : a ≤ e) (he : e < U32) (hN : N = e - a + 1)
    (hNU : N < U32) : add32 (sub32 e a) 1 = N := by
  rw [sub32_of_le e a hae he, hN]
  unfold add32
  exact Nat.mod_eq_of_lt (hN ▸ hNU)

/-- `rl78_cmd_programming` against a target that acknowledges the command, every data
record and the completion. -/
theorem rl78_cmd_programming_ack (H : Header) (hH : H.framing) (hA : H.STATUS_ACK < 256)
    (hM : 6 ≤ H.MAX_RESPONSE_LENGTH) (w : World) (a e : Nat) (rom : List Nat)
    (s : Nat → Nat) (hrom : add32 (sub32 e a) 1 ≤ rom.length)
    (hrx : w.rx = feed (echo w.communication_mode
        (cmd_frame H H.CMD_PROGRAMMING ((le32 a).take 3 ++ (le32 e).take 3)) ++
      (status_frame H H.STATUS_ACK ++
        (transfer_script H w.communication_mode (chunks (rom.take (add32 (sub32 e a) 1))) ++
          status_frame H H.STATUS_ACK))) s) :
    ∃ w1, rl78_cmd_programming H w a e rom = some (H.RESPONSE_OK, w1) ∧
      w1.tx = w.tx ++ cmd_frame H H.CMD_PROGRAMMING ((le32 a).take 3 ++ (le32 e).take 3) ::
        (chunks (rom.take (add32 (sub32 e a) 1))).map (fun q => data_frame H q.1 q.2) ∧
      w1.rx = s := by
  have hs := rl78_send_cmd_eq H w H.CMD_PROGRAMMING
    ((le32 a).take 3 ++ (le32 e).take 3) 6 (by decide) (by simp [le32])
  have hl6 : ((le32 a).take 3 ++ (le32 e).take 3).length = 6 := rfl
  rw [List.take_of_length_le (le_of_eq hl6)] at hs
  have hrx1 := sent_rx_echo w _ _ s hrx
  rw [feed_append, feed_append] at hrx1
  have hr1 := rl78_recv_status H hH (by omega) _ _ H.STATUS_ACK hA [0, 0] 0 (by decide) hrx1
  obtain ⟨data1, v1, h1, h2, h3, h4, -⟩ := rl78_cmd_programming_loop_ack H hH hA hM
    (add32 (sub32 e a) 1)
    { sent w (cmd_frame H H.CMD_PROGRAMMING ((le32 a).take 3 ++ (le32 e).take 3)) with
      rx := feed (transfer_script H w.communication_mode
        (chunks (rom.take (add32 (sub32 e a) 1)))) (feed (status_frame H H.STATUS_ACK) s) }
    H.RESPONSE_OK (H.STATUS_ACK :: List.drop 1 [0, 0]) (add32 (sub32 e a) 1) rom
    (feed (status_frame H H.STATUS_ACK) s) hrom
    (by unfold add32; exact Nat.mod_lt _ (by decide)) (by omega) (by simp)
    (by rw [sent_mode])
  have hr2 := rl78_recv_status H hH (by omega) v1 s H.STATUS_ACK hA data1 0 (by omega) h4
  refine ⟨{ v1 with rx := s }, ?_, ?_, rfl⟩
  · unfold rl78_cmd_programming
    have hr1b : rl78_recv H (sent w (cmd_frame H H.CMD_PROGRAMMING
        ((le32 a).take 3 ++ (le32 e).take 3))) [0, 0] 0 1 = _ := hr1
    simp only [hs, hr1b, List.getElem?_cons_zero, ne_eq, not_true_eq_false, if_false, h1, hr2]
  · show v1.tx = _
    rw [h3, sent_with_tx]
    simp

/-- `rl78_cmd_verify` against a target that acknowledges the command and every data
record. -/
theorem rl78_cmd_verify_ack (H : Header) (hH : H.framing) (hA : H.STATUS_ACK < 256)
    (hM : 6 ≤ H.MAX_RESPONSE_LENGTH) (w : World) (a e : Nat) (rom : List Nat)
    (s : Nat → Nat) (hrom : add32 (sub32 e a) 1 ≤ rom.length)
    (hrx : w.rx = feed (echo w.communication_mode
        (cmd_frame H H.CMD_VERIFY ((le32 a).take 3 ++ (le32 e).take 3)) ++
      (status_frame H H.STATUS_ACK ++
        transfer_script H w.communication_mode (chunks (rom.take (add32 (sub32 e a) 1)))))
      s) :
    ∃ w1, rl78_cmd_verify H w a e rom = some (H.RESPONSE_OK, w1) ∧
      w1.tx = w.tx ++ cmd_frame H H.CMD_VERIFY ((le32 a).take 3 ++ (le32 e).take 3) ::
        (chunks (rom.take (add32 (sub32 e a) 1))).map (fun q => data_frame H q.1 q.2) ∧
      w1.rx = s := by
  have hs := rl78_send_cmd_eq H w H.CMD_VERIFY
    ((le32 a).take 3 ++ (le32 e).take 3) 6 (by decide) (by simp [le32])
  have hl6 : ((le32 a).take 3 ++ (le32 e).take 3).length = 6 := rfl
  rw [List.take_of_length_le (le_of_eq hl6)] at hs
  have hrx1 := sent_rx_echo w _ _ s hrx
  rw [feed_append] at hrx1
  have hr1 := rl78_recv_status H hH (by omega) _ _ H.STATUS_ACK hA [0, 0] 0 (by decide) hrx1
  obtain ⟨data1, v1, h1, h2, h3, h4, -⟩ := rl78_cmd_programming_loop_ack H hH hA hM
    (add32 (sub32 e a) 1)
    { sent w (cmd_frame H H.CMD_VERIFY ((le32 a).take 3 ++ (le32 e).take 3)) with
      rx := feed (transfer_script H w.communication_mode
        (chunks (rom.take (add32 (sub32 e a) 1)))) s }
    H.RESPONSE_OK (H.STATUS_ACK :: List.drop 1 [0, 0]) (add32 (sub32 e a) 1) rom
    s hrom (by unfold add32; exact Nat.mod_lt _ (by decide)) (by omega) (by simp)
    (by rw [sent_mode])
  rw [ite_self] at h1
  refine ⟨v1, ?_, ?_, h4⟩
  · unfold rl78_cmd_verify
    have hr1b : rl78_recv H (sent w (cmd_frame H H.CMD_VERIFY
        ((le32 a).take 3 ++ (le32 e).take 3))) [0, 0] 0 1 = _ := hr1
    simp only [hs, hr1b, List.getElem?_cons_zero, ne_eq, not_true_eq_false, if_false,
      rl78_cmd_verify_loop_eq, h1]
  · rw [h3, sent_with_tx]
    simp

/-! ## Block visits: auxiliary results -/

theorem rl78_program_loop_succ (H : Header) (fuel : Nat) (w : World) (rc : Int) (i a : Nat)
    (mem : List Nat) (hi : i ≠ 0) :
    rl78_program_loop H (fuel + 1) w rc i a mem =
      match program_block H w rc a mem with
      | none => none
      | some (rc1, w1, true) => some (rc1, w1)
      | some (rc1, w1, false) =>
        rl78_program_loop H fuel w1 rc1 (sub32 i H.FLASH_BLOCK_SIZE)
          (add32 a H.FLASH_BLOCK_SIZE) (mem.drop H.FLASH_BLOCK_SIZE) := by
  conv_lhs => unfold rl78_program_loop
  rw [if_neg hi]
  unfold program_block
  simp only []
  repeat' split
  all_goals simp_all

theorem rl78_erase_loop_block (H : Header) (fuel : Nat) (w : World) (rc : Int) (i a : Nat)
    (hi : i ≠ 0) :
    rl78_erase_loop H (fuel + 1) w rc i a =
      match erase_block H w a with
      | none => none
      | some (rc1, w1, true) => some (rc1, w1)
      | some (rc1, w1, false) =>
        rl78_erase_loop H fuel w1 rc1 (sub32 i H.FLASH_BLOCK_SIZE)
          (add32 a H.FLASH_BLOCK_SIZE) := by
  conv_lhs => unfold rl78_erase_loop
  rw [if_neg hi]
  unfold erase_block
  simp only []
  repeat' split
  all_goals simp_all

theorem rl78_verify_loop_succ (H : Header) (fuel : Nat) (w : World) (rc : Int) (i a : Nat)
    (mem : List Nat) (hi : i ≠ 0) :
    rl78_verify_loop H (fuel + 1) w rc i a mem =
      match verify_block H w a mem with
      | none => none
      | some (rc1, w1, true) => some (rc1, w1)
      | some (rc1, w1, false) =>
        rl78_verify_loop H fuel w1 rc1 (sub32 i H.FLASH_BLOCK_SIZE)
          (add32 a H.FLASH_BLOCK_SIZE) (mem.drop H.FLASH_BLOCK_SIZE) := by
  conv_lhs => unfold rl78_verify_loop
  rw [if_neg hi]
  unfold verify_block
  simp only []
  repeat' split
  all_goals simp_all

/-! ## Bytes beyond the block are not read -/

theorem allFFs_take (n : Nat) : ∀ (mem : List Nat) (m : Nat), n ≤ m →
    allFFs (mem.take m) n = allFFs mem n := by
  induction n with
  | zero => intro mem m _; simp [allFFs]
  | succ n ih =>
    intro mem m hm
    obtain ⟨m1, rfl⟩ : ∃ m1, m = m1 + 1 := ⟨m - 1, by omega⟩
    cases mem with
    | nil => rfl
    | cons b t =>
      rw [List.take_succ_cons]
      simp only [allFFs]
      rw [ih t m1 (by omega)]

theorem rl78_send_data_take (H : Header) (w : World) (rom : List Nat) (m len : Nat)
    (last : Int) (h : len ≤ m) :
    rl78_send_data H w (rom.take m) len last = rl78_send_data H w rom len last := by
  have h1 : ((rom.take m).length < len) ↔ (rom.length < len) := by
    rw [List.length_take]; omega
  have h2 : (rom.take m).take len = rom.take len := by
    rw [List.take_take, Nat.min_eq_left h]
  unfold rl78_send_data
  simp only [h1, h2]

theorem rl78_cmd_programming_loop_take (H : Header) (fuel : Nat) :
    ∀ (w : World) (rc : Int) (data : List Nat) (n : Nat) (rom : List Nat) (m : Nat),
    n ≤ m → n < U32 →
    rl78_cmd_programming_loop H fuel w rc data n (rom.take m) =
      rl78_cmd_programming_loop H fuel w rc data n rom := by
  induction fuel with
  | zero =>
    intro w rc data n rom m _ _
    unfold rl78_cmd_programming_loop
    rfl
  | succ f ih =>
    intro w rc data n rom m hm hU
    by_cases hn : n = 0
    · subst hn
      unfold rl78_cmd_programming_loop
      simp
    · have hsend : (if 256 < n then rl78_send_data H w (rom.take m) 256 0
          else rl78_send_data H w (rom.take m) n 1) =
          (if 256 < n then rl78_send_data H w rom 256 0
          else rl78_send_data H w rom n 1) := by
        by_cases h : 256 < n
        · rw [if_pos h, if_pos h, rl78_send_data_take H w rom m 256 0 (by omega)]
        · rw [if_neg h, if_neg h, rl78_send_data_take H w rom m n 1 hm]
      have hrec : ∀ (w1 : World) (rc1 : Int) (data1 : List Nat),
          rl78_cmd_programming_loop H f w1 rc1 data1
            (if 256 < n then sub32 n 256 else sub32 n n)
            (if 256 < n then (rom.take m).drop 256 else (rom.take m).drop n) =
          rl78_cmd_programming_loop H f w1 rc1 data1
            (if 256 < n then sub32 n 256 else sub32 n n)
            (if 256 < n then rom.drop 256 else rom.drop n) := by
        intro w1 rc1 data1
        by_cases h : 256 < n
        · rw [if_pos h, if_pos h, if_pos h, sub32_of_le n 256 (by omega) hU,
            List.drop_take]
          exact ih w1 rc1 data1 (n - 256) (rom.drop 256) (m - 256) (by omega) (by omega)
        · rw [if_neg h, if_neg h, if_neg h, sub32_of_le n n (le_refl _) hU, Nat.sub_self]
          unfold rl78_cmd_programming_loop
          simp
      conv_lhs => unfold rl78_cmd_programming_loop
      conv_rhs => unfold rl78_cmd_programming_loop
      simp only [hsend, hrec]

theorem rl78_cmd_programming_take (H : Header) (w : World) (a e : Nat) (rom : List Nat)
    (m : Nat) (h : add32 (sub32 e a) 1 ≤ m) :
    rl78_cmd_programming H w a e (rom.take m) = rl78_cmd_programming H w a e rom := by
  unfold rl78_cmd_programming
  simp only [rl78_cmd_programming_loop_take H _ _ _ _ _ rom m h
    (by unfold add32; exact Nat.mod_lt _ (by decide))]

theorem rl78_cmd_verify_take (H : Header) (w : World) (a e : Nat) (rom : List Nat)
    (m : Nat) (h : add32 (sub32 e a) 1 ≤ m) :
    rl78_cmd_verify H w a e (rom.take m) = rl78_cmd_verify H w a e rom := by
  unfold rl78_cmd_verify
  simp only [rl78_cmd_verify_loop_eq, rl78_cmd_programming_loop_take H _ _ _ _ _ rom m h
    (by unfold add32; exact Nat.mod_lt _ (by decide))]

theorem program_block_take (H : Header) (hF : H.FLASH_BLOCK_SIZE < U32) (w : World)
    (rc : Int) (a : Nat) (mem : List Nat) :
    program_block H w rc a (mem.take H.FLASH_BLOCK_SIZE) = program_block H w rc a mem := by
  unfold program_block
  simp only [allFFs_take _ mem _ (le_refl _),
    rl78_cmd_programming_take H _ a _ mem _ (le_of_eq (block_range a _ hF))]

theorem verify_block_take (H : Header) (hF : H.FLASH_BLOCK_SIZE < U32) (w : World)
    (a : Nat) (mem : List Nat) :
    verify_block H w a (mem.take H.FLASH_BLOCK_SIZE) = verify_block H w a mem := by
  unfold verify_block
  simp only [allFFs_take _ mem _ (le_refl _),
    rl78_cmd_verify_take H _ a _ mem _ (le_of_eq (block_range a _ hF))]

/-! ## The orchestrator loops as sequences of block visits -/

theorem rl78_verify_loop_zero (H : Header) (fuel : Nat) (w : World) (rc : Int) (a : Nat)
    (mem : List Nat) : rl78_verify_loop H fuel w rc 0 a mem = some (rc, w) := by
  unfold rl78_verify_loop; simp

theorem next_block (start k F : Nat) :
    add32 ((start + k * F) % U32) F = (start + (k + 1) * F) % U32 := by
  unfold add32
  rw [Nat.add_mul, Nat.one_mul, Nat.mod_add_mod, Nat.add_assoc]

theorem next_count (n F : Nat) (hU : (n + 1) * F < U32) : sub32 ((n + 1) * F) F = n * F := by
  rw [sub32_of_le _ _ (by rw [Nat.add_mul]; omega) hU, Nat.add_mul, Nat.one_mul,
    Nat.add_sub_cancel]

theorem next_mem (data : List Nat) (k F : Nat) :
    (data.drop (k * F)).drop F = data.drop ((k + 1) * F) := by
  rw [List.drop_drop, Nat.add_mul, Nat.one_mul]

theorem rl78_program_loop_blocks (H : Header) (hF : 0 < H.FLASH_BLOCK_SIZE) (start : Nat)
    (data : List Nat) (n : Nat) : ∀ (k : Nat) (w : World) (rc : Int) (fuel : Nat),
    n ≤ fuel → n * H.FLASH_BLOCK_SIZE < U32 →
    rl78_program_loop H fuel w rc (n * H.FLASH_BLOCK_SIZE)
        ((start + k * H.FLASH_BLOCK_SIZE) % U32) (data.drop (k * H.FLASH_BLOCK_SIZE)) =
      for_blocks (program_block H) H.FLASH_BLOCK_SIZE start data n k w rc := by
  induction n with
  | zero =>
    intro k w rc fuel _ _
    rw [Nat.zero_mul, rl78_program_loop_zero]
    rfl
  | succ n ih =>
    intro k w rc fuel hf hU
    obtain ⟨f, rfl⟩ : ∃ f, fuel = f + 1 := ⟨fuel - 1, by omega⟩
    have hFU : H.FLASH_BLOCK_SIZE < U32 := by
      rw [Nat.add_mul] at hU; omega
    have hcont : ∀ (w1 : World) (rc1 : Int),
        rl78_program_loop H f w1 rc1 (sub32 ((n + 1) * H.FLASH_BLOCK_SIZE) H.FLASH_BLOCK_SIZE)
          (add32 ((start + k * H.FLASH_BLOCK_SIZE) % U32) H.FLASH_BLOCK_SIZE)
          ((data.drop (k * H.FLASH_BLOCK_SIZE)).drop H.FLASH_BLOCK_SIZE) =
        for_blocks (program_block H) H.FLASH_BLOCK_SIZE start data n (k + 1) w1 rc1 := by
      intro w1 rc1
      rw [next_block, next_count n _ hU, next_mem]
      exact ih (k + 1) w1 rc1 f (by omega) (by rw [Nat.add_mul] at hU; omega)
    rw [rl78_program_loop_succ H f w rc _ _ _ (by rw [Nat.add_mul]; omega)]
    conv_rhs => unfold for_blocks
    rw [program_block_take H hFU]
    simp only [hcont]

theorem rl78_erase_loop_blocks (H : Header) (hF : 0 < H.FLASH_BLOCK_SIZE) (start : Nat)
    (n : Nat) : ∀ (k : Nat) (w : World) (rc : Int) (fuel : Nat),
    n ≤ fuel → n * H.FLASH_BLOCK_SIZE < U32 →
    rl78_erase_loop H fuel w rc (n * H.FLASH_BLOCK_SIZE)
        ((start + k * H.FLASH_BLOCK_SIZE) % U32) =
      for_blocks (fun v _ a _ => erase_block H v a) H.FLASH_BLOCK_SIZE start [] n k w rc := by
  induction n with
  | zero =>
    intro k w rc fuel _ _
    rw [Nat.zero_mul, rl78_erase_loop_zero]
    rfl
  | succ n ih =>
    intro k w rc fuel hf hU
    obtain ⟨f, rfl⟩ : ∃ f, fuel = f + 1 := ⟨fuel - 1, by omega⟩
    have hcont : ∀ (w1 : World) (rc1 : Int),
        rl78_erase_loop H f w1 rc1 (sub32 ((n + 1) * H.FLASH_BLOCK_SIZE) H.FLASH_BLOCK_SIZE)
          (add32 ((start + k * H.FLASH_BLOCK_SIZE) % U32) H.FLASH_BLOCK_SIZE) =
        for_blocks (fun v _ a _ => erase_block H v a) H.FLASH_BLOCK_SIZE start [] n (k + 1)
          w1 rc1 := by
      intro w1 rc1
      rw [next_block, next_count n _ hU]
      exact ih (k + 1) w1 rc1 f (by omega) (by rw [Nat.add_mul] at hU; omega)
    rw [rl78_erase_loop_block H f w rc _ _ (by rw [Nat.add_mul]; omega)]
    conv_rhs => unfold for_blocks
    simp only [hcont]

theorem rl78_verify_loop_blocks (H : Header) (hF : 0 < H.FLASH_BLOCK_SIZE) (start : Nat)
    (data : List Nat) (n : Nat) : ∀ (k : Nat) (w : World) (rc : Int) (fuel : Nat),
    n ≤ fuel → n * H.FLASH_BLOCK_SIZE < U32 →
    rl78_verify_loop H fuel w rc (n * H.FLASH_BLOCK_SIZE)
        ((start + k * H.FLASH_BLOCK_SIZE) % U32) (data.drop (k * H.FLASH_BLOCK_SIZE)) =
      for_blocks (fun v _ a mem => verify_block H v a mem) H.FLASH_BLOCK_SIZE start data n k
        w rc := by
  induction n with
  | zero =>
    intro k w rc fuel _ _
    rw [Nat.zero_mul, rl78_verify_loop_zero]
    rfl
  | succ n ih =>
    intro k w rc fuel hf hU
    obtain ⟨f, rfl⟩ : ∃ f, fuel = f + 1 := ⟨fuel - 1, by omega⟩
    have hFU : H.FLASH_BLOCK_SIZE < U32 := by
      rw [Nat.add_mul] at hU; omega
    have hcont : ∀ (w1 : World) (rc1 : Int),
        rl78_verify_loop H f w1 rc1 (sub32 ((n + 1) * H.FLASH_BLOCK_SIZE) H.FLASH_BLOCK_SIZE)
          (add32 ((start + k * H.FLASH_BLOCK_SIZE) % U32) H.FLASH_BLOCK_SIZE)
          ((data.drop (k * H.FLASH_BLOCK_SIZE)).drop H.FLASH_BLOCK_SIZE) =
        for_blocks (fun v _ a mem => verify_block H v a mem) H.FLASH_BLOCK_SIZE start data n
          (k + 1) w1 rc1 := by
      intro w1 rc1
      rw [next_block, next_count n _ hU, next_mem]
      exact ih (k + 1) w1 rc1 f (by omega) (by rw [Nat.add_mul] at hU; omega)
    rw [rl78_verify_loop_succ H f w rc _ _ _ (by rw [Nat.add_mul]; omega)]
    conv_rhs => unfold for_blocks
    simp only [verify_block_take H hFU, hcont]

/-! ## Block visits return -/

theorem erase_block_total (H : Header) (hM : 2 ≤ H.MAX_RESPONSE_LENGTH) (w : World)
    (a : Nat) : ∃ r, erase_block H w a = some r := by
  obtain ⟨rc1, w1, h1, -⟩ := rl78_cmd_block_blank_check_spec H hM w a
    (sub32 (add32 a H.FLASH_BLOCK_SIZE) 1)
  obtain ⟨rc2, w2, h2, -⟩ := rl78_cmd_block_erase_spec H hM w1 a
  unfold erase_block
  simp only [h1, h2]
  split_ifs <;> exact ⟨_, rfl⟩

theorem program_block_total (H : Header) (hM : 2 ≤ H.MAX_RESPONSE_LENGTH)
    (hF : H.FLASH_BLOCK_SIZE < U32) (w : World) (rc : Int) (a : Nat) (mem : List Nat)
    (hlen : H.FLASH_BLOCK_SIZE ≤ mem.length) : ∃ r, program_block H w rc a mem = some r := by
  by_cases hff : ∀ b ∈ mem.take H.FLASH_BLOCK_SIZE, b = 0xFF
  · unfold program_block
    rw [allFFs_eq_one _ mem hlen hff]
    exact ⟨_, rfl⟩
  · have hne : ∃ b ∈ mem.take H.FLASH_BLOCK_SIZE, b ≠ 0xFF := by
      by_contra hcon
      exact hff (fun b hb => by_contra (fun h => hcon ⟨b, hb, h⟩))
    obtain ⟨rc1, w1, h1, -⟩ := rl78_cmd_block_blank_check_spec H hM w a
      (sub32 (add32 a H.FLASH_BLOCK_SIZE) 1)
    obtain ⟨rc2, w2, h2, -⟩ := rl78_cmd_block_erase_spec H hM w1 a
    have hprog : ∀ v : World, ∃ rc3 w3, rl78_cmd_programming H v a
        (sub32 (add32 a H.FLASH_BLOCK_SIZE) 1) mem = some (rc3, w3) := by
      intro v
      obtain ⟨rc3, w3, h3, -⟩ := rl78_cmd_programming_spec H hM v a
        (sub32 (add32 a H.FLASH_BLOCK_SIZE) 1) mem (by rw [block_range a _ hF]; exact hlen)
      exact ⟨rc3, w3, h3⟩
    unfold program_block
    rw [allFFs_eq_zero _ mem hlen hne]
    simp only [h1, if_true]
    by_cases hneg : 0 > rc1
    · rw [if_pos hneg]; exact ⟨_, rfl⟩
    · rw [if_neg hneg]
      by_cases hpos : 0 < rc1
      · rw [if_pos hpos]
        simp only [h2]
        obtain ⟨rc3, w3, h3⟩ := hprog w2
        simp only [h3]
        split_ifs <;> exact ⟨_, rfl⟩
      · rw [if_neg hpos]
        obtain ⟨rc3, w3, h3⟩ := hprog w1
        simp only [h3]
        split_ifs <;> exact ⟨_, rfl⟩

theorem verify_block_total (H : Header) (hM : 2 ≤ H.MAX_RESPONSE_LENGTH)
    (hF : H.FLASH_BLOCK_SIZE < U32) (w : World) (a : Nat) (mem : List Nat)
    (hlen : H.FLASH_BLOCK_SIZE ≤ mem.length) : ∃ r, verify_block H w a mem = some r := by
  obtain ⟨rc1, w1, h1, -⟩ := rl78_cmd_block_blank_check_spec H hM w a
    (sub32 (add32 a H.FLASH_BLOCK_SIZE) 1)
  obtain ⟨rc3, w3, h3, -⟩ := rl78_cmd_verify_spec H hM w a
    (sub32 (add32 a H.FLASH_BLOCK_SIZE) 1) mem (by rw [block_range a _ hF]; exact hlen)
  by_cases hff : ∀ b ∈ mem.take H.FLASH_BLOCK_SIZE, b = 0xFF
  · unfold verify_block
    rw [allFFs_eq_one _ mem hlen hff]
    simp only [ne_eq, one_ne_zero, not_false_eq_true, if_true, h1]
    split_ifs <;> exact ⟨_, rfl⟩
  · have hne : ∃ b ∈ mem.take H.FLASH_BLOCK_SIZE, b ≠ 0xFF := by
      by_contra hcon
      exact hff (fun b hb => by_contra (fun h => hcon ⟨b, hb, h⟩))
    unfold verify_block
    rw [allFFs_eq_zero _ mem hlen hne]
    simp only [ne_eq, not_true_eq_false, if_false, h3]
    split_ifs <;> exact ⟨_, rfl⟩

theorem block_length (data : List Nat) (j F m : Nat) (hj : (j + 1) * F ≤ m)
    (hm : m ≤ data.length) : ((data.drop (j * F)).take F).length = F := by
  rw [List.length_take, List.length_drop, Nat.add_mul] at *
  omega

theorem for_blocks_total (visit : World → Int → Nat → List Nat → Option (Int × World × Bool))
    (F start : Nat) (data : List Nat) (n : Nat) : ∀ (k : Nat) (w : World) (rc : Int),
    (∀ (v : World) (c : Int) (a j : Nat), j < k + n →
      ∃ r, visit v c a ((data.drop (j * F)).take F) = some r) →
    ∃ r, for_blocks visit F start data n k w rc = some r := by
  induction n with
  | zero => intro k w rc _; exact ⟨_, rfl⟩
  | succ n ih =>
    intro k w rc hv
    obtain ⟨⟨rc1, w1, brk⟩, hr⟩ := hv w rc ((start + k * F) % U32) k (by omega)
    unfold for_blocks
    rw [hr]
    cases brk with
    | true => exact ⟨_, rfl⟩
    | false => exact ih (k + 1) w1 rc1 (fun v c a j hj => hv v c a j (by omega))

theorem for_blocks_congr (visit : World → Int → Nat → List Nat → Option (Int × World × Bool))
    (F start : Nat) (data data1 : List Nat) (n : Nat) : ∀ (k : Nat) (w : World) (rc : Int),
    (∀ j, j < k + n → (data1.drop (j * F)).take F = (data.drop (j * F)).take F) →
    for_blocks visit F start data1 n k w rc = for_blocks visit F start data n k w rc := by
  induction n with
  | zero => intro k w rc _; rfl
  | succ n ih =>
    intro k w rc hb
    unfold for_blocks
    rw [hb k (by omega)]
    have hcont : ∀ (w1 : World) (rc1 : Int),
        for_blocks visit F start data1 n (k + 1) w1 rc1 =
          for_blocks visit F start data n (k + 1) w1 rc1 :=
      fun w1 rc1 => ih (k + 1) w1 rc1 (fun j hj => hb j (by omega))
    simp only [hcont]

theorem block_of_take (data : List Nat) (j F m : Nat) (hj : (j + 1) * F ≤ m) :
    ((data.take m).drop (j * F)).take F = (data.drop (j * F)).take F := by
  rw [List.drop_take, List.take_take, Nat.min_eq_left (by rw [Nat.add_mul] at hj; omega)]

theorem block_size_facts (H : Header) (k : Nat) (hk : k ≤ 31)
    (hF : H.FLASH_BLOCK_SIZE = 2 ^ k) (s : Nat) :
    0 < H.FLASH_BLOCK_SIZE ∧ H.FLASH_BLOCK_SIZE < U32 ∧
      s / H.FLASH_BLOCK_SIZE * H.FLASH_BLOCK_SIZE ≤ s ∧
      s / H.FLASH_BLOCK_SIZE ≤ s / H.FLASH_BLOCK_SIZE * H.FLASH_BLOCK_SIZE := by
  have hpos : 0 < H.FLASH_BLOCK_SIZE := by rw [hF]; exact Nat.two_pow_pos k
  have hlt : H.FLASH_BLOCK_SIZE < U32 := by
    have hU : U32 = 2 ^ 32 := by norm_num [U32]
    rw [hF, hU]; exact Nat.pow_lt_pow_right (by norm_num) (by omega)
  exact ⟨hpos, hlt, Nat.div_mul_le_self s _, Nat.le_mul_of_pos_right _ hpos⟩

theorem rl78_program_blocks (H : Header) (k : Nat) (hk : k ≤ 31)
    (hF : H.FLASH_BLOCK_SIZE = 2 ^ k) (w : World) (start : Nat) (data : List Nat) (s : Nat)
    (hstart : start < U32) (hs : s < U32) :
    rl78_program H w start data s =
      for_blocks (program_block H) H.FLASH_BLOCK_SIZE start data (s / H.FLASH_BLOCK_SIZE)
        0 w 0 := by
  obtain ⟨hpos, -, hle, hfuel⟩ := block_size_facts H k hk hF s
  have := rl78_program_loop_blocks H hpos start data (s / H.FLASH_BLOCK_SIZE) 0 w 0
    (s / H.FLASH_BLOCK_SIZE * H.FLASH_BLOCK_SIZE) hfuel (by omega)
  rw [Nat.zero_mul, Nat.add_zero, Nat.mod_eq_of_lt hstart, List.drop_zero] at this
  unfold rl78_program
  rw [block_mask_eq H k hk hF s hs]
  exact this

theorem rl78_erase_blocks (H : Header) (k : Nat) (hk : k ≤ 31)
    (hF : H.FLASH_BLOCK_SIZE = 2 ^ k) (w : World) (start : Nat) (s : Nat)
    (hstart : start < U32) (hs : s < U32) :
    rl78_erase H w start s =
      for_blocks (fun v _ a _ => erase_block H v a) H.FLASH_BLOCK_SIZE start []
        (s / H.FLASH_BLOCK_SIZE) 0 w 0 := by
  obtain ⟨hpos, -, hle, hfuel⟩ := block_size_facts H k hk hF s
  have := rl78_erase_loop_blocks H hpos start (s / H.FLASH_BLOCK_SIZE) 0 w 0
    (s / H.FLASH_BLOCK_SIZE * H.FLASH_BLOCK_SIZE) hfuel (by omega)
  rw [Nat.zero_mul, Nat.add_zero, Nat.mod_eq_of_lt hstart] at this
  unfold rl78_erase
  rw [block_mask_eq H k hk hF s hs]
  exact this

theorem rl78_verify_blocks (H : Header) (k : Nat) (hk : k ≤ 31)
    (hF : H.FLASH_BLOCK_SIZE = 2 ^ k) (w : World) (start : Nat) (data : List Nat) (s : Nat)
    (hstart : start < U32) (hs : s < U32) :
    rl78_verify H w start data s =
      for_blocks (fun v _ a mem => verify_block H v a mem) H.FLASH_BLOCK_SIZE start data
        (s / H.FLASH_BLOCK_SIZE) 0 w 0 := by
  obtain ⟨hpos, -, hle, hfuel⟩ := block_size_facts H k hk hF s
  have := rl78_verify_loop_blocks H hpos start data (s / H.FLASH_BLOCK_SIZE) 0 w 0
    (s / H.FLASH_BLOCK_SIZE * H.FLASH_BLOCK_SIZE) hfuel (by omega)
  rw [Nat.zero_mul, Nat.add_zero, Nat.mod_eq_of_lt hstart, List.drop_zero] at this
  unfold rl78_verify
  rw [block_mask_eq H k hk hF s hs]
  exact this

theorem blocks_of_take_eq (data data1 : List Nat) (F n : Nat)
    (h : data1.take (n * F) = data.take (n * F)) (j : Nat) (hj : j < 0 + n) :
    (data1.drop (j * F)).take F = (data.drop (j * F)).take F := by
  have hjn : (j + 1) * F ≤ n * F := Nat.mul_le_mul_right F (by omega)
  rw [← block_of_take data1 j F (n * F) hjn, h, block_of_take data j F (n * F) hjn]

theorem command_range (a F : Nat) (hF : 0 < F) :
    sub32 (add32 a F) 1 = (a + F - 1) % U32 := by
  unfold add32 sub32 U32
  omega

/-! ## The remaining commands and the echo: auxiliary results and claims -/

theorem rl78_checksum_loop_eq (len : Nat) : ∀ (sum : Nat) (rom : List Nat),
    rl78_checksum_loop sum rom len = checksum_loop sum rom len := by
  induction len with
  | zero => intro sum rom; simp [rl78_checksum_loop, checksum_loop]
  | succ n ih =>
    intro sum rom
    cases rom with
    | nil => simp [rl78_checksum_loop, checksum_loop]
    | cons b p => simp [rl78_checksum_loop, checksum_loop, ih]

theorem rl78_checksum_spec (rom : List Nat) (len : Nat) (h : len ≤ rom.length) :
    rl78_checksum rom len = some (neg16 (rom.take len).sum) := by
  obtain ⟨r, hr, hs⟩ := checksum_loop_spec len rom 0 h
  simp only [rl78_checksum, rl78_checksum_loop_eq, hr, Option.map_some']
  congr 1
  unfold U32 at hs
  unfold neg16
  omega

/-- C19: for every byte image, `rl78_checksum` over the whole image (and over any prefix of
`len` bytes of it) returns the two's-complement negation of the sum of the bytes masked to
16 bits, `(-(sum of bytes)) mod 65536`; for the image `01 02 03 04` the result is 0xFFF6. -/
theorem rl78_checksum_value :
    (∀ rom : List Nat, rl78_checksum rom rom.length = some (neg16 rom.sum)) ∧
    (∀ (rom : List Nat) (len : Nat), len ≤ rom.length →
      rl78_checksum rom len = some (neg16 (rom.take len).sum)) ∧
    (∀ s : Nat, (neg16 s : Int) = (-(s : Int)) % 65536) ∧
    rl78_checksum [0x01, 0x02, 0x03, 0x04] 4 = some 0xFFF6 := by
  refine ⟨?_, rl78_checksum_spec, ?_, by decide⟩
  · intro rom
    rw [rl78_checksum_spec rom rom.length (le_refl _), List.take_length]
  · intro s
    unfold neg16
    omega

/-- C19, witness: the checksum of the first four bytes of a five-byte image. -/
theorem rl78_checksum_value_witness :
    rl78_checksum [0x01, 0x02, 0x03, 0x04, 0x05] 4 = some (neg16 10) :=
  rl78_checksum_value.2.1 [0x01, 0x02, 0x03, 0x04, 0x05] 4 (by decide)

/-- C20: echo suppression.  Every accepted `rl78_send_cmd` call (payload of at most 255
bytes) writes one frame of `N = |p| + 5` bytes and every accepted `rl78_send_data` call
(payload of at most 256 bytes) one frame of `N = |p| + 4` bytes; in single-wire mode
(`communication_mode = 1`) the call then takes exactly `N` bytes from the port's input, so
that the input left for a following `rl78_recv` starts `N` bytes further on; in any other
mode the call takes no byte from the port's input. -/
theorem rl78_send_echo (H : Header) (w : World) (p : List Nat) :
    (∀ c : Nat, p.length ≤ 255 →
      ∃ ret w1 f, rl78_send_cmd H w c p p.length = some (ret, w1) ∧
        f.length = p.length + 5 ∧ w1.tx = w.tx ++ [f] ∧
        (w.communication_mode = 1 →
          w1 = (w.put f).skip (p.length + 5) ∧ w1.rx = fun i => w.rx (p.length + 5 + i)) ∧
        (w.communication_mode ≠ 1 → w1 = w.put f ∧ w1.rx = w.rx)) ∧
    (∀ last : Int, p.length ≤ 256 →
      ∃ ret w1 f, rl78_send_data H w p p.length last = some (ret, w1) ∧
        f.length = p.length + 4 ∧ w1.tx = w.tx ++ [f] ∧
        (w.communication_mode = 1 →
          w1 = (w.put f).skip (p.length + 4) ∧ w1.rx = fun i => w.rx (p.length + 4 + i)) ∧
        (w.communication_mode ≠ 1 → w1 = w.put f ∧ w1.rx = w.rx)) := by
  constructor
  · intro c hp
    have hs := rl78_send_cmd_eq H w c p p.length hp (le_refl _)
    rw [List.take_length] at hs
    have hl : (cmd_frame H c p).length = p.length + 5 := by simp [cmd_frame]
    refine ⟨_, _, cmd_frame H c p, hs, hl, sent_tx _ _, ?_, ?_⟩
    · intro hm
      simp only [sent, hm, if_true, hl]
      exact ⟨trivial, rfl⟩
    · intro hm
      simp only [sent, hm, if_false]
      exact ⟨trivial, rfl⟩
  · intro last hp
    have hs := rl78_send_data_eq H w p p.length last hp (le_refl _)
    rw [List.take_length] at hs
    have hl : (data_frame H p last).length = p.length + 4 := by simp [data_frame]
    refine ⟨_, _, data_frame H p last, hs, hl, sent_tx _ _, ?_, ?_⟩
    · intro hm
      simp only [sent, hm, if_true, hl]
      exact ⟨trivial, rfl⟩
    · intro hm
      simp only [sent, hm, if_false]
      exact ⟨trivial, rfl⟩

/-- C20, witness: the reset command in single-wire mode; the five echo bytes are taken from
the input, and the one-byte `ACK` response that follows them is what `rl78_recv` sees. -/
theorem rl78_send_echo_witness :
    ∃ ret w1, rl78_send_cmd rl78_h
        (quiet 1 (feed [0x01, 0x01, 0x00, 0xFF, 0x03, 0x02, 0x01, 0x06, 0xF9, 0x03]
          (fun _ => 0))) 0x00 [] 0 = some (ret, w1) ∧
      w1.tx = [[0x01, 0x01, 0x00, 0xFF, 0x03]] ∧
      (List.range 5).map w1.rx = [0x02, 0x01, 0x06, 0xF9, 0x03] := by
  obtain ⟨ret, w1, f, h1, -, -, h4, -⟩ := (rl78_send_echo rl78_h
    (quiet 1 (feed [0x01, 0x01, 0x00, 0xFF, 0x03, 0x02, 0x01, 0x06, 0xF9, 0x03]
      (fun _ => 0))) []).1 0x00 (by decide)
  have h5 := rl78_send_cmd_eq rl78_h
    (quiet 1 (feed [0x01, 0x01, 0x00, 0xFF, 0x03, 0x02, 0x01, 0x06, 0xF9, 0x03]
      (fun _ => 0))) 0x00 [] 0 (by decide) (by decide)
  refine ⟨ret, w1, h1, ?_, ?_⟩
  · have h6 := h1.symm.trans h5
    have h7 := (Prod.mk.inj (Option.some.inj h6)).2
    rw [h7, sent_tx]; decide
  · rw [(h4 rfl).2]; decide

/-! ## Error handling of the commands and of the orchestrator: the claims -/

/-- C12: in the block loops of `rl78_program`, `rl78_erase` and `rl78_verify`, at any
visited block, when a command issued for the block (blank-check, block-erase, programming or
verify) returns a negative value, the loop ends at once: the operation returns exactly that
value and leaves the port as that command left it, so no further port I/O is performed. -/
theorem rl78_negative_result_ends_loop (H : Header) (fuel : Nat) (w : World) (rc : Int)
    (i a : Nat) (mem : List Nat) (hi : i ≠ 0) :
    (allFFs mem H.FLASH_BLOCK_SIZE = some 0 →
      ∀ rc1 w1, rl78_cmd_block_blank_check H w a (sub32 (add32 a H.FLASH_BLOCK_SIZE) 1)
          = some (rc1, w1) →
        (rc1 < 0 → rl78_program_loop H (fuel + 1) w rc i a mem = some (rc1, w1)) ∧
        (rc1 = 0 → ∀ rc3 w3,
          rl78_cmd_programming H w1 a (sub32 (add32 a H.FLASH_BLOCK_SIZE) 1) mem
            = some (rc3, w3) → rc3 < 0 →
          rl78_program_loop H (fuel + 1) w rc i a mem = some (rc3, w3)) ∧
        (0 < rc1 → ∀ rc2 w2, rl78_cmd_block_erase H w1 a = some (rc2, w2) →
          (rc2 < 0 → rl78_program_loop H (fuel + 1) w rc i a mem = some (rc2, w2)) ∧
          (0 ≤ rc2 → ∀ rc3 w3,
            rl78_cmd_programming H w2 a (sub32 (add32 a H.FLASH_BLOCK_SIZE) 1) mem
              = some (rc3, w3) → rc3 < 0 →
            rl78_program_loop H (fuel + 1) w rc i a mem = some (rc3, w3)))) ∧
    (∀ rc1 w1, rl78_cmd_block_blank_check H w a (sub32 (add32 a H.FLASH_BLOCK_SIZE) 1)
        = some (rc1, w1) →
      (rc1 < 0 → rl78_erase_loop H (fuel + 1) w rc i a = some (rc1, w1)) ∧
      (0 < rc1 → ∀ rc2 w2, rl78_cmd_block_erase H w1 a = some (rc2, w2) → rc2 < 0 →
        rl78_erase_loop H (fuel + 1) w rc i a = some (rc2, w2))) ∧
    (allFFs mem H.FLASH_BLOCK_SIZE = some 1 →
      ∀ rc1 w1, rl78_cmd_block_blank_check H w a (sub32 (add32 a H.FLASH_BLOCK_SIZE) 1)
          = some (rc1, w1) → rc1 < 0 →
        rl78_verify_loop H (fuel + 1) w rc i a mem = some (rc1, w1)) ∧
    (allFFs mem H.FLASH_BLOCK_SIZE = some 0 →
      ∀ rc1 w1, rl78_cmd_verify H w a (sub32 (add32 a H.FLASH_BLOCK_SIZE) 1) mem
          = some (rc1, w1) → rc1 < 0 →
        rl78_verify_loop H (fuel + 1) w rc i a mem = some (rc1, w1)) := by
  refine ⟨?_, ?_, ?_, ?_⟩
  · intro hall rc1 w1 hb
    refine ⟨?_, ?_, ?_⟩
    · intro hneg
      unfold rl78_program_loop
      rw [if_neg hi]
      simp only [hall, if_true, hb]
      rw [if_pos (by omega)]
    · intro hz rc3 w3 hp hneg
      unfold rl78_program_loop
      rw [if_neg hi]
      simp only [hall, if_true, hb]
      rw [if_neg (by omega), if_neg (by omega)]
      simp only []
      rw [if_neg (by omega)]
      simp only [hp]
      rw [if_pos (by omega)]
    · intro hpos rc2 w2 he
      refine ⟨?_, ?_⟩
      · intro hneg
        unfold rl78_program_loop
        rw [if_neg hi]
        simp only [hall, if_true, hb]
        rw [if_neg (by omega), if_pos hpos]
        simp only [he]
        rw [if_pos ⟨hpos, by omega⟩]
      · intro hnn rc3 w3 hp hneg
        unfold rl78_program_loop
        rw [if_neg hi]
        simp only [hall, if_true, hb]
        rw [if_neg (by omega), if_pos hpos]
        simp only [he]
        rw [if_neg (by omega)]
        simp only [hp]
        rw [if_pos (by omega)]
  · intro rc1 w1 hb
    refine ⟨?_, ?_⟩
    · intro hneg
      unfold rl78_erase_loop
      rw [if_neg hi]
      simp only [hb]
      rw [if_pos (by omega)]
    · intro hpos rc2 w2 he hneg
      unfold rl78_erase_loop
      rw [if_neg hi]
      simp only [hb]
      rw [if_neg (by omega), if_pos hpos]
      simp only [he]
      rw [if_pos (by omega)]
  · intro hall rc1 w1 hb hneg
    unfold rl78_verify_loop
    rw [if_neg hi]
    simp only [hall, hb]
    rw [if_pos (by decide), if_pos (by omega)]
  · intro hall rc1 w1 hv hneg
    unfold rl78_verify_loop
    rw [if_neg hi]
    simp only [hall, hv]
    rw [if_neg (by decide), if_pos (by omega)]

/-- C12, witness: erasing one block at address 0 when the port delivers zero bytes only: the
blank-check returns the format error code -1 and so does the operation, with nothing
written but the blank-check record. -/
theorem rl78_negative_result_ends_loop_witness :
    ∃ w1, rl78_erase_loop rl78_h 1 (quiet 2 (fun _ => 0)) 0 1024 0 = some (-1, w1) ∧
      w1.tx = [[0x01, 0x08, 0x32, 0x00, 0x00, 0x00, 0xFF, 0x03, 0x00, 0x00, 0xC4, 0x03]] := by
  have hb := rl78_cmd_block_blank_check_no_stx rl78_h (by decide) (by decide)
    (quiet 2 (fun _ => 0)) 0 (sub32 (add32 0 rl78_h.FLASH_BLOCK_SIZE) 1) (by decide)
  exact ⟨_, ((rl78_negative_result_ends_loop rl78_h 0 (quiet 2 (fun _ => 0)) 0 1024 0 []
    (by decide)).2.1 _ _ hb).1 (by decide), by rw [World.skip, sent_tx]; decide⟩

/-- C14 (amended): `rl78_cmd_block_blank_check` returns 0 when the status byte of the reply
is `ACK` and 1 when it is `BLANK_ERROR`; any other status byte `d` is returned verbatim, as
the non-negative value `d`; a codec failure of the reply returns the codec error code,
which is negative. -/
theorem rl78_cmd_block_blank_check_result (H : Header) (hH : H.framing)
    (hM : 5 ≤ H.MAX_RESPONSE_LENGTH) (w : World) (a e : Nat) :
    (∀ (s : Nat → Nat) (d : Nat), d < 256 →
      (sent w (cmd_frame H H.CMD_BLOCK_BLANK_CHECK
        ((le32 a).take 3 ++ (le32 e).take 3 ++ [0]))).rx = feed (status_frame H d) s →
      ∃ ret w1, rl78_cmd_block_blank_check H w a e = some (ret, w1) ∧
        (d = H.STATUS_ACK → ret = 0) ∧
        (d ≠ H.STATUS_ACK → d = H.STATUS_IVERIFY_BLANK_ERROR → ret = 1) ∧
        (d ≠ H.STATUS_ACK → d ≠ H.STATUS_IVERIFY_BLANK_ERROR → ret = (d : Int))) ∧
    (H.codes → ∀ r : Recv,
      rl78_recv H (sent w (cmd_frame H H.CMD_BLOCK_BLANK_CHECK
        ((le32 a).take 3 ++ (le32 e).take 3 ++ [0]))) [0] 0 1 = some r →
      r.rc ≠ H.RESPONSE_OK →
      rl78_cmd_block_blank_check H w a e = some (r.rc, r.world) ∧ r.rc < 0) := by
  constructor
  · intro s d hd hrx
    refine ⟨_, _, rl78_cmd_block_blank_check_status H hH hM w a e s d hd hrx, ?_, ?_, ?_⟩
    · intro h; simp [h]
    · intro h1 h2
      rw [if_neg (by intro h; exact h.2 h2.symm), if_neg (fun h => h1 h.symm)]
    · intro h1 h2
      rw [if_pos ⟨fun h => h1 h.symm, fun h => h2 h.symm⟩]
  · intro hC r hr hne
    refine ⟨?_, codes_negative H hC (by omega) _ _ _ _ r hr hne⟩
    rw [rl78_cmd_block_blank_check_eq]
    have hrb : rl78_recv H (sent w (cmd_frame H H.CMD_BLOCK_BLANK_CHECK
        ((le32 a).take 3 ++ (le32 e).take 3 ++ [0]))) [0] 0 1 = some r := hr
    simp only [hrb]
    rw [if_pos (fun h => hne h.symm)]

/-- C14, witness: the replies `ACK`, `BLANK_ERROR` and 0x10 (protect error) to the
blank-check of the block at address 0 give the results 0, 1 and 16. -/
theorem rl78_cmd_block_blank_check_result_witness :
    (∃ w1, rl78_cmd_block_blank_check rl78_h
      (quiet 2 (feed [0x02, 0x01, 0x06, 0xF9, 0x03] (fun _ => 0))) 0 1023 = some (0, w1)) ∧
    (∃ w1, rl78_cmd_block_blank_check rl78_h
      (quiet 2 (feed [0x02, 0x01, 0x1B, 0xE4, 0x03] (fun _ => 0))) 0 1023 = some (1, w1)) ∧
    (∃ w1, rl78_cmd_block_blank_check rl78_h
      (quiet 2 (feed [0x02, 0x01, 0x10, 0xEF, 0x03] (fun _ => 0))) 0 1023 = some (16, w1)) := by
  refine ⟨?_, ?_, ?_⟩
  · obtain ⟨ret, w1, h, h1, -, -⟩ := (rl78_cmd_block_blank_check_result rl78_h (by decide)
      (by decide) (quiet 2 (feed [0x02, 0x01, 0x06, 0xF9, 0x03] (fun _ => 0))) 0 1023).1
      (fun _ => 0) 0x06 (by decide) rfl
    exact ⟨w1, by rw [h, h1 rfl]⟩
  · obtain ⟨ret, w1, h, -, h2, -⟩ := (rl78_cmd_block_blank_check_result rl78_h (by decide)
      (by decide) (quiet 2 (feed [0x02, 0x01, 0x1B, 0xE4, 0x03] (fun _ => 0))) 0 1023).1
      (fun _ => 0) 0x1B (by decide) rfl
    exact ⟨w1, by rw [h, h2 (by decide) rfl]⟩
  · obtain ⟨ret, w1, h, -, -, h3⟩ := (rl78_cmd_block_blank_check_result rl78_h (by decide)
      (by decide) (quiet 2 (feed [0x02, 0x01, 0x10, 0xEF, 0x03] (fun _ => 0))) 0 1023).1
      (fun _ => 0) 0x10 (by decide) rfl
    exact ⟨w1, by rw [h, h3 (by decide) (by decide)]; rfl⟩

/-- C14, counterexample: the target answers the blank-check of the block at address 0 with
the status 0x05 (parameter error), which is neither `ACK` nor `BLANK_ERROR`.  The result of
`rl78_cmd_block_blank_check` is 5, a positive value, and it drives the erase decision:
`rl78_erase` goes on to issue the block-erase command for the block. -/
theorem rl78_cmd_block_blank_check_result_counterexample :
    ∃ w1 w2, rl78_cmd_block_blank_check rl78_h
        (quiet 2 (feed ([0x02, 0x01, 0x05, 0xFA, 0x03] ++ [0x02, 0x01, 0x06, 0xF9, 0x03])
          (fun _ => 0))) 0 1023 = some (5, w1) ∧
      rl78_erase rl78_h
        (quiet 2 (feed ([0x02, 0x01, 0x05, 0xFA, 0x03] ++ [0x02, 0x01, 0x06, 0xF9, 0x03])
          (fun _ => 0))) 0 1024 = some (0, w2) ∧
      w2.tx = [[0x01, 0x08, 0x32, 0x00, 0x00, 0x00, 0xFF, 0x03, 0x00, 0x00, 0xC4, 0x03],
        [0x01, 0x04, 0x22, 0x00, 0x00, 0x00, 0xDA, 0x03]] := by
  have hb := rl78_cmd_block_blank_check_status rl78_h (by decide) (by decide)
    (quiet 2 (feed ([0x02, 0x01, 0x05, 0xFA, 0x03] ++ [0x02, 0x01, 0x06, 0xF9, 0x03])
      (fun _ => 0))) 0 1023 (feed [0x02, 0x01, 0x06, 0xF9, 0x03] (fun _ => 0)) 0x05
    (by decide) ((sent_rx_of_ne _ _ (by decide)).trans (by
      rw [show status_frame rl78_h 0x05 = [0x02, 0x01, 0x05, 0xFA, 0x03] from by decide]
      exact feed_append [0x02, 0x01, 0x05, 0xFA, 0x03] [0x02, 0x01, 0x06, 0xF9, 0x03]
        (fun _ => 0)))
  rw [if_pos (by decide)] at hb
  have he := rl78_cmd_block_erase_status rl78_h (by decide) (by decide)
    { sent (quiet 2 (feed ([0x02, 0x01, 0x05, 0xFA, 0x03] ++ [0x02, 0x01, 0x06, 0xF9, 0x03])
        (fun _ => 0))) (cmd_frame rl78_h rl78_h.CMD_BLOCK_BLANK_CHECK
          ((le32 0).take 3 ++ (le32 1023).take 3 ++ [0])) with
      rx := feed [0x02, 0x01, 0x06, 0xF9, 0x03] (fun _ => 0) } 0 (fun _ => 0) 0x06
    (by decide) ((sent_rx_of_ne _ _ (by decide)).trans (by
      rw [show status_frame rl78_h 0x06 = [0x02, 0x01, 0x06, 0xF9, 0x03] from by decide]))
  rw [if_neg (by decide)] at he
  refine ⟨_, ?w2, hb, ?h1, ?h2⟩
  case h1 =>
    have hm : block_mask rl78_h 1024 = 1023 + 1 := by decide
    unfold rl78_erase
    rw [hm, rl78_erase_loop_succ _ _ _ _ _ _ (by decide)]
    have hb2 : rl78_cmd_block_blank_check rl78_h
        (quiet 2 (feed ([0x02, 0x01, 0x05, 0xFA, 0x03] ++ [0x02, 0x01, 0x06, 0xF9, 0x03])
          (fun _ => 0))) 0 (sub32 (add32 0 rl78_h.FLASH_BLOCK_SIZE) 1) = _ := hb
    simp only [hb2]
    rw [if_neg (by decide), if_pos (by decide)]
    simp only [he]
    rw [if_neg (by decide)]
    exact rl78_erase_loop_zero _ _ _ _ _
  case h2 =>
    simp only [sent_tx]
    decide

/-- C15 (amended): for the single-status commands `rl78_cmd_block_erase` and
`rl78_cmd_reset`, whenever the command returns, its result is determined by the reply that
`rl78_recv` decoded with expected length 1: a codec failure is returned as its negative
code; a well-formed one-byte response carrying the status `d` gives 0 for `ACK` and the
value `d` itself for any other status, so the result is 0 if and only if the status byte is
`ACK` or 0x00, and it is positive for every other status.  The second part shows that the
result is produced: a status record carrying `d` makes the command return. -/
theorem rl78_single_status_result (H : Header) (hH : H.framing) (hC : H.codes)
    (hM : 5 ≤ H.MAX_RESPONSE_LENGTH) (w : World) (a : Nat) :
    (∀ (cmd : Option (Int × World)) (frame buf : List Nat),
      (cmd = rl78_cmd_block_erase H w a ∧
          frame = cmd_frame H H.CMD_BLOCK_ERASE ((le32 a).take 3) ∧ buf = [0]) ∨
        (cmd = rl78_cmd_reset H w ∧ frame = cmd_frame H H.CMD_RESET [] ∧ buf = [0, 0, 0]) →
      (∀ ret w1, cmd = some (ret, w1) →
        ∃ r, rl78_recv H (sent w frame) buf 0 1 = some r ∧ w1 = r.world ∧
          (r.rc ≠ H.RESPONSE_OK → ret = r.rc ∧ ret < 0) ∧
          (r.rc = H.RESPONSE_OK → ∃ d : Nat, r.data[0]? = some d ∧
            (d = H.STATUS_ACK → ret = 0) ∧ (d ≠ H.STATUS_ACK → ret = (d : Int)) ∧
            (ret = 0 ↔ d = H.STATUS_ACK ∨ d = 0) ∧
            (d ≠ H.STATUS_ACK → d ≠ 0 → 0 < ret))) ∧
      (∀ (s : Nat → Nat) (d : Nat), d < 256 →
        (sent w frame).rx = feed (status_frame H d) s →
        cmd = some (if H.STATUS_ACK ≠ d then (d : Int) else 0,
          { sent w frame with rx := s }))) := by
  intro cmd frame buf hcase
  constructor
  · intro ret w1 hcmd
    have key : ∃ r, rl78_recv H (sent w frame) buf 0 1 = some r ∧ w1 = r.world ∧
        (r.rc ≠ H.RESPONSE_OK → ret = r.rc) ∧
        (r.rc = H.RESPONSE_OK → ∃ d : Nat, r.data[0]? = some d ∧
          (d = H.STATUS_ACK → ret = 0) ∧ (d ≠ H.STATUS_ACK → ret = (d : Int)) ∧
          (ret = 0 ↔ d = H.STATUS_ACK ∨ d = 0)) := by
      rcases hcase with ⟨h1, h2, h3⟩ | ⟨h1, h2, h3⟩
      · rw [h1, rl78_cmd_block_erase_eq] at hcmd
        rw [h2, h3]
        exact single_status_result H hC _ ret w1 hcmd
      · rw [h1, rl78_cmd_reset_eq] at hcmd
        rw [h2, h3]
        exact single_status_result H hC _ ret w1 hcmd
    obtain ⟨r, hr, hw, hbad, hok⟩ := key
    refine ⟨r, hr, hw, ?_, ?_⟩
    · intro hne
      have := codes_negative H hC (by omega) _ _ _ _ r hr hne
      rw [hbad hne]
      exact ⟨rfl, this⟩
    · intro hrc
      obtain ⟨d, hd, h1, h2, h3⟩ := hok hrc
      refine ⟨d, hd, h1, h2, h3, ?_⟩
      intro hne h0
      rw [h2 hne]
      exact_mod_cast Nat.pos_of_ne_zero h0
  · intro s d hd hrx
    rcases hcase with ⟨h1, h2, -⟩ | ⟨h1, h2, -⟩
    · rw [h1, h2]
      rw [h2] at hrx
      exact rl78_cmd_block_erase_status H hH hM w a s d hd hrx
    · rw [h1, h2]
      rw [h2] at hrx
      exact rl78_cmd_reset_status H hH hM w s d hd hrx

/-- C15, witness: the reply `ACK` makes both commands return 0 and the reply 0x10 (protect
error) makes both return 16. -/
theorem rl78_single_status_result_witness :
    (rl78_cmd_block_erase rl78_h (quiet 2 (feed [0x02, 0x01, 0x06, 0xF9, 0x03] (fun _ => 0)))
        0x400).map Prod.fst = some 0 ∧
      (rl78_cmd_reset rl78_h (quiet 2 (feed [0x02, 0x01, 0x06, 0xF9, 0x03]
        (fun _ => 0)))).map Prod.fst = some 0 ∧
      (rl78_cmd_block_erase rl78_h (quiet 2 (feed [0x02, 0x01, 0x10, 0xEF, 0x03] (fun _ => 0)))
        0x400).map Prod.fst = some 16 ∧
      (rl78_cmd_reset rl78_h (quiet 2 (feed [0x02, 0x01, 0x10, 0xEF, 0x03]
        (fun _ => 0)))).map Prod.fst = some 16 := by
  refine ⟨?_, ?_, ?_, ?_⟩
  · rw [((rl78_single_status_result rl78_h (by decide) (by decide) (by decide)
      (quiet 2 (feed [0x02, 0x01, 0x06, 0xF9, 0x03] (fun _ => 0))) 0x400 _ _ _
      (Or.inl ⟨rfl, rfl, rfl⟩)).2 (fun _ => 0) 0x06 (by decide) rfl)]
    rfl
  · rw [((rl78_single_status_result rl78_h (by decide) (by decide) (by decide)
      (quiet 2 (feed [0x02, 0x01, 0x06, 0xF9, 0x03] (fun _ => 0))) 0 _ _ _
      (Or.inr ⟨rfl, rfl, rfl⟩)).2 (fun _ => 0) 0x06 (by decide) rfl)]
    rfl
  · rw [((rl78_single_status_result rl78_h (by decide) (by decide) (by decide)
      (quiet 2 (feed [0x02, 0x01, 0x10, 0xEF, 0x03] (fun _ => 0))) 0x400 _ _ _
      (Or.inl ⟨rfl, rfl, rfl⟩)).2 (fun _ => 0) 0x10 (by decide) rfl)]
    rfl
  · rw [((rl78_single_status_result rl78_h (by decide) (by decide) (by decide)
      (quiet 2 (feed [0x02, 0x01, 0x10, 0xEF, 0x03] (fun _ => 0))) 0 _ _ _
      (Or.inr ⟨rfl, rfl, rfl⟩)).2 (fun _ => 0) 0x10 (by decide) rfl)]
    rfl

/-- C15, counterexample: the well-formed one-byte response `02 01 00 FF 03` carries the
status byte 0x00, which is not `ACK`; both commands return 0, so a result of 0 does not
imply that `ACK` was received, and this status other than `ACK` is not returned as a
positive value. -/
theorem rl78_single_status_result_counterexample :
    (0x00 : Nat) ≠ rl78_h.STATUS_ACK ∧
      (rl78_cmd_block_erase rl78_h (quiet 2 (feed [0x02, 0x01, 0x00, 0xFF, 0x03] (fun _ => 0)))
        0x400).map Prod.fst = some 0 ∧
      (rl78_cmd_reset rl78_h (quiet 2 (feed [0x02, 0x01, 0x00, 0xFF, 0x03]
        (fun _ => 0)))).map Prod.fst = some 0 := by
  refine ⟨by decide, ?_, ?_⟩
  · rw [rl78_cmd_block_erase_status rl78_h (by decide) (by decide)
      (quiet 2 (feed [0x02, 0x01, 0x00, 0xFF, 0x03] (fun _ => 0))) 0x400 (fun _ => 0) 0x00
      (by decide) rfl]
    rfl
  · rw [rl78_cmd_reset_status rl78_h (by decide) (by decide)
      (quiet 2 (feed [0x02, 0x01, 0x00, 0xFF, 0x03] (fun _ => 0))) (fun _ => 0) 0x00
      (by decide) rfl]
    rfl

/-- C11 (code evaluated at the failing input): `rl78_erase(fd, 0, 2048)` on a two-wire port
whose target answers the blank-check of block 0 with `BLANK_ERROR`, the block-erase of
block 0 with the status 0x1A (erase error) and the blank-check of block 1 with `ACK`.  The
failed erase does not end the operation: the blank-check of block 1 is issued after it and
the operation returns 0. -/
theorem rl78_erase_ignores_failed_erase :
    ∃ w, rl78_erase rl78_h
        (quiet 2 (feed [0x02, 0x01, 0x1B, 0xE4, 0x03] (feed [0x02, 0x01, 0x1A, 0xE5, 0x03]
          (feed [0x02, 0x01, 0x06, 0xF9, 0x03] (fun _ => 0))))) 0 2048 = some (0, w) ∧
      w.tx = [[0x01, 0x08, 0x32, 0x00, 0x00, 0x00, 0xFF, 0x03, 0x00, 0x00, 0xC4, 0x03],
        [0x01, 0x04, 0x22, 0x00, 0x00, 0x00, 0xDA, 0x03],
        [0x01, 0x08, 0x32, 0x00, 0x04, 0x00, 0xFF, 0x07, 0x00, 0x00, 0xBC, 0x03]] := by
  refine ⟨?w, ?h1, ?h2⟩
  case h1 =>
    unfold rl78_erase
    rw [show block_mask rl78_h 2048 = 2048 from by decide]
    rw [rl78_erase_loop_nonblank rl78_h (by decide) (by decide) (by decide) (by decide) 2048
      _ 0 2048 0 (feed [0x02, 0x01, 0x06, 0xF9, 0x03] (fun _ => 0)) 0x1A (by decide)
      (by decide) (by decide) (by decide) (by
        rw [show status_frame rl78_h rl78_h.STATUS_IVERIFY_BLANK_ERROR
            = [0x02, 0x01, 0x1B, 0xE4, 0x03] from by decide,
          show status_frame rl78_h 0x1A = [0x02, 0x01, 0x1A, 0xE5, 0x03] from by decide]
        rfl)]
    rw [rl78_erase_loop_blank rl78_h (by decide) (by decide) (by decide) (2048 - 1) _ _
      (sub32 2048 rl78_h.FLASH_BLOCK_SIZE) _ (fun _ => 0) (by decide) (by decide)
      (by rw [sent_mode, sent_mode]; decide) (by
        rw [show status_frame rl78_h rl78_h.STATUS_ACK
            = [0x02, 0x01, 0x06, 0xF9, 0x03] from by decide])]
    rw [show sub32 (sub32 2048 rl78_h.FLASH_BLOCK_SIZE) rl78_h.FLASH_BLOCK_SIZE = 0
      from by decide]
    exact rl78_erase_loop_zero _ _ _ _ _
  case h2 =>
    simp only [sent_with_tx]
    decide

/-- C17: when the target answers the silicon-signature command with `ACK` and then with a
record carrying the 22-byte payload `d`, `rl78_cmd_silicon_signature` returns 0, stores
`d[3..12]` followed by a NUL into the first 11 cells of `device_name`, stores
`(d[13] + 256*d[14] + 65536*d[15]) + 1` into `*code_size`, and stores into `*data_size` the
value 0 when the little-endian address `d[16..18]` is zero and that address
`- 0x000F1000 + 1`, in `unsigned int` arithmetic, otherwise. -/
theorem rl78_cmd_silicon_signature_parse (H : Header) (hH : H.framing)
    (hA : H.STATUS_ACK < 256) (hM : 26 ≤ H.MAX_RESPONSE_LENGTH) (w : World) (s : Nat → Nat)
    (d : List Nat) (hd : d.length = 22) (hb : ∀ b ∈ d, b < 256) (name : List Nat)
    (hn : 11 ≤ name.length) (cs ds : Nat)
    (hrx : (sent w (cmd_frame H H.CMD_SILICON_SIGNATURE [])).rx =
      feed (status_frame H H.STATUS_ACK)
        (feed ([H.STX, 22] ++ d ++ [neg8 (22 + d.sum), H.ETX]) s)) :
    ∃ sig, rl78_cmd_silicon_signature H w (some name) (some cs) (some ds) = some sig ∧
      sig.rc = 0 ∧
      sig.device_name = some ((d.drop 3).take 10 ++ 0 :: name.drop 11) ∧
      sig.code_size = some (d.getD 13 0 + 256 * d.getD 14 0 + 65536 * d.getD 15 0 + 1) ∧
      (d.getD 16 0 + 256 * d.getD 17 0 + 65536 * d.getD 18 0 = 0 →
        sig.data_size = some 0) ∧
      (d.getD 16 0 + 256 * d.getD 17 0 + 65536 * d.getD 18 0 ≠ 0 →
        sig.data_size = some ((((d.getD 16 0 + 256 * d.getD 17 0 + 65536 * d.getD 18 0 : Nat)
          : Int) - 0x000F1000 + 1) % 4294967296).toNat) ∧
      (0x000F1000 ≤ d.getD 16 0 + 256 * d.getD 17 0 + 65536 * d.getD 18 0 →
        sig.data_size =
          some (d.getD 16 0 + 256 * d.getD 17 0 + 65536 * d.getD 18 0 - 0x000F1000 + 1)) := by
  have h13 := getD_lt d hb 13
  have h14 := getD_lt d hb 14
  have h15 := getD_lt d hb 15
  have h16 := getD_lt d hb 16
  have h17 := getD_lt d hb 17
  have h18 := getD_lt d hb 18
  refine ⟨_, rl78_cmd_silicon_signature_reply H hH hA hM w s d hd hb name hn (some cs)
    (some ds) hrx, rfl, rfl, ?_, ?_, ?_, ?_⟩
  · show some (add32 (d.getD 13 0 + 256 * d.getD 14 0 + 65536 * d.getD 15 0) 1) = some _
    refine congrArg some ?_
    unfold add32 U32
    omega
  · intro h0
    show some (if d.getD 16 0 + 256 * d.getD 17 0 + 65536 * d.getD 18 0 ≠ 0 then
      add32 (sub32 (d.getD 16 0 + 256 * d.getD 17 0 + 65536 * d.getD 18 0) 0x000F1000) 1
      else 0) = some 0
    rw [if_neg (not_not.mpr h0)]
  · intro h0
    show some (if d.getD 16 0 + 256 * d.getD 17 0 + 65536 * d.getD 18 0 ≠ 0 then
      add32 (sub32 (d.getD 16 0 + 256 * d.getD 17 0 + 65536 * d.getD 18 0) 0x000F1000) 1
      else 0) = some _
    rw [if_pos h0]
    refine congrArg some ?_
    unfold add32 sub32 U32
    omega
  · intro h0
    have h1 : d.getD 16 0 + 256 * d.getD 17 0 + 65536 * d.getD 18 0 ≠ 0 := by omega
    show some (if d.getD 16 0 + 256 * d.getD 17 0 + 65536 * d.getD 18 0 ≠ 0 then
      add32 (sub32 (d.getD 16 0 + 256 * d.getD 17 0 + 65536 * d.getD 18 0) 0x000F1000) 1
      else 0) = some _
    rw [if_pos h1]
    refine congrArg some ?_
    unfold add32 sub32 U32
    omega

/-- C17, witness: a target with 64 KiB of code flash and 4 KiB of data flash (end addresses
0x00FFFF and 0x0F1FFF); the name is `R5F100LE`, the sizes are 0x10000 and 0x1000. -/
theorem rl78_cmd_silicon_signature_parse_witness :
    ∃ sig, rl78_cmd_silicon_signature rl78_h
        (quiet 2 (feed [0x02, 0x01, 0x06, 0xF9, 0x03] (feed ([0x02, 22] ++
          [0x10, 0x00, 0x06, 0x52, 0x35, 0x46, 0x31, 0x30, 0x30, 0x4C, 0x45, 0x20, 0x20,
            0xFF, 0xFF, 0x00, 0xFF, 0x1F, 0x0F, 0x03, 0x00, 0x03] ++ [0x74, 0x03])
          (fun _ => 0))))
        (some (List.replicate 11 0xAA)) (some 0) (some 0) = some sig ∧
      sig.rc = 0 ∧
      sig.device_name =
        some [0x52, 0x35, 0x46, 0x31, 0x30, 0x30, 0x4C, 0x45, 0x20, 0x20, 0x00] ∧
      sig.code_size = some 0x10000 ∧ sig.data_size = some 0x1000 := by
  obtain ⟨sig, h, h1, h2, h3, -, -, h6⟩ := rl78_cmd_silicon_signature_parse rl78_h
    (by decide) (by decide) (by decide)
    (quiet 2 (feed [0x02, 0x01, 0x06, 0xF9, 0x03] (feed ([0x02, 22] ++
      [0x10, 0x00, 0x06, 0x52, 0x35, 0x46, 0x31, 0x30, 0x30, 0x4C, 0x45, 0x20, 0x20,
        0xFF, 0xFF, 0x00, 0xFF, 0x1F, 0x0F, 0x03, 0x00, 0x03] ++ [0x74, 0x03])
      (fun _ => 0)))) (fun _ => 0)
    [0x10, 0x00, 0x06, 0x52, 0x35, 0x46, 0x31, 0x30, 0x30, 0x4C, 0x45, 0x20, 0x20,
      0xFF, 0xFF, 0x00, 0xFF, 0x1F, 0x0F, 0x03, 0x00, 0x03] rfl (by decide)
    (List.replicate 11 0xAA) (by decide) 0 0 ((sent_rx_of_ne _ _ (by decide)).trans (by
      rw [show status_frame rl78_h rl78_h.STATUS_ACK = [0x02, 0x01, 0x06, 0xF9, 0x03]
          from by decide,
        show neg8 (22 + [0x10, 0x00, 0x06, 0x52, 0x35, 0x46, 0x31, 0x30, 0x30, 0x4C, 0x45,
          0x20, 0x20, 0xFF, 0xFF, 0x00, 0xFF, 0x1F, 0x0F, 0x03, 0x00, 0x03].sum) = 0x74
          from by decide]
      rfl))
  exact ⟨sig, h, h1, h2, h3, h6 (by decide)⟩

/-- C18 (amended): for the literal 22-byte signature reply
`03 01 0A 'R' '5' 'F' '1' '0' '0' 'C' 'B' 'A' '\0' FF 7F 00 FF FF 00 01 02 03`, received
after an `ACK` status, `rl78_cmd_silicon_signature` returns 0 and yields the device name
`R5F100CBA` (the first 10 name bytes, NUL-terminated), `code_size = 0x8000` and
`data_size = 0xFFF1F000`: the data-flash end address `FF FF 00` is 0x00FFFF, which is not
zero, so the size is `0x00FFFF - 0x000F1000 + 1` in `unsigned int` arithmetic. -/
theorem rl78_cmd_silicon_signature_literal :
    ∃ sig, rl78_cmd_silicon_signature rl78_h
        (quiet 2 (feed [0x02, 0x01, 0x06, 0xF9, 0x03] (feed ([0x02, 22] ++
          [0x03, 0x01, 0x0A, 0x52, 0x35, 0x46, 0x31, 0x30, 0x30, 0x43, 0x42, 0x41, 0x00,
            0xFF, 0x7F, 0x00, 0xFF, 0xFF, 0x00, 0x01, 0x02, 0x03] ++ [0x36, 0x03])
          (fun _ => 0))))
        (some (List.replicate 11 0xAA)) (some 1) (some 1) = some sig ∧
      sig.rc = 0 ∧
      sig.device_name =
        some [0x52, 0x35, 0x46, 0x31, 0x30, 0x30, 0x43, 0x42, 0x41, 0x00, 0x00] ∧
      sig.code_size = some 0x8000 ∧ sig.data_size = some 0xFFF1F000 := by
  refine ⟨_, rl78_cmd_silicon_signature_reply rl78_h (by decide) (by decide) (by decide)
    _ (fun _ => 0)
    [0x03, 0x01, 0x0A, 0x52, 0x35, 0x46, 0x31, 0x30, 0x30, 0x43, 0x42, 0x41, 0x00,
      0xFF, 0x7F, 0x00, 0xFF, 0xFF, 0x00, 0x01, 0x02, 0x03] rfl (by decide)
    (List.replicate 11 0xAA) (by decide) (some 1) (some 1)
    ((sent_rx_of_ne _ _ (by decide)).trans (by
      rw [show status_frame rl78_h rl78_h.STATUS_ACK = [0x02, 0x01, 0x06, 0xF9, 0x03]
          from by decide,
        show neg8 (22 + [0x03, 0x01, 0x0A, 0x52, 0x35, 0x46, 0x31, 0x30, 0x30, 0x43, 0x42,
          0x41, 0x00, 0xFF, 0x7F, 0x00, 0xFF, 0xFF, 0x00, 0x01, 0x02, 0x03].sum) = 0x36
          from by decide]
      rfl)), rfl, by decide, by decide, by decide⟩

/-- C18, counterexample: for the literal reply the value stored into `*data_size` is not
0. -/
theorem rl78_cmd_silicon_signature_literal_counterexample :
    ∃ sig, rl78_cmd_silicon_signature rl78_h
        (quiet 2 (feed [0x02, 0x01, 0x06, 0xF9, 0x03] (feed ([0x02, 22] ++
          [0x03, 0x01, 0x0A, 0x52, 0x35, 0x46, 0x31, 0x30, 0x30, 0x43, 0x42, 0x41, 0x00,
            0xFF, 0x7F, 0x00, 0xFF, 0xFF, 0x00, 0x01, 0x02, 0x03] ++ [0x36, 0x03])
          (fun _ => 0))))
        (some (List.replicate 11 0xAA)) (some 1) (some 1) = some sig ∧
      sig.data_size ≠ some 0 := by
  refine ⟨_, rl78_cmd_silicon_signature_reply rl78_h (by decide) (by decide) (by decide)
    _ (fun _ => 0)
    [0x03, 0x01, 0x0A, 0x52, 0x35, 0x46, 0x31, 0x30, 0x30, 0x43, 0x42, 0x41, 0x00,
      0xFF, 0x7F, 0x00, 0xFF, 0xFF, 0x00, 0x01, 0x02, 0x03] rfl (by decide)
    (List.replicate 11 0xAA) (by decide) (some 1) (some 1)
    ((sent_rx_of_ne _ _ (by decide)).trans (by
      rw [show status_frame rl78_h rl78_h.STATUS_ACK = [0x02, 0x01, 0x06, 0xF9, 0x03]
          from by decide,
        show neg8 (22 + [0x03, 0x01, 0x0A, 0x52, 0x35, 0x46, 0x31, 0x30, 0x30, 0x43, 0x42,
          0x41, 0x00, 0xFF, 0x7F, 0x00, 0xFF, 0xFF, 0x00, 0x01, 0x02, 0x03].sum) = 0x36
          from by decide]
      rfl)), by decide⟩

/-- C16: for a range `[a, e]` of `N = e - a + 1 >= 1` bytes and a target that answers `ACK`
throughout (to the command, with two `ACK` bytes to every data record and, for programming,
to the completion), `rl78_cmd_programming` and `rl78_cmd_verify` succeed and write, after
the command record, exactly the data records of `chunks`: `ceil(N / 256)` records of at most
256 bytes whose payloads concatenated in order are the `N` image bytes, every record but the
last with trailer `ETB` and the last with trailer `ETX`; the input is consumed exactly, one
2-byte status record per data record.  The last part is the step of the transfer loop: the
two status bytes read after a data record must both be `ACK` for the transfer to continue,
otherwise the loop returns the first byte that is not `ACK`. -/
theorem rl78_cmd_transfer_frames (H : Header) (hH : H.framing) (hA : H.STATUS_ACK < 256)
    (hM : 6 ≤ H.MAX_RESPONSE_LENGTH) (w : World) (a e : Nat) (rom : List Nat)
    (s : Nat → Nat) (hae : a ≤ e) (he : e < U32) (hNU : e - a + 1 < U32)
    (hrom : e - a + 1 ≤ rom.length) :
    (w.rx = feed (echo w.communication_mode
          (cmd_frame H H.CMD_PROGRAMMING ((le32 a).take 3 ++ (le32 e).take 3)) ++
        (status_frame H H.STATUS_ACK ++
          (transfer_script H w.communication_mode (chunks (rom.take (e - a + 1))) ++
            status_frame H H.STATUS_ACK))) s →
      ∃ w1, rl78_cmd_programming H w a e rom = some (H.RESPONSE_OK, w1) ∧
        w1.tx = w.tx ++ cmd_frame H H.CMD_PROGRAMMING ((le32 a).take 3 ++ (le32 e).take 3) ::
          (chunks (rom.take (e - a + 1))).map (fun q => data_frame H q.1 q.2) ∧
        w1.rx = s) ∧
    (w.rx = feed (echo w.communication_mode
          (cmd_frame H H.CMD_VERIFY ((le32 a).take 3 ++ (le32 e).take 3)) ++
        (status_frame H H.STATUS_ACK ++
          transfer_script H w.communication_mode (chunks (rom.take (e - a + 1))))) s →
      ∃ w1, rl78_cmd_verify H w a e rom = some (H.RESPONSE_OK, w1) ∧
        w1.tx = w.tx ++ cmd_frame H H.CMD_VERIFY ((le32 a).take 3 ++ (le32 e).take 3) ::
          (chunks (rom.take (e - a + 1))).map (fun q => data_frame H q.1 q.2) ∧
        w1.rx = s) ∧
    (chunks (rom.take (e - a + 1))).length = (e - a + 1 + 255) / 256 ∧
    (∀ q ∈ chunks (rom.take (e - a + 1)), q.1.length ≤ 256) ∧
    ((chunks (rom.take (e - a + 1))).map Prod.fst).flatten = rom.take (e - a + 1) ∧
    (∀ k, k < (e - a + 1 + 255) / 256 →
      ((chunks (rom.take (e - a + 1))).map Prod.snd)[k]? =
        some (if k + 1 < (e - a + 1 + 255) / 256 then 0 else 1)) ∧
    (∀ q ∈ chunks (rom.take (e - a + 1)),
      (data_frame H q.1 q.2).getLast? = some ((if q.2 ≠ 0 then H.ETX else H.ETB) % 256)) ∧
    (∀ (fuel : Nat) (v : World) (rc : Int) (data : List Nat) (n : Nat) (p : List Nat)
        (t : Nat → Nat) (d0 d1 : Nat),
      n ≠ 0 → n ≤ p.length → n < U32 → 2 ≤ data.length → d0 < 256 → d1 < 256 →
      v.rx = feed (echo v.communication_mode
        (data_frame H (p.take (min n 256)) (if 256 < n then 0 else 1)) ++
          status2_frame H d0 d1) t →
      rl78_cmd_verify_loop H (fuel + 1) v rc data n p =
          rl78_cmd_programming_loop H (fuel + 1) v rc data n p ∧
        rl78_cmd_programming_loop H (fuel + 1) v rc data n p =
          if H.STATUS_ACK ≠ d0 then
            some (true, (d0 : Int), d0 :: d1 :: data.drop 2,
              { sent v (data_frame H (p.take (min n 256)) (if 256 < n then 0 else 1)) with
                rx := t })
          else if H.STATUS_ACK ≠ d1 then
            some (true, (d1 : Int), d0 :: d1 :: data.drop 2,
              { sent v (data_frame H (p.take (min n 256)) (if 256 < n then 0 else 1)) with
                rx := t })
          else
            rl78_cmd_programming_loop H fuel
              { sent v (data_frame H (p.take (min n 256)) (if 256 < n then 0 else 1)) with
                rx := t }
              H.RESPONSE_OK (d0 :: d1 :: data.drop 2) (n - min n 256)
              (p.drop (min n 256))) := by
  have hN := range_length a e (e - a + 1) hae he rfl hNU
  have hlen : (rom.take (e - a + 1)).length = e - a + 1 := by
    rw [List.length_take]; omega
  have hcount : (chunks (rom.take (e - a + 1))).length = (e - a + 1 + 255) / 256 := by
    unfold chunks
    rw [List.length_map, List.length_range, hlen]
  refine ⟨?_, ?_, hcount, ?_, chunks_flatten _ _ (le_refl _), ?_, ?_, ?_⟩
  · intro hrx
    have := rl78_cmd_programming_ack H hH hA hM w a e rom s (by rw [hN]; exact hrom)
      (by rw [hN]; exact hrx)
    rw [hN] at this
    exact this
  · intro hrx
    have := rl78_cmd_verify_ack H hH hA hM w a e rom s (by rw [hN]; exact hrom)
      (by rw [hN]; exact hrx)
    rw [hN] at this
    exact this
  · intro q hq
    unfold chunks at hq
    rw [List.mem_map] at hq
    obtain ⟨k, -, rfl⟩ := hq
    rw [List.length_take]
    exact Nat.min_le_left _ _
  · intro k hk
    unfold chunks
    rw [List.map_map, hlen, List.getElem?_map, List.getElem?_range hk]
    rfl
  · intro q _
    unfold data_frame
    rw [List.getLast?_append_of_ne_nil _ (by simp)]
    rfl
  · intro fuel v rc data n p t d0 d1 hn hlen hU h2 hd0 hd1 hrx
    exact ⟨rl78_cmd_verify_loop_eq H (fuel + 1) v rc data n p,
      rl78_cmd_programming_loop_step H hH hM fuel v rc data n p t d0 d1 hn hlen hU h2 hd0 hd1
        hrx⟩

/-- C16, witness: programming the 300 bytes of the range `[0, 299]` over a single-wire port
whose target answers `ACK` throughout succeeds with three records written: the command
record and `ceil(300 / 256) = 2` data records. -/
theorem rl78_cmd_transfer_frames_witness :
    ∃ w1, rl78_cmd_programming rl78_h
        (quiet 1 (feed (echo 1
            (cmd_frame rl78_h rl78_h.CMD_PROGRAMMING ((le32 0).take 3 ++ (le32 299).take 3)) ++
          (status_frame rl78_h rl78_h.STATUS_ACK ++
            (transfer_script rl78_h 1 (chunks ((List.replicate 300 0x5A).take (299 - 0 + 1))) ++
              status_frame rl78_h rl78_h.STATUS_ACK))) (fun _ => 0)))
        0 299 (List.replicate 300 0x5A) = some (0, w1) ∧
      w1.tx.length = 3 ∧ w1.rx = fun _ => 0 := by
  obtain ⟨hprog, -, hcount, -⟩ := rl78_cmd_transfer_frames rl78_h (by decide) (by decide)
    (by decide)
    (quiet 1 (feed (echo 1
        (cmd_frame rl78_h rl78_h.CMD_PROGRAMMING ((le32 0).take 3 ++ (le32 299).take 3)) ++
      (status_frame rl78_h rl78_h.STATUS_ACK ++
        (transfer_script rl78_h 1 (chunks ((List.replicate 300 0x5A).take (299 - 0 + 1))) ++
          status_frame rl78_h rl78_h.STATUS_ACK))) (fun _ => 0)))
    0 299 (List.replicate 300 0x5A) (fun _ => 0) (by decide) (by decide) (by decide)
    (by rw [List.length_replicate])
  obtain ⟨w1, h1, h2, h3⟩ := hprog (by
    rw [show ∀ x, (quiet 1 x).communication_mode = 1 from fun _ => rfl,
      show ∀ x, (quiet 1 x).rx = x from fun _ => rfl])
  refine ⟨w1, h1, ?_, h3⟩
  rw [h2, List.length_append, List.length_cons, List.length_map, hcount]
  rfl

/-- C13: for a block size `2 ^ k`, every start address and every size `s` (both
`unsigned int`), `rl78_program`, `rl78_erase` and `rl78_verify` behave exactly as when
called with `s` rounded down to a multiple of `FLASH_BLOCK_SIZE`; each is the sequence of the
visits of the `floor(s / FLASH_BLOCK_SIZE)` blocks at the addresses
`start + j * FLASH_BLOCK_SIZE`, ended early only by a visit that leaves the loop, each visit
being given the bytes of its own block only and each command range being
`[a, a + FLASH_BLOCK_SIZE - 1]`, which holds `FLASH_BLOCK_SIZE` bytes; the loop terminates
with a result; the result does not depend on the bytes of the image beyond the rounded size;
and `s < FLASH_BLOCK_SIZE` yields no command and the result 0. -/
theorem rl78_size_rounded_down (H : Header) (hM : 2 ≤ H.MAX_RESPONSE_LENGTH) (k : Nat)
    (hk : k ≤ 31) (hF : H.FLASH_BLOCK_SIZE = 2 ^ k) (w : World) (start : Nat)
    (data : List Nat) (s : Nat) (hstart : start < U32) (hs : s < U32)
    (hlen : s / H.FLASH_BLOCK_SIZE * H.FLASH_BLOCK_SIZE ≤ data.length) :
    (rl78_program H w start data s =
        rl78_program H w start data (s / H.FLASH_BLOCK_SIZE * H.FLASH_BLOCK_SIZE) ∧
      rl78_erase H w start s =
        rl78_erase H w start (s / H.FLASH_BLOCK_SIZE * H.FLASH_BLOCK_SIZE) ∧
      rl78_verify H w start data s =
        rl78_verify H w start data (s / H.FLASH_BLOCK_SIZE * H.FLASH_BLOCK_SIZE)) ∧
    (rl78_program H w start data s =
        for_blocks (program_block H) H.FLASH_BLOCK_SIZE start data (s / H.FLASH_BLOCK_SIZE)
          0 w 0 ∧
      rl78_erase H w start s =
        for_blocks (fun v _ a _ => erase_block H v a) H.FLASH_BLOCK_SIZE start []
          (s / H.FLASH_BLOCK_SIZE) 0 w 0 ∧
      rl78_verify H w start data s =
        for_blocks (fun v _ a mem => verify_block H v a mem) H.FLASH_BLOCK_SIZE start data
          (s / H.FLASH_BLOCK_SIZE) 0 w 0) ∧
    (∀ a, sub32 (add32 a H.FLASH_BLOCK_SIZE) 1 = (a + H.FLASH_BLOCK_SIZE - 1) % U32 ∧
      add32 (sub32 (sub32 (add32 a H.FLASH_BLOCK_SIZE) 1) a) 1 = H.FLASH_BLOCK_SIZE) ∧
    ((∃ r, rl78_program H w start data s = some r) ∧
      (∃ r, rl78_erase H w start s = some r) ∧
      (∃ r, rl78_verify H w start data s = some r)) ∧
    (∀ data1 : List Nat,
      data1.take (s / H.FLASH_BLOCK_SIZE * H.FLASH_BLOCK_SIZE) =
        data.take (s / H.FLASH_BLOCK_SIZE * H.FLASH_BLOCK_SIZE) →
      rl78_program H w start data1 s = rl78_program H w start data s ∧
        rl78_verify H w start data1 s = rl78_verify H w start data s) ∧
    (s < H.FLASH_BLOCK_SIZE →
      rl78_program H w start data s = some (0, w) ∧
        rl78_erase H w start s = some (0, w) ∧
        rl78_verify H w start data s = some (0, w)) := by
  obtain ⟨hpos, hFU, hle, -⟩ := block_size_facts H k hk hF s
  have hp := rl78_program_blocks H k hk hF w start data s hstart hs
  have he := rl78_erase_blocks H k hk hF w start s hstart hs
  have hv := rl78_verify_blocks H k hk hF w start data s hstart hs
  have hdiv : s / H.FLASH_BLOCK_SIZE * H.FLASH_BLOCK_SIZE / H.FLASH_BLOCK_SIZE =
      s / H.FLASH_BLOCK_SIZE := Nat.mul_div_cancel _ hpos
  refine ⟨⟨?_, ?_, ?_⟩, ⟨hp, he, hv⟩, ?_, ⟨?_, ?_, ?_⟩, ?_, ?_⟩
  · rw [hp, rl78_program_blocks H k hk hF w start data _ hstart (by omega), hdiv]
  · rw [he, rl78_erase_blocks H k hk hF w start _ hstart (by omega), hdiv]
  · rw [hv, rl78_verify_blocks H k hk hF w start data _ hstart (by omega), hdiv]
  · exact fun a => ⟨command_range a _ hpos, block_range a _ hFU⟩
  · rw [hp]
    exact for_blocks_total _ _ _ _ _ 0 w 0 (fun v c a j hj =>
      program_block_total H hM hFU v c a _ (le_of_eq (block_length data j _ _
        (Nat.mul_le_mul_right _ (by omega)) hlen).symm))
  · rw [he]
    exact for_blocks_total _ _ _ _ _ 0 w 0 (fun v _ a _ _ => erase_block_total H hM v a)
  · rw [hv]
    exact for_blocks_total _ _ _ _ _ 0 w 0 (fun v _ a j hj =>
      verify_block_total H hM hFU v a _ (le_of_eq (block_length data j _ _
        (Nat.mul_le_mul_right _ (by omega)) hlen).symm))
  · intro data1 h1
    rw [hp, hv, rl78_program_blocks H k hk hF w start data1 s hstart hs,
      rl78_verify_blocks H k hk hF w start data1 s hstart hs]
    exact ⟨for_blocks_congr _ _ _ data data1 _ 0 w 0 (blocks_of_take_eq data data1 _ _ h1),
      for_blocks_congr _ _ _ data data1 _ 0 w 0 (blocks_of_take_eq data data1 _ _ h1)⟩
  · intro hlt
    rw [hp, he, hv, Nat.div_eq_of_lt hlt]
    exact ⟨rfl, rfl, rfl⟩

/-- C13, witness: with the block size 1024, a size of 1500 bytes acts as a size of 1024
bytes, and a size of 1000 bytes yields no command and the result 0. -/
theorem rl78_size_rounded_down_witness :
    rl78_program rl78_h (quiet 2 (fun _ => 0)) 0x1000 (List.replicate 1500 0xFF) 1500 =
        rl78_program rl78_h (quiet 2 (fun _ => 0)) 0x1000 (List.replicate 1500 0xFF)
          (1500 / rl78_h.FLASH_BLOCK_SIZE * rl78_h.FLASH_BLOCK_SIZE) ∧
      1500 / rl78_h.FLASH_BLOCK_SIZE * rl78_h.FLASH_BLOCK_SIZE = 1024 ∧
      rl78_erase rl78_h (quiet 2 (fun _ => 0)) 0x1000 1000 =
        some (0, quiet 2 (fun _ => 0)) :=
  ⟨(rl78_size_rounded_down rl78_h (by decide) 10 (by decide) (by decide)
      (quiet 2 (fun _ => 0)) 0x1000 (List.replicate 1500 0xFF) 1500 (by decide) (by decide)
      (by rw [List.length_replicate]; decide)).1.1,
    by decide,
    ((rl78_size_rounded_down rl78_h (by decide) 10 (by decide) (by decide)
      (quiet 2 (fun _ => 0)) 0x1000 [] 1000 (by decide) (by decide)
      (by decide)).2.2.2.2.2 (by decide)).2.1⟩

/-! ## The receive buffer and the port state: auxiliary results -/

/-- Every world `rl78_recv` returns is the given one with some input bytes taken. -/
theorem rl78_recv_world (H : Header) (hM : 2 ≤ H.MAX_RESPONSE_LENGTH) (w : World)
    (data : List Nat) (len explen : Int) (r : Recv)
    (h : rl78_recv H w data len explen = some r) : ∃ k, r.world = w.skip k := by
  rw [rl78_recv_eq H w data len explen hM] at h
  simp only [] at h
  split_ifs at h <;> first
    | (cases h; exact ⟨2, rfl⟩)
    | (cases h; exact ⟨2 + (w.data_len + 2), skip_skip w 2 _⟩)

theorem body_take (w : World) (n : Nat) :
    ((List.range (n + 2)).map (fun i => (w.skip 2).byte i)).take n =
      (List.range n).map (fun i => w.byte (2 + i)) := by
  rw [← List.map_take, List.take_range, Nat.min_eq_left (by omega)]
  rfl

/-- The outcome of `rl78_recv` on its last path, where the payload is copied. -/
theorem rl78_recv_success (H : Header) (hC : H.codes) (hM : 2 ≤ H.MAX_RESPONSE_LENGTH)
    (w : World) (data : List Nat) (len explen : Int) (r : Recv)
    (h : rl78_recv H w data len explen = some r) (hok : r.rc = H.RESPONSE_OK) :
    explen = (w.data_len : Int) ∧ w.data_len + 4 ≤ H.MAX_RESPONSE_LENGTH ∧
      w.data_len ≤ data.length ∧
      r.data = (List.range w.data_len).map (fun i => w.byte (2 + i)) ++
        data.drop w.data_len ∧
      r.len = (w.data_len : Int) := by
  obtain ⟨h0, h1, h2, h3⟩ := hC
  rw [rl78_recv_eq H w data len explen hM] at h
  simp only [] at h
  split_ifs at h with g1 g2 g3 g4 g5
  · cases h; simp only [] at hok; omega
  · cases h; simp only [] at hok; omega
  · cases h; simp only [] at hok; omega
  · cases h; simp only [] at hok; omega
  · cases h
    refine ⟨not_not.mp g2, by omega, g5, ?_, rfl⟩
    simp only [body_take]

theorem sent_baud (w : World) (f : List Nat) : (sent w f).baud = w.baud := by
  unfold sent
  split_ifs <;> rfl

/-- `rl78_cmd_baud_rate_set` in terms of the reply that `rl78_recv` decodes. -/
theorem rl78_cmd_baud_rate_set_eq (H : Header) (w : World) (baud tenths : Int) :
    rl78_cmd_baud_rate_set H w baud tenths =
      match rl78_recv H (sent w (cmd_frame H H.CMD_BAUD_RATE_SET
          [(baud_switch H baud).2 % 256, (tenths % 256).toNat])) [0, 0, 0] 0 3 with
      | none => none
      | some r =>
        if H.RESPONSE_OK ≠ r.rc then some (r.rc, r.world)
        else
          match r.data[0]? with
          | none => none
          | some d0 =>
            if H.STATUS_ACK ≠ d0 then some ((d0 : Int), r.world)
            else if 115200 = (baud_switch H baud).1 then some (0, r.world)
            else some (serial_set_baud r.world (baud_switch H baud).1.toNat) := by
  have hs := rl78_send_cmd_eq H w H.CMD_BAUD_RATE_SET
    [(baud_switch H baud).2 % 256, (tenths % 256).toNat] 2 (by decide) (le_refl _)
  have ht : List.take 2 [(baud_switch H baud).2 % 256, (tenths % 256).toNat] =
      [(baud_switch H baud).2 % 256, (tenths % 256).toNat] := rfl
  rw [ht] at hs
  unfold rl78_cmd_baud_rate_set
  simp only [hs]

/-- The record that carries three status bytes is decoded into the caller's buffer. -/
theorem rl78_recv_status3 (H : Header) (hH : H.framing) (hM : 7 ≤ H.MAX_RESPONSE_LENGTH)
    (v : World) (s : Nat → Nat) (d0 d1 d2 : Nat) (hd0 : d0 < 256) (hd1 : d1 < 256)
    (hd2 : d2 < 256) (data : List Nat) (len : Int) (h3 : 3 ≤ data.length)
    (hrx : v.rx = feed (status3_frame H d0 d1 d2) s) :
    rl78_recv H v data len 3 =
      some ⟨H.RESPONSE_OK, d0 :: d1 :: d2 :: data.drop 3, 3, { v with rx := s }⟩ := by
  obtain ⟨-, h2x, -, h4⟩ := hH
  have := rl78_recv_record H v s H.STX 3 (neg8 (3 + d0 + d1 + d2)) H.ETX [d0, d1, d2] data
    len 3 hrx h2x (by decide) (neg8_lt _) h4 (by
      intro b hb
      simp only [List.mem_cons, List.mem_singleton, List.not_mem_nil, or_false] at hb
      rcases hb with h | h | h <;> omega) rfl (by omega)
  rw [this]
  rw [if_neg (by simp; omega), if_neg (by simp), if_neg (by simp),
    if_neg (by simp [Nat.add_assoc]), if_pos (by simpa using h3)]
  rfl

/-- The switch on the four supported rates, and on every other rate. -/
theorem baud_switch_table (H : Header) :
    baud_switch H 115200 = (115200, H.RL78_BAUD_115200) ∧
      baud_switch H 250000 = (250000, H.RL78_BAUD_250000) ∧
      baud_switch H 500000 = (500000, H.RL78_BAUD_500000) ∧
      baud_switch H 1000000 = (1000000, H.RL78_BAUD_1000000) ∧
      ∀ baud : Int, baud ≠ 115200 → baud ≠ 250000 → baud ≠ 500000 → baud ≠ 1000000 →
        baud_switch H baud = (115200, H.RL78_BAUD_115200) := by
  refine ⟨?_, ?_, ?_, ?_, ?_⟩
  · simp [baud_switch]
  · simp [baud_switch]
  · simp [baud_switch]
  · simp [baud_switch]
  · intro baud h1 h2 h3 h4
    simp [baud_switch, h1, h2, h3, h4]

/-- The reply to the baud rate command and what `rl78_cmd_baud_rate_set` makes of it, for a
rate `rate` that the switch maps to itself with the code `code`. -/
theorem rl78_cmd_baud_rate_set_reply (H : Header) (hM : 2 ≤ H.MAX_RESPONSE_LENGTH)
    (w : World) (rate : Nat) (code : Nat) (tenths : Int)
    (hsw : baud_switch H (rate : Int) = ((rate : Int), code)) :
    ∃ r, rl78_recv H (sent w (cmd_frame H H.CMD_BAUD_RATE_SET
          [code % 256, (tenths % 256).toNat])) [0, 0, 0] 0 3 = some r ∧
      r.world.tx = w.tx ++ [cmd_frame H H.CMD_BAUD_RATE_SET
        [code % 256, (tenths % 256).toNat]] ∧
      r.world.baud = w.baud ∧
      rl78_cmd_baud_rate_set H w (rate : Int) tenths =
        if H.RESPONSE_OK ≠ r.rc then some (r.rc, r.world)
        else if H.STATUS_ACK ≠ r.data.getD 0 0 then some ((r.data.getD 0 0 : Nat), r.world)
        else if rate = 115200 then some (0, r.world)
        else some (r.world.set_baud_result rate,
          { r.world with baud := w.baud ++ [rate] }) := by
  obtain ⟨r, hr1, hr2, hr3⟩ := rl78_recv_shape H
    (sent w (cmd_frame H H.CMD_BAUD_RATE_SET [code % 256, (tenths % 256).toNat]))
    [0, 0, 0] 0 3 hM (by decide)
  obtain ⟨k, hk⟩ := rl78_recv_world H hM _ _ _ _ r hr1
  have hbaud : r.world.baud = w.baud := by
    rw [hk]; exact sent_baud w _
  obtain ⟨d0, t, hdd⟩ := list_cons r.data (by rw [hr3]; decide)
  refine ⟨r, hr1, hr2.trans (sent_tx _ _), hbaud, ?_⟩
  have hr1b : rl78_recv H (sent w (cmd_frame H H.CMD_BAUD_RATE_SET
      [code % 256, (tenths % 256).toNat])) [0, 0, 0] 0 3 = some r := hr1
  rw [rl78_cmd_baud_rate_set_eq, hsw]
  simp only [hr1b, hdd, List.getElem?_cons_zero, List.getD_cons_zero, serial_set_baud,
    Int.toNat_ofNat, hbaud]
  have e : ((115200 : Int) = (rate : Int)) ↔ rate = 115200 := by
    constructor
    · intro h; exact_mod_cast h.symm
    · intro h; rw [h]; rfl
  simp only [e]

theorem sent_set_baud_result (w : World) (f : List Nat) :
    (sent w f).set_baud_result = w.set_baud_result := by
  unfold sent
  split_ifs <;> rfl

/-! ## The remaining claims on the codec and on the baud rate -/

/-- C22: for every payload length greater than 255, `rl78_send_cmd` returns the negative
value -1 and leaves the port as it was: nothing is written and nothing is read.  For every
length from 0 to 255 it returns the result of the port write of the complete frame of
`len + 5` bytes, which is the one buffer handed to the port. -/
theorem rl78_send_cmd_result (H : Header) (w : World) (cmd : Nat) (data : List Nat)
    (len : Nat) :
    (255 < len →
      rl78_send_cmd H w cmd data len = some (-1, w) ∧ (-1 : Int) < 0) ∧
    (len ≤ 255 → len ≤ data.length →
      rl78_send_cmd H w cmd data len =
          some ((serial_write w (cmd_frame H cmd (data.take len))).1,
            sent w (cmd_frame H cmd (data.take len))) ∧
        (cmd_frame H cmd (data.take len)).length = len + 5 ∧
        (sent w (cmd_frame H cmd (data.take len))).tx =
          w.tx ++ [cmd_frame H cmd (data.take len)]) := by
  constructor
  · intro h
    refine ⟨?_, by decide⟩
    unfold rl78_send_cmd
    rw [if_pos h]
  · intro h255 hlen
    refine ⟨rl78_send_cmd_eq H w cmd data len h255 hlen, ?_, sent_tx _ _⟩
    simp [cmd_frame, hlen]

/-- C22, witness: a length of 300 is refused with -1 and an untouched port; a length of 2 is
framed and the result of the write (here the number of bytes written, 7) is returned. -/
theorem rl78_send_cmd_result_witness :
    rl78_send_cmd rl78_h (quiet 1 (fun _ => 0)) 0x9A [] 300 =
        some (-1, quiet 1 (fun _ => 0)) ∧
      (rl78_send_cmd rl78_h (quiet 1 (fun _ => 0)) 0x9A [0x00, 0x21] 2).map Prod.fst =
        some 7 :=
  ⟨((rl78_send_cmd_result rl78_h (quiet 1 (fun _ => 0)) 0x9A [] 300).1 (by decide)).1,
    by
      rw [((rl78_send_cmd_result rl78_h (quiet 1 (fun _ => 0)) 0x9A [0x00, 0x21] 2).2
        (by decide) (by decide)).1]
      rfl⟩

/-- C23: for every input stream and every expected length, the accesses of `rl78_recv` to
its receive buffer of `MAX_RESPONSE_LENGTH` bytes are in bounds.  The function returns a
result unless the caller's own buffer is too short for the payload it is about to receive:
no access to the receive buffer is ever outside it.  A decoded length above
`MAX_RESPONSE_LENGTH - 4` is rejected with the format error when only the two header bytes
have been read; a decoded length that passes this check puts the body read of
`data_len + 2` bytes at offset 2, the trailer at index `data_len + 3`, the checksum span of
`data_len + 1` bytes from index 1 and the checksum byte at index `data_len + 2` below
`MAX_RESPONSE_LENGTH`.  On success exactly `data_len` bytes, `data_len` being the expected
length, are copied to the start of the caller's buffer, the rest of which is untouched. -/
theorem rl78_recv_in_bounds (H : Header) (hM : 2 ≤ H.MAX_RESPONSE_LENGTH) (w : World)
    (data : List Nat) (len explen : Int) :
    ((∀ n : Nat, explen = (n : Int) → n ≤ data.length) →
      ∃ r, rl78_recv H w data len explen = some r) ∧
    (rl78_recv H w data len explen = none →
      explen = (w.data_len : Int) ∧ data.length < w.data_len) ∧
    ((H.MAX_RESPONSE_LENGTH : Int) - 4 < (w.data_len : Int) →
      rl78_recv H w data len explen =
        some ⟨H.RESPONSE_FORMAT_ERROR, data, len, w.skip 2⟩) ∧
    (¬ ((H.MAX_RESPONSE_LENGTH : Int) - 4 < (w.data_len : Int)) →
      2 + (w.data_len + 2) ≤ H.MAX_RESPONSE_LENGTH ∧
        w.data_len + 3 < H.MAX_RESPONSE_LENGTH ∧
        1 + (w.data_len + 1) ≤ H.MAX_RESPONSE_LENGTH ∧
        w.data_len + 2 < H.MAX_RESPONSE_LENGTH) ∧
    (H.codes → ∀ r, rl78_recv H w data len explen = some r → r.rc = H.RESPONSE_OK →
      explen = (w.data_len : Int) ∧ r.len = explen ∧
        w.data_len + 4 ≤ H.MAX_RESPONSE_LENGTH ∧
        r.data.take w.data_len = (List.range w.data_len).map (fun i => w.byte (2 + i)) ∧
        r.data.drop w.data_len = data.drop w.data_len ∧
        r.data.length = data.length) := by
  have hpos : 1 ≤ w.data_len := by
    unfold World.data_len
    split_ifs with h <;> omega
  refine ⟨?_, ?_, ?_, ?_, ?_⟩
  · intro hdata
    rw [rl78_recv_eq H w data len explen hM]
    simp only []
    split_ifs with g1 g2 g3 g4 g5
    · exact ⟨_, rfl⟩
    · exact ⟨_, rfl⟩
    · exact ⟨_, rfl⟩
    · exact ⟨_, rfl⟩
    · exact ⟨_, rfl⟩
    · exact absurd (hdata _ (not_not.mp g2)) g5
  · intro hnone
    rw [rl78_recv_eq H w data len explen hM] at hnone
    simp only [] at hnone
    split_ifs at hnone with g1 g2 g3 g4 g5
    exact ⟨not_not.mp g2, by omega⟩
  · intro hbig
    rw [rl78_recv_eq H w data len explen hM]
    simp only []
    rw [if_pos (Or.inl (by omega))]
  · intro hfit
    omega
  · intro hC r hr hok
    obtain ⟨h1, h2, h3, h4, h5⟩ := rl78_recv_success H hC hM w data len explen r hr hok
    have hl : ((List.range w.data_len).map (fun i => w.byte (2 + i))).length = w.data_len := by
      rw [List.length_map, List.length_range]
    refine ⟨h1, by rw [h5, h1], h2, ?_, ?_, ?_⟩
    · rw [h4, List.take_left' hl]
    · rw [h4, List.drop_left' hl]
    · rw [h4, List.length_append, hl, List.length_drop]
      omega

/-- C23, witness: with a receive buffer of 32 bytes, a record whose length byte is 29 is
rejected after the header, and the one-byte status record `02 01 06 F9 03` is received with
the payload copied to the caller. -/
theorem rl78_recv_in_bounds_witness :
    rl78_recv rl78_h (quiet 2 (feed [0x02, 29] (fun _ => 0))) [0] 0 29 =
        some ⟨-1, [0], 0, (quiet 2 (feed [0x02, 29] (fun _ => 0))).skip 2⟩ ∧
      ∃ r, rl78_recv rl78_h (quiet 2 (feed [0x02, 0x01, 0x06, 0xF9, 0x03] (fun _ => 0)))
        [0] 0 1 = some r :=
  ⟨(rl78_recv_in_bounds rl78_h (by decide) (quiet 2 (feed [0x02, 29] (fun _ => 0)))
      [0] 0 29).2.2.1 (by decide),
    (rl78_recv_in_bounds rl78_h (by decide)
      (quiet 2 (feed [0x02, 0x01, 0x06, 0xF9, 0x03] (fun _ => 0))) [0] 0 1).1
      (fun n hn => by
        have : n = 1 := by exact_mod_cast hn.symm
        rw [this]; decide)⟩

/-- C21: every requested baud outside {115200, 250000, 500000, 1000000} makes
`rl78_cmd_baud_rate_set` behave exactly as for 115200: the same command record, carrying the
code `RL78_BAUD_115200`, and the same result.  For each of the four rates the command record
carries the code of the rate, and the outcome follows the reply: a codec error or a status
other than `ACK` is returned with the port's baud unchanged; after `ACK` the rate 115200
returns 0 without `serial_set_baud` being called, and each of the other three rates is
handed to `serial_set_baud`, whose result is returned.  For 115200, requested or coerced,
the port's baud is never changed.  The last part shows the `ACK` reply at work. -/
theorem rl78_cmd_baud_rate_set_coercion (H : Header) (hM : 2 ≤ H.MAX_RESPONSE_LENGTH)
    (w : World) (tenths : Int) :
    (∀ baud : Int, baud ≠ 115200 → baud ≠ 250000 → baud ≠ 500000 → baud ≠ 1000000 →
      rl78_cmd_baud_rate_set H w baud tenths = rl78_cmd_baud_rate_set H w 115200 tenths) ∧
    (∀ (rate code : Nat),
      (rate = 115200 ∧ code = H.RL78_BAUD_115200) ∨
        (rate = 250000 ∧ code = H.RL78_BAUD_250000) ∨
        (rate = 500000 ∧ code = H.RL78_BAUD_500000) ∨
        (rate = 1000000 ∧ code = H.RL78_BAUD_1000000) →
      ∃ r, rl78_recv H (sent w (cmd_frame H H.CMD_BAUD_RATE_SET
            [code % 256, (tenths % 256).toNat])) [0, 0, 0] 0 3 = some r ∧
        r.world.tx = w.tx ++ [cmd_frame H H.CMD_BAUD_RATE_SET
          [code % 256, (tenths % 256).toNat]] ∧
        r.world.baud = w.baud ∧
        rl78_cmd_baud_rate_set H w (rate : Int) tenths =
          if H.RESPONSE_OK ≠ r.rc then some (r.rc, r.world)
          else if H.STATUS_ACK ≠ r.data.getD 0 0 then
            some ((r.data.getD 0 0 : Nat), r.world)
          else if rate = 115200 then some (0, r.world)
          else some (r.world.set_baud_result rate,
            { r.world with baud := w.baud ++ [rate] })) ∧
    (∃ ret w1, rl78_cmd_baud_rate_set H w 115200 tenths = some (ret, w1) ∧
      w1.tx = w.tx ++ [cmd_frame H H.CMD_BAUD_RATE_SET
        [H.RL78_BAUD_115200 % 256, (tenths % 256).toNat]] ∧
      w1.baud = w.baud) ∧
    (H.framing → H.STATUS_ACK < 256 → 7 ≤ H.MAX_RESPONSE_LENGTH →
      ∀ (rate code : Nat) (s : Nat → Nat) (f m : Nat),
      (rate = 115200 ∧ code = H.RL78_BAUD_115200) ∨
        (rate = 250000 ∧ code = H.RL78_BAUD_250000) ∨
        (rate = 500000 ∧ code = H.RL78_BAUD_500000) ∨
        (rate = 1000000 ∧ code = H.RL78_BAUD_1000000) →
      f < 256 → m < 256 →
      (sent w (cmd_frame H H.CMD_BAUD_RATE_SET [code % 256, (tenths % 256).toNat])).rx =
        feed (status3_frame H H.STATUS_ACK f m) s →
      rl78_cmd_baud_rate_set H w (rate : Int) tenths =
        if rate = 115200 then
          some (0, { sent w (cmd_frame H H.CMD_BAUD_RATE_SET
            [code % 256, (tenths % 256).toNat]) with rx := s })
        else
          some (w.set_baud_result rate,
            { sent w (cmd_frame H H.CMD_BAUD_RATE_SET
                [code % 256, (tenths % 256).toNat]) with
              rx := s, baud := w.baud ++ [rate] })) := by
  obtain ⟨t1, t2, t3, t4, t5⟩ := baud_switch_table H
  have hsw : ∀ rate code : Nat,
      (rate = 115200 ∧ code = H.RL78_BAUD_115200) ∨
        (rate = 250000 ∧ code = H.RL78_BAUD_250000) ∨
        (rate = 500000 ∧ code = H.RL78_BAUD_500000) ∨
        (rate = 1000000 ∧ code = H.RL78_BAUD_1000000) →
      baud_switch H (rate : Int) = ((rate : Int), code) := by
    intro rate code h
    rcases h with ⟨h1, h2⟩ | ⟨h1, h2⟩ | ⟨h1, h2⟩ | ⟨h1, h2⟩
    · rw [h1, h2]; exact t1
    · rw [h1, h2]; exact t2
    · rw [h1, h2]; exact t3
    · rw [h1, h2]; exact t4
  refine ⟨?_, ?_, ?_, ?_⟩
  · intro baud h1 h2 h3 h4
    rw [rl78_cmd_baud_rate_set_eq, rl78_cmd_baud_rate_set_eq, t5 baud h1 h2 h3 h4, t1]
  · intro rate code h
    exact rl78_cmd_baud_rate_set_reply H hM w rate code tenths (hsw rate code h)
  · obtain ⟨r, -, h2, h3, h4⟩ := rl78_cmd_baud_rate_set_reply H hM w 115200
      H.RL78_BAUD_115200 tenths t1
    have h4b : rl78_cmd_baud_rate_set H w 115200 tenths = _ := h4
    rw [h4b]
    split_ifs with g1 g2 g3
    · exact ⟨_, _, rfl, h2, h3⟩
    · exact ⟨_, _, rfl, h2, h3⟩
    · exact ⟨_, _, rfl, h2, h3⟩
    · exact absurd rfl g3
  · intro hH hA hM7 rate code s f m h hf hm hrx
    obtain ⟨r, h1, -, -, h4⟩ := rl78_cmd_baud_rate_set_reply H hM w rate code tenths
      (hsw rate code h)
    have hr := rl78_recv_status3 H hH hM7 _ s H.STATUS_ACK f m hA hf hm [0, 0, 0] 0
      (by decide) hrx
    have hreq := Option.some.inj (h1.symm.trans hr)
    rw [h4, hreq]
    simp only [ne_eq, not_true_eq_false, if_false, List.getD_cons_zero]
    split_ifs
    · rfl
    · rw [sent_set_baud_result]

/-- C21, witness: on a two-wire port whose target answers `ACK`, 32 MHz, full-speed mode,
a request for 57600 acts as a request for 115200 and leaves the port's baud alone, and a
request for 500000 hands 500000 to the port. -/
theorem rl78_cmd_baud_rate_set_coercion_witness :
    rl78_cmd_baud_rate_set rl78_h
        (quiet 2 (feed [0x02, 0x03, 0x06, 0x20, 0x00, 0xD7, 0x03] (fun _ => 0))) 57600 33 =
      rl78_cmd_baud_rate_set rl78_h
        (quiet 2 (feed [0x02, 0x03, 0x06, 0x20, 0x00, 0xD7, 0x03] (fun _ => 0))) 115200 33 ∧
    (rl78_cmd_baud_rate_set rl78_h
        (quiet 2 (feed [0x02, 0x03, 0x06, 0x20, 0x00, 0xD7, 0x03] (fun _ => 0)))
        115200 33).map (fun x => (x.1, x.2.baud)) = some (0, []) ∧
    (rl78_cmd_baud_rate_set rl78_h
        (quiet 2 (feed [0x02, 0x03, 0x06, 0x20, 0x00, 0xD7, 0x03] (fun _ => 0)))
        500000 33).map (fun x => (x.1, x.2.baud)) = some (0, [500000]) := by
  have h := rl78_cmd_baud_rate_set_coercion rl78_h (by decide)
    (quiet 2 (feed [0x02, 0x03, 0x06, 0x20, 0x00, 0xD7, 0x03] (fun _ => 0))) 33
  refine ⟨h.1 57600 (by decide) (by decide) (by decide) (by decide), ?_, ?_⟩
  · have h1 := h.2.2.2 (by decide) (by decide) (by decide) 115200 rl78_h.RL78_BAUD_115200
      (fun _ => 0) 0x20 0x00 (Or.inl ⟨rfl, rfl⟩) (by decide) (by decide)
      ((sent_rx_of_ne _ _ (by decide)).trans (by
        rw [show status3_frame rl78_h rl78_h.STATUS_ACK 0x20 0x00 =
          [0x02, 0x03, 0x06, 0x20, 0x00, 0xD7, 0x03] from by decide]
        rfl))
    have h1b : rl78_cmd_baud_rate_set rl78_h
        (quiet 2 (feed [0x02, 0x03, 0x06, 0x20, 0x00, 0xD7, 0x03] (fun _ => 0)))
        115200 33 = _ := h1
    rw [h1b, if_pos rfl]
    rfl
  · have h1 := h.2.2.2 (by decide) (by decide) (by decide) 500000 rl78_h.RL78_BAUD_500000
      (fun _ => 0) 0x20 0x00 (Or.inr (Or.inr (Or.inl ⟨rfl, rfl⟩))) (by decide) (by decide)
      ((sent_rx_of_ne _ _ (by decide)).trans (by
        rw [show status3_frame rl78_h rl78_h.STATUS_ACK 0x20 0x00 =
          [0x02, 0x03, 0x06, 0x20, 0x00, 0xD7, 0x03] from by decide]
        rfl))
    have h1b : rl78_cmd_baud_rate_set rl78_h
        (quiet 2 (feed [0x02, 0x03, 0x06, 0x20, 0x00, 0xD7, 0x03] (fun _ => 0)))
        500000 33 = _ := h1
    rw [h1b, if_neg (by decide)]
    rfl

end RL78
